import Mathlib

/-!
# The scenario execution engine of nodus (`pkg/exec/runner.go`)

A shallow embedding of the scenario runner: the step executors `RunAssert`,
`RunCreate`, `RunChange`, `RunDelete` and the driver `RunScenario`, over an
explicit model of the control plane they talk to.

Conventions of the embedding.

* A Go `error` is its message (`Error := String`); a function of result type
  `error` yields an `Outcome`: `nil`, an error, or a run-time fault (an index
  out of range).
* The control plane is a deterministic transition system over a state type `σ`
  (`kubernetes.Clientset σ`): every client call maps the state before the call
  to an answer and the state after it.  The runner threads a `Run σ`, the
  state of the control plane together with the chronological list of the calls
  issued so far, so that "issues no call" and "issues exactly these calls, in
  this order" are statements about `Run.calls`.
* `uint64` counters are natural numbers: the loops only count upwards to a
  bound that is itself a `uint64`, so no operation on them can wrap.
* A Go slice that may be nil is a `Slice`; typed strings (`config.Class`,
  `config.Object`, `corev1.PodPhase`, ...) are strings.
* `int(Delay.Seconds())` goes through a `float64`; the sum and the quotient of
  `Duration.Seconds` are modelled with their IEEE 754 rounding (`float64.round`),
  so a budget such as 16777216.999999999 s counts 16777217 steps, as in Go.
-/

namespace Nodus

/-- A Go `error` value, identified with the message it carries. -/
abbrev Error := String

/-- What a call of a Go function of result type `error` does: it returns nil,
returns an error, or faults at run time. -/
inductive Outcome where
  | nil : Outcome
  | err (e : Error) : Outcome
  | fault (reason : String) : Outcome
  deriving DecidableEq

/-- A Go slice value; `Slice.nil` is the nil slice, which has length 0 like
the empty slice `Slice.mk []` but compares equal to nil. -/
inductive Slice (α : Type) where
  | nil : Slice α
  | mk (elems : List α) : Slice α
  deriving DecidableEq

namespace Slice

/-- Go `len(s)`. -/
def len {α : Type} : Slice α → Nat
  | Slice.nil => 0
  | Slice.mk l => l.length

/-- Go `s[i]`; `none` is the index-out-of-range fault. -/
def index {α : Type} : Slice α → Nat → Option α
  | Slice.nil, _ => none
  | Slice.mk l, i => l.get? i

/-- The elements of a slice, in order. -/
def toList {α : Type} : Slice α → List α
  | Slice.nil => []
  | Slice.mk l => l

end Slice

/-! ## Kubernetes API types (the parts the runner touches) -/

namespace metav1

/-- A label map, `map[string]string`. -/
abbrev Labels := List (String × String)

/-- The fields of `metav1.ObjectMeta` the runner sets or reads. -/
structure ObjectMeta where
  Name : String
  Labels : Labels
  deriving DecidableEq

/-- The fields of `metav1.ListOptions` the runner sets; an unset field is "". -/
structure ListOptions where
  LabelSelector : String
  FieldSelector : String
  deriving DecidableEq

/-- A `metav1.Time`, as a number of clock ticks. -/
abbrev Time := Nat

end metav1

namespace corev1

/-- The type `corev1.PodPhase`, a string type. -/
abbrev PodPhase := String

def PodPending : PodPhase := "Pending"
def PodRunning : PodPhase := "Running"
def PodSucceeded : PodPhase := "Succeeded"
def PodFailed : PodPhase := "Failed"
def PodUnknown : PodPhase := "Unknown"

/-- The type `corev1.ConditionStatus`, a string type whose zero value is "". -/
abbrev ConditionStatus := String

def ConditionTrue : ConditionStatus := "True"
def ConditionFalse : ConditionStatus := "False"

/-- A pod condition record. -/
structure PodCondition where
  Type_ : String
  Status : ConditionStatus
  LastTransitionTime : metav1.Time
  deriving DecidableEq

/-- A pod status. -/
structure PodStatus where
  Phase : PodPhase
  Conditions : List PodCondition
  deriving DecidableEq

/-- A pod spec: carried from the class catalog into the pod, never inspected. -/
structure PodSpec where
  raw : String
  deriving DecidableEq

/-- A pod. -/
structure Pod where
  ObjectMeta : metav1.ObjectMeta
  Spec : PodSpec
  Status : PodStatus
  deriving DecidableEq

/-- A node; the runner reads only its name. -/
structure Node where
  ObjectMeta : metav1.ObjectMeta
  deriving DecidableEq

/-- The answer of a pod list query. -/
structure PodList where
  Items : Slice Pod
  deriving DecidableEq

/-- The answer of a node list query. -/
structure NodeList where
  Items : Slice Node
  deriving DecidableEq

end corev1

/-! ## Package `config`: steps, scenarios and the class catalog -/

namespace config

/-- Modelled from the spec: the declarations of package `config` are not among
the sources; `Verb` is a string type (the runner formats it with `%s`) with
one constant per verb of the step language.  The texts of the constants are
taken from the step language; the theorems use only that they differ. -/
abbrev Verb := String

def Assert : Verb := "assert"
def Create : Verb := "create"
def Change : Verb := "change"
def Delete : Verb := "delete"

/-- Modelled from the spec: the declarations of package `config` are not among
the sources; `Object` is a string type (the runner formats it with `%s`) with
the two object kinds of the step language as constants.  The texts of the
constants are taken from the step language; the theorems use only that they
differ. -/
abbrev Object := String

def Node : Object := "node"
def Pod : Object := "pod"

/-- The type `config.Class`, a string type. -/
abbrev Class := String

/-- The payload of an assert step.  `Delay` is a `time.Duration`, in
nanoseconds. -/
structure AssertStep where
  Count : Nat
  Class : Class
  Object : Object
  PodPhase : corev1.PodPhase
  Delay : Int
  deriving DecidableEq

/-- The payload of a create step. -/
structure CreateStep where
  Count : Nat
  Class : Class
  Object : Object
  deriving DecidableEq

/-- The payload of a change step. -/
structure ChangeStep where
  Count : Nat
  Class : Class
  Object : Object
  FromPodPhase : corev1.PodPhase
  ToPodPhase : corev1.PodPhase
  deriving DecidableEq

/-- The payload of a delete step. -/
structure DeleteStep where
  Count : Nat
  Class : Class
  Object : Object
  deriving DecidableEq

/-- A step: a verb and one pointer per payload, `none` being the nil pointer.
The steps of a scenario are themselves taken to be non-nil. -/
structure Step where
  Verb : Verb
  Assert : Option AssertStep
  Create : Option CreateStep
  Change : Option ChangeStep
  Delete : Option DeleteStep
  deriving DecidableEq

/-- A scenario: the parsed steps and, index by index, their source text. -/
structure Scenario where
  Name : String
  Steps : List Step
  RawSteps : List String
  deriving DecidableEq

/-- The resource description of a node class: carried into the fake node,
never inspected. -/
structure NodeResources where
  raw : String
  deriving DecidableEq

/-- An entry of the node catalog. -/
structure NodeClass where
  Name : String
  Labels : metav1.Labels
  Resources : NodeResources
  deriving DecidableEq

/-- An entry of the pod catalog. -/
structure PodClass where
  Name : String
  Labels : metav1.Labels
  Spec : corev1.PodSpec
  deriving DecidableEq

/-- The node catalog. -/
structure NodeConfig where
  NodeClasses : List NodeClass
  deriving DecidableEq

/-- The pod catalog. -/
structure PodConfig where
  PodClasses : List PodClass
  deriving DecidableEq

end config

/-! ## Package `node`: the fake node handed to the simulation backend -/

namespace node

/-- The value `node.NewFakeNode(name, class, labels, resources)` builds. -/
structure FakeNode where
  name : String
  cls : String
  labels : metav1.Labels
  resources : config.NodeResources
  deriving DecidableEq

/-- The constructor `node.NewFakeNode`. -/
def NewFakeNode (name cls : String) (labels : metav1.Labels)
    (resources : config.NodeResources) : FakeNode :=
  { name := name, cls := cls, labels := labels, resources := resources }

end node

/-! ## `float64` arithmetic, as far as `Duration.Seconds` needs it -/

namespace float64

/-- A finite `float64` that is not negative: the value `mant * 2 ^ exp`. -/
structure Value where
  mant : Nat
  exp : Int
  deriving DecidableEq

/-- The count of halvings that bring `n` below 2, with `fuel` halvings at
most. -/
def log2Fuel : Nat → Nat → Nat
  | 0, _ => 0
  | fuel + 1, n => if 2 ≤ n then log2Fuel fuel (n / 2) + 1 else 0

/-- The position of the leading binary digit of `n`: the largest `k` with
`2 ^ k ≤ n`, for `n ≥ 1`. -/
def log2 (n : Nat) : Nat := log2Fuel n n

/-- The `float64` nearest to the fraction `a / b` (with `b ≥ 1`), a tie going
to the even mantissa: the rounding that every IEEE 754 operation applies to
its exact result.  The result has 53 significant bits at every magnitude:
overflow and subnormal numbers, which the seconds of an `int64` duration do
not reach, are not modelled. -/
def round (a b : Nat) : Value :=
  if a = 0 then { mant := 0, exp := 0 }
  else
    let e0 : Int := (log2 a : Int) - (log2 b : Int)
    let e : Int := if b * 2 ^ e0.toNat ≤ a * 2 ^ (-e0).toNat then e0 else e0 - 1
    let shift : Int := e - 52
    let n := a * 2 ^ (-shift).toNat
    let d := b * 2 ^ shift.toNat
    let m0 := n / d
    let rem := n % d
    if d < 2 * rem ∨ (2 * rem = d ∧ m0 % 2 = 1) then { mant := m0 + 1, exp := shift }
    else { mant := m0, exp := shift }

/-- The numerator of a value written as a fraction over a power of two. -/
def Value.num (x : Value) : Nat := x.mant * 2 ^ x.exp.toNat

/-- The denominator of a value written as a fraction over a power of two. -/
def Value.den (x : Value) : Nat := 2 ^ (-x.exp).toNat

/-- The conversion `float64(n)` of an integer that is not negative. -/
def ofNat (n : Nat) : Value := round n 1

/-- The sum `x + y` of two values. -/
def add (x y : Value) : Value := round (x.num * y.den + y.num * x.den) (x.den * y.den)

/-- The quotient `x / y` of two values, `y` not zero. -/
def div (x y : Value) : Value := round (x.num * y.den) (x.den * y.num)

/-- The conversion `int(x)`: the fraction is dropped. -/
def toNat (x : Value) : Nat := x.num / x.den

end float64

/-! ## Package `time` and `wait.Backoff` -/

namespace time

/-- The constant `time.Second`, in nanoseconds. -/
def Second : Int := 1000000000

/-- The expression `int(d.Seconds())` on a duration of `d` nanoseconds that is
not negative, the method being
`sec := d / Second; nsec := d % Second; return float64(sec) + float64(nsec)/1e9`. -/
def secondsOf (d : Nat) : Nat :=
  let sec := d / 1000000000
  let nsec := d % 1000000000
  float64.toNat
    (float64.add (float64.ofNat sec) (float64.div (float64.ofNat nsec) (float64.ofNat 1000000000)))

/-- The expression `int(d.Seconds())` of `RunAssert`, for a duration of `d`
nanoseconds.  On a negative duration `sec` and `nsec` are both negative or
zero, `float64` arithmetic is symmetric in the sign and the conversion to
`int` truncates toward zero, so the result is the negative of the result for
the duration without its sign. -/
def Seconds (d : Int) : Int :=
  if d < 0 then -((secondsOf d.natAbs : Nat) : Int) else ((secondsOf d.natAbs : Nat) : Int)

end time

namespace wait

/-- The fields of `wait.Backoff` that `RunAssert` sets, and `Cap`, which it
leaves at zero like `Jitter` (not modelled: with `Jitter = 0` no jitter is
applied).  `Factor` is the whole number 1 in the runner. -/
structure Backoff where
  Duration : Int
  Factor : Nat
  Steps : Int
  Cap : Int
  deriving DecidableEq

/-- The method `(*Backoff).Step` for `Jitter = 0`: the duration to sleep, and
the receiver after the call. -/
def Backoff.Step (b : Backoff) : Int × Backoff :=
  if b.Steps < 1 then (b.Duration, b)
  else
    let b1 : Backoff := { b with Steps := b.Steps - 1 }
    let duration := b1.Duration
    if b1.Factor ≠ 0 then
      let b2 : Backoff := { b1 with Duration := b1.Duration * b1.Factor }
      if 0 < b2.Cap ∧ b2.Cap < b2.Duration then
        (duration, { b2 with Duration := b2.Cap, Steps := 0 })
      else (duration, b2)
    else (duration, b1)

end wait

/-! ## The control plane and the calls issued to it -/

namespace kubernetes

/-- The control plane as the runner sees it: each call takes the state of the
world before the call and gives the answer and the state after it.  `Start` is
`(*FakeNode).Start(client)`, the registration of a fake node; `Sleep` is
`time.Sleep` (the world moves on while the runner sleeps) and `Now` reads the
clock for `metav1.Now()`. -/
structure Clientset (σ : Type) where
  NodesList : σ → metav1.ListOptions → Except Error corev1.NodeList × σ
  PodsList : σ → String → metav1.ListOptions → Except Error corev1.PodList × σ
  PodsCreate : σ → String → corev1.Pod → Option Error × σ
  PodsUpdateStatus : σ → String → corev1.Pod → Option Error × σ
  NodesDelete : σ → String → Option Error × σ
  PodsDelete : σ → String → String → Option Error × σ
  Start : σ → node.FakeNode → Option Error × σ
  Sleep : σ → Int → σ
  Now : σ → metav1.Time

end kubernetes

/-- One entry of the call log. -/
inductive Call where
  | NodesList (opts : metav1.ListOptions) : Call
  | PodsList (ns : String) (opts : metav1.ListOptions) : Call
  | PodsCreate (ns : String) (pod : corev1.Pod) : Call
  | PodsUpdateStatus (ns : String) (pod : corev1.Pod) : Call
  | NodesDelete (name : String) : Call
  | PodsDelete (ns : String) (name : String) : Call
  | Start (n : node.FakeNode) : Call
  | Sleep (d : Int) : Call
  deriving DecidableEq

/-- The state the runner threads: the control plane and the calls so far, the
oldest first. -/
structure Run (σ : Type) where
  state : σ
  calls : List Call

namespace exec

/-- The struct `runner`. -/
structure runner (σ : Type) where
  client : kubernetes.Clientset σ
  namespace_ : String
  podConfig : config.PodConfig
  nodeConfig : config.NodeConfig

variable {σ : Type}

/-! ### The client calls, logged -/

/-- Call `r.client.CoreV1().Nodes().List(opts)`. -/
def listNodes (r : runner σ) (opts : metav1.ListOptions) (w : Run σ) :
    Except Error corev1.NodeList × Run σ :=
  let q := r.client.NodesList w.state opts
  (q.1, { state := q.2, calls := w.calls ++ [Call.NodesList opts] })

/-- Call `r.client.CoreV1().Pods(r.namespace).List(opts)`. -/
def listPods (r : runner σ) (opts : metav1.ListOptions) (w : Run σ) :
    Except Error corev1.PodList × Run σ :=
  let q := r.client.PodsList w.state r.namespace_ opts
  (q.1, { state := q.2, calls := w.calls ++ [Call.PodsList r.namespace_ opts] })

/-- Call `podClient.Create(pod)`. -/
def podsCreate (r : runner σ) (pod : corev1.Pod) (w : Run σ) : Option Error × Run σ :=
  let q := r.client.PodsCreate w.state r.namespace_ pod
  (q.1, { state := q.2, calls := w.calls ++ [Call.PodsCreate r.namespace_ pod] })

/-- Call `podClient.UpdateStatus(pod)`. -/
def podsUpdateStatus (r : runner σ) (pod : corev1.Pod) (w : Run σ) : Option Error × Run σ :=
  let q := r.client.PodsUpdateStatus w.state r.namespace_ pod
  (q.1, { state := q.2, calls := w.calls ++ [Call.PodsUpdateStatus r.namespace_ pod] })

/-- Call `r.client.CoreV1().Nodes().Delete(name, ...)`. -/
def nodesDelete (r : runner σ) (name : String) (w : Run σ) : Option Error × Run σ :=
  let q := r.client.NodesDelete w.state name
  (q.1, { state := q.2, calls := w.calls ++ [Call.NodesDelete name] })

/-- Call `r.client.CoreV1().Pods(r.namespace).Delete(name, ...)`. -/
def podsDelete (r : runner σ) (name : String) (w : Run σ) : Option Error × Run σ :=
  let q := r.client.PodsDelete w.state r.namespace_ name
  (q.1, { state := q.2, calls := w.calls ++ [Call.PodsDelete r.namespace_ name] })

/-- Call `n.Start(r.client)`. -/
def startNode (r : runner σ) (n : node.FakeNode) (w : Run σ) : Option Error × Run σ :=
  let q := r.client.Start w.state n
  (q.1, { state := q.2, calls := w.calls ++ [Call.Start n] })

/-- Call `time.Sleep(d)`. -/
def sleep (r : runner σ) (d : Int) (w : Run σ) : Run σ :=
  { state := r.client.Sleep w.state d, calls := w.calls ++ [Call.Sleep d] }

/-- The loop `for i := uint64(0); i < count; i++ { body }` whose body returns
from the function on an error: `forCount body n i w` runs the `n` iterations
that remain when the counter is `i`; the loop as a whole is
`forCount body count 0 w`.  An outcome other than nil ends the function; when
the loop runs out the function goes on to its `return nil`. -/
def forCount (body : Nat → Run σ → Outcome × Run σ) : Nat → Nat → Run σ → Outcome × Run σ
  | 0, _, w => (Outcome.nil, w)
  | n + 1, i, w =>
    match body i w with
    | (Outcome.nil, w1) => forCount body n (i + 1) w1
    | (o, w1) => (o, w1)

/-! ### Assert -/

/-- The function `(*runner).assertNode`: one poll of a node assertion. -/
def assertNode (r : runner σ) (assert : config.AssertStep) (w : Run σ) : Outcome × Run σ :=
  let labelSelector : String :=
    if assert.Class ≠ "" then "np.class=" ++ assert.Class else ""
  match listNodes r { LabelSelector := labelSelector, FieldSelector := "" } w with
  | (Except.error err, w1) => (Outcome.err err, w1)
  | (Except.ok nodeList, w1) =>
    if nodeList.Items = Slice.nil ∨ nodeList.Items.len ≠ assert.Count then
      if assert.Class ≠ "" then
        (Outcome.err ("found " ++ toString nodeList.Items.len ++ " nodes of class "
          ++ assert.Class ++ ", but " ++ toString assert.Count ++ " expected"), w1)
      else
        (Outcome.err ("found " ++ toString nodeList.Items.len ++ " nodes but "
          ++ toString assert.Count ++ " expected"), w1)
    else (Outcome.nil, w1)

/-- The function `(*runner).assertPod`: one poll of a pod assertion. -/
def assertPod (r : runner σ) (assert : config.AssertStep) (w : Run σ) : Outcome × Run σ :=
  let labelSelector : String :=
    if assert.Class ≠ "" then "np.class=" ++ assert.Class else ""
  let fieldSelector : String :=
    if assert.PodPhase ≠ "" then "status.phase=" ++ assert.PodPhase else ""
  match listPods r { LabelSelector := labelSelector, FieldSelector := fieldSelector } w with
  | (Except.error err, w1) => (Outcome.err err, w1)
  | (Except.ok podList, w1) =>
    if podList.Items = Slice.nil ∨ podList.Items.len ≠ assert.Count then
      (Outcome.err ("found " ++ toString podList.Items.len ++ " pods of class "
        ++ assert.Class ++ " and phase: " ++ assert.PodPhase ++ ", but "
        ++ toString assert.Count ++ " expected"), w1)
    else (Outcome.nil, w1)

/-- The polling loop of `RunAssert`,
`for backoffWait.Steps > 0 { err = poll(); if err == nil { break }; time.Sleep(backoffWait.Step()) }`
followed by `return err`; `err` is the variable of that name, nil before the
loop.  The source has the loop twice, once around `assertNode` and once around
`assertPod`. -/
def pollLoop (r : runner σ) (poll : Run σ → Outcome × Run σ)
    (backoffWait : wait.Backoff) (err : Outcome) (w : Run σ) : Outcome × Run σ :=
  if h : 0 < backoffWait.Steps then
    match poll w with
    | (Outcome.nil, w1) => (Outcome.nil, w1)
    | (Outcome.fault p, w1) => (Outcome.fault p, w1)
    | (Outcome.err e, w1) =>
      pollLoop r poll (backoffWait.Step).2 (Outcome.err e) (sleep r (backoffWait.Step).1 w1)
  else (err, w)
termination_by backoffWait.Steps.toNat
decreasing_by
  have h1 : ¬ backoffWait.Steps < 1 := by omega
  unfold wait.Backoff.Step
  simp only [h1, if_false]
  split
  · split
    · simp only [Int.toNat_zero]; omega
    · simp only; omega
  · simp only; omega

/-- The method `(*runner).RunAssert`. -/
def RunAssert (r : runner σ) (step : config.Step) (w : Run σ) : Outcome × Run σ :=
  match step.Assert with
  | none => (Outcome.err "there is no assert in this step.", w)
  | some assert =>
    let backoffWait : wait.Backoff :=
      { Duration := 1 * time.Second, Factor := 1, Steps := time.Seconds assert.Delay, Cap := 0 }
    if assert.Object = config.Node then
      pollLoop r (assertNode r assert) backoffWait Outcome.nil w
    else if assert.Object = config.Pod then
      pollLoop r (assertPod r assert) backoffWait Outcome.nil w
    else (Outcome.err ("assert object: " ++ assert.Object ++ " not supported"), w)

/-! ### Create -/

/-- The body of the creation loop of `createNode` for the catalog entry
`cls`. -/
def createNodeBody (r : runner σ) (create : config.CreateStep) (cls : config.NodeClass)
    (i : Nat) (w : Run σ) : Outcome × Run σ :=
  let n := node.NewFakeNode (cls.Name ++ "-" ++ toString i) cls.Name cls.Labels cls.Resources
  match startNode r n w with
  | (some err, w1) =>
    (Outcome.err ("could not create node of class: " ++ create.Class ++ ", err: " ++ err), w1)
  | (none, w1) => (Outcome.nil, w1)

/-- The loop `for _, class := range r.nodeConfig.NodeClasses` of `createNode`
over the entries that remain, with the `return` after it. -/
def createNodeIn (r : runner σ) (create : config.CreateStep) :
    List config.NodeClass → Run σ → Outcome × Run σ
  | [], w => (Outcome.err ("class: " ++ create.Class ++ " not found in the node config"), w)
  | cls :: rest, w =>
    if cls.Name = create.Class then
      forCount (createNodeBody r create cls) create.Count 0 w
    else createNodeIn r create rest w

/-- The function `(*runner).createNode`. -/
def createNode (r : runner σ) (create : config.CreateStep) (w : Run σ) : Outcome × Run σ :=
  createNodeIn r create r.nodeConfig.NodeClasses w

/-- The body of the creation loop of `createPod` for the catalog entry `cls`;
a pod is created with the zero status. -/
def createPodBody (r : runner σ) (cls : config.PodClass) (i : Nat) (w : Run σ) :
    Outcome × Run σ :=
  let pod : corev1.Pod :=
    { ObjectMeta := { Name := cls.Name ++ "-" ++ toString i, Labels := cls.Labels },
      Spec := cls.Spec,
      Status := { Phase := "", Conditions := [] } }
  match podsCreate r pod w with
  | (some err, w1) => (Outcome.err err, w1)
  | (none, w1) => (Outcome.nil, w1)

/-- The loop `for _, class := range r.podConfig.PodClasses` of `createPod`
over the entries that remain, with the `return` after it. -/
def createPodIn (r : runner σ) (create : config.CreateStep) :
    List config.PodClass → Run σ → Outcome × Run σ
  | [], w => (Outcome.err ("class: " ++ create.Class ++ " not found in the pod config"), w)
  | cls :: rest, w =>
    if cls.Name = create.Class then
      forCount (createPodBody r cls) create.Count 0 w
    else createPodIn r create rest w

/-- The function `(*runner).createPod`. -/
def createPod (r : runner σ) (create : config.CreateStep) (w : Run σ) : Outcome × Run σ :=
  createPodIn r create r.podConfig.PodClasses w

/-- The method `(*runner).RunCreate`. -/
def RunCreate (r : runner σ) (step : config.Step) (w : Run σ) : Outcome × Run σ :=
  match step.Create with
  | none => (Outcome.err "there is no create in this step.", w)
  | some create =>
    if create.Object = config.Node then createNode r create w
    else if create.Object = config.Pod then createPod r create w
    else (Outcome.err ("create object: " ++ create.Object ++ " not supported"), w)

/-! ### Change -/

/-- The two local pod values of one iteration of the loop of `changePod` when
it reaches the `UpdateStatus` call, for the list element `item`: first `pod`,
then `copy`.  `copy` is assigned from `pod` and given the target phase; the
condition record is then appended to the conditions of `pod`, which leaves the
slice that `copy` holds as long as it was. -/
def changeLocals (change : config.ChangeStep) (item : corev1.Pod) (now : metav1.Time) :
    corev1.Pod × corev1.Pod :=
  let pod := item
  let copy : corev1.Pod := { pod with Status := { pod.Status with Phase := change.ToPodPhase } }
  let cond : corev1.ConditionStatus := ""
  let cond :=
    if pod.Status.Phase = corev1.PodPending ∧ change.ToPodPhase = corev1.PodRunning then
      corev1.ConditionTrue
    else cond
  let cond :=
    if change.ToPodPhase = corev1.PodSucceeded ∨ change.ToPodPhase = corev1.PodFailed then
      corev1.ConditionFalse
    else cond
  let pod : corev1.Pod :=
    { pod with Status := { pod.Status with Conditions := pod.Status.Conditions ++
        [{ Type_ := change.ToPodPhase, Status := cond, LastTransitionTime := now }] } }
  (pod, copy)

/-- The body of the update loop of `changePod` over the queried list. -/
def changePodBody (r : runner σ) (change : config.ChangeStep) (pods : corev1.PodList)
    (i : Nat) (w : Run σ) : Outcome × Run σ :=
  match pods.Items.index i with
  | none => (Outcome.fault "index out of range", w)
  | some item =>
    match podsUpdateStatus r (changeLocals change item (r.client.Now w.state)).2 w with
    | (some err, w1) => (Outcome.err err, w1)
    | (none, w1) => (Outcome.nil, w1)

/-- The function `(*runner).changePod`. -/
def changePod (r : runner σ) (change : config.ChangeStep) (w : Run σ) : Outcome × Run σ :=
  if change.FromPodPhase = change.ToPodPhase then
    (Outcome.err ("the change requested is to the same phase. From phase: "
      ++ change.FromPodPhase ++ ", to phase: " ++ change.ToPodPhase), w)
  else
    match listPods r { LabelSelector := "np.class=" ++ change.Class,
                       FieldSelector := "status.phase=" ++ change.FromPodPhase } w with
    | (Except.error err, w1) => (Outcome.err err, w1)
    | (Except.ok pods, w1) =>
      if pods.Items.len = 0 then
        (Outcome.err ("found 0 pods of class: " ++ change.Class ++ " and phase: "
          ++ change.FromPodPhase ++ ", expected: " ++ toString change.Count), w1)
      else if pods.Items.len < change.Count then
        (Outcome.err ("expected atleast " ++ toString change.Count ++ " pods of class: "
          ++ change.Class ++ " and phase: " ++ change.FromPodPhase ++ ", but found: "
          ++ toString pods.Items.len), w1)
      else forCount (changePodBody r change pods) change.Count 0 w1

/-- The method `(*runner).RunChange`. -/
def RunChange (r : runner σ) (step : config.Step) (w : Run σ) : Outcome × Run σ :=
  match step.Change with
  | none => (Outcome.err "there is no change in this step.", w)
  | some change =>
    if change.Object = config.Pod then changePod r change w
    else (Outcome.err ("change object: " ++ change.Object ++ " not supported"), w)

/-! ### Delete -/

/-- The body of the deletion loop of `deleteNode` over the queried list. -/
def deleteNodeBody (r : runner σ) (nodes : corev1.NodeList) (i : Nat) (w : Run σ) :
    Outcome × Run σ :=
  match nodes.Items.index i with
  | none => (Outcome.fault "index out of range", w)
  | some item =>
    match nodesDelete r item.ObjectMeta.Name w with
    | (some err, w1) => (Outcome.err err, w1)
    | (none, w1) => (Outcome.nil, w1)

/-- The function `(*runner).deleteNode`. -/
def deleteNode (r : runner σ) (delete : config.DeleteStep) (w : Run σ) : Outcome × Run σ :=
  match listNodes r { LabelSelector := "np.class=" ++ delete.Class, FieldSelector := "" } w with
  | (Except.error _, w1) => (Outcome.err ("no nodes found for class: " ++ delete.Class), w1)
  | (Except.ok nodes, w1) =>
    if nodes.Items.len < delete.Count then
      (Outcome.err ("found " ++ toString nodes.Items.len ++ " nodes of class: " ++ delete.Class
        ++ ", but expected: " ++ toString delete.Count), w1)
    else forCount (deleteNodeBody r nodes) delete.Count 0 w1

/-- The body of the deletion loop of `deletePod` over the queried list. -/
def deletePodBody (r : runner σ) (pods : corev1.PodList) (i : Nat) (w : Run σ) :
    Outcome × Run σ :=
  match pods.Items.index i with
  | none => (Outcome.fault "index out of range", w)
  | some item =>
    match podsDelete r item.ObjectMeta.Name w with
    | (some err, w1) => (Outcome.err err, w1)
    | (none, w1) => (Outcome.nil, w1)

/-- The function `(*runner).deletePod`. -/
def deletePod (r : runner σ) (delete : config.DeleteStep) (w : Run σ) : Outcome × Run σ :=
  match listPods r { LabelSelector := "np.class=" ++ delete.Class, FieldSelector := "" } w with
  | (Except.error _, w1) => (Outcome.err ("no pods found for class: " ++ delete.Class), w1)
  | (Except.ok pods, w1) =>
    if pods.Items.len < delete.Count then
      (Outcome.err ("found " ++ toString pods.Items.len ++ " pods of class: " ++ delete.Class
        ++ ", but expected: " ++ toString delete.Count), w1)
    else forCount (deletePodBody r pods) delete.Count 0 w1

/-- The method `(*runner).RunDelete`. -/
def RunDelete (r : runner σ) (step : config.Step) (w : Run σ) : Outcome × Run σ :=
  match step.Delete with
  | none => (Outcome.err "there is no delete in this step.", w)
  | some delete =>
    if delete.Object = config.Node then deleteNode r delete w
    else if delete.Object = config.Pod then deletePod r delete w
    else (Outcome.err ("delete object: " ++ delete.Object ++ " not supported"), w)

/-! ### The driver -/

/-- The `switch step.Verb` of `RunScenario`. -/
def dispatch (r : runner σ) (step : config.Step) (w : Run σ) : Outcome × Run σ :=
  if step.Verb = config.Assert then RunAssert r step w
  else if step.Verb = config.Create then RunCreate r step w
  else if step.Verb = config.Change then RunChange r step w
  else if step.Verb = config.Delete then RunDelete r step w
  else (Outcome.err ("unknown verb \x60" ++ step.Verb ++ "\x60"), w)

/-- The loop `for i, step := range scenario.Steps` of `RunScenario` over the
steps that remain when the index is `i`, with the `return nil` after it.  The
lookup `scenario.RawSteps[i]` faults when `i` is out of range; the log lines
are not part of the model. -/
def runSteps (r : runner σ) (scenario : config.Scenario) :
    List config.Step → Nat → Run σ → Outcome × Run σ
  | [], _, w => (Outcome.nil, w)
  | step :: rest, i, w =>
    match scenario.RawSteps.get? i with
    | none => (Outcome.fault "index out of range", w)
    | some _ =>
      match dispatch r step w with
      | (Outcome.nil, w1) => runSteps r scenario rest (i + 1) w1
      | (o, w1) => (o, w1)

/-- The method `(*runner).RunScenario`. -/
def RunScenario (r : runner σ) (scenario : config.Scenario) (w : Run σ) : Outcome × Run σ :=
  runSteps r scenario scenario.Steps 0 w

/-! ## Vocabulary of the statements

The definitions below are not part of the runner: they name what the theorems
talk about (the answer a poll gets, the state a later call is made in, the
calls a batch is expected to issue). -/

/-- The polling loop of `RunAssert` unrolled along the number of steps left in
the backoff, for the backoff `RunAssert` builds (one step less after every
sleep of `time.Second`). -/
def pollN (r : runner σ) (poll : Run σ → Outcome × Run σ) :
    Nat → Outcome → Run σ → Outcome × Run σ
  | 0, err, w => (err, w)
  | n + 1, _, w =>
    match poll w with
    | (Outcome.nil, w1) => (Outcome.nil, w1)
    | (Outcome.fault p, w1) => (Outcome.fault p, w1)
    | (Outcome.err e, w1) => pollN r poll n (Outcome.err e) (sleep r time.Second w1)

/-- The poll `RunAssert` repeats for an assert step on a node or a pod. -/
def pollOf (r : runner σ) (assert : config.AssertStep) : Run σ → Outcome × Run σ :=
  if assert.Object = config.Node then assertNode r assert else assertPod r assert

/-- The list query one poll of the assert step sends to the control plane in
state `s`: the answer, reduced to the returned slice with its elements
forgotten, and the state after the query. -/
def pollQuery (r : runner σ) (assert : config.AssertStep) (s : σ) :
    Except Error (Slice Unit) × σ :=
  let labelSelector : String :=
    if assert.Class ≠ "" then "np.class=" ++ assert.Class else ""
  let fieldSelector : String :=
    if assert.PodPhase ≠ "" then "status.phase=" ++ assert.PodPhase else ""
  if assert.Object = config.Node then
    match r.client.NodesList s { LabelSelector := labelSelector, FieldSelector := "" } with
    | (Except.error e, s1) => (Except.error e, s1)
    | (Except.ok l, s1) =>
      (Except.ok (match l.Items with
        | Slice.nil => Slice.nil
        | Slice.mk xs => Slice.mk (xs.map (fun _ => ()))), s1)
  else
    match r.client.PodsList s r.namespace_
        { LabelSelector := labelSelector, FieldSelector := fieldSelector } with
    | (Except.error e, s1) => (Except.error e, s1)
    | (Except.ok l, s1) =>
      (Except.ok (match l.Items with
        | Slice.nil => Slice.nil
        | Slice.mk xs => Slice.mk (xs.map (fun _ => ()))), s1)

/-- The state of the control plane when the polling loop sends its query
number `j + 1`, all earlier polls having failed: each failed poll is one query
followed by one sleep of `time.Second`. -/
def pollState (r : runner σ) (assert : config.AssertStep) : Nat → σ → σ
  | 0, s => s
  | j + 1, s => pollState r assert j (r.client.Sleep (pollQuery r assert s).2 time.Second)

/-- The count-mismatch message of a poll that saw `n` resources. -/
def mismatchError (assert : config.AssertStep) (n : Nat) : Error :=
  if assert.Object = config.Node then
    if assert.Class ≠ "" then
      "found " ++ toString n ++ " nodes of class " ++ assert.Class ++ ", but "
        ++ toString assert.Count ++ " expected"
    else "found " ++ toString n ++ " nodes but " ++ toString assert.Count ++ " expected"
  else
    "found " ++ toString n ++ " pods of class " ++ assert.Class ++ " and phase: "
      ++ assert.PodPhase ++ ", but " ++ toString assert.Count ++ " expected"

/-- The outcome of a poll whose query got the answer `q`. -/
def pollOutcome (assert : config.AssertStep) : Except Error (Slice Unit) → Outcome
  | Except.error e => Outcome.err e
  | Except.ok items =>
    if items = Slice.nil ∨ items.len ≠ assert.Count then
      Outcome.err (mismatchError assert items.len)
    else Outcome.nil

/-- The answer of a list query returns exactly the expected number of
resources: the query succeeded and the length of its list is the count of the
step. -/
def returnsCount (assert : config.AssertStep) : Except Error (Slice Unit) → Bool
  | Except.error _ => false
  | Except.ok items => decide (items.len = assert.Count)

/-- The answer of a list query is a list that is not nil and has exactly the
expected number of resources. -/
def meetsCount (assert : config.AssertStep) : Except Error (Slice Unit) → Bool
  | Except.error _ => false
  | Except.ok Slice.nil => false
  | Except.ok (Slice.mk xs) => decide (xs.length = assert.Count)

/-- The number of list queries in a call log. -/
def countLists : List Call → Nat
  | [] => 0
  | Call.NodesList _ :: cs => countLists cs + 1
  | Call.PodsList _ _ :: cs => countLists cs + 1
  | _ :: cs => countLists cs

/-- A client call that writes, with its entry in the call log: the shape of
`podsCreate`, `podsUpdateStatus`, `nodesDelete`, `podsDelete`, `startNode`. -/
def logged {α : Type} (op : σ → α → Option Error × σ) (mk : α → Call) (x : α) (w : Run σ) :
    Option Error × Run σ :=
  ((op w.state x).1, { state := (op w.state x).2, calls := w.calls ++ [mk x] })

/-- A batch of writes, one per element of a list, in order, that stops at the
first write the control plane rejects and reports its error through `wrap`. -/
def writeAll {α : Type} (call : α → Run σ → Option Error × Run σ) (wrap : Error → Error) :
    List α → Run σ → Outcome × Run σ
  | [], w => (Outcome.nil, w)
  | x :: xs, w =>
    match call x w with
    | (some e, w1) => (Outcome.err (wrap e), w1)
    | (none, w1) => writeAll call wrap xs w1

/-- The state of the control plane after the writes `op` for the elements of a
list, in order. -/
def stateAfter {α : Type} (op : σ → α → Option Error × σ) : List α → σ → σ
  | [], s => s
  | x :: xs, s => stateAfter op xs (op s x).2

/-- The answer of the control plane to the write for position `j` of a list,
all writes for earlier positions having been made; `none` when the list has no
position `j`. -/
def answerAt {α : Type} (op : σ → α → Option Error × σ) (xs : List α) (s : σ) (j : Nat) :
    Option (Option Error) :=
  (xs.get? j).map (fun x => (op (stateAfter op (xs.take j) s) x).1)

/-- The pod `changePod` hands to `UpdateStatus` for a list element. -/
def changedPod (change : config.ChangeStep) (item : corev1.Pod) : corev1.Pod :=
  (changeLocals change item 0).2

/-- The pod `createPod` creates for index `i` of the class `cls`. -/
def newPod (cls : config.PodClass) (i : Nat) : corev1.Pod :=
  { ObjectMeta := { Name := cls.Name ++ "-" ++ toString i, Labels := cls.Labels },
    Spec := cls.Spec,
    Status := { Phase := "", Conditions := [] } }

/-- The fake node `createNode` starts for index `i` of the class `cls`. -/
def newNode (cls : config.NodeClass) (i : Nat) : node.FakeNode :=
  node.NewFakeNode (cls.Name ++ "-" ++ toString i) cls.Name cls.Labels cls.Resources

/-- The names of the pods created by the calls of a log, in order. -/
def createdPodNames : List Call → List String
  | [] => []
  | Call.PodsCreate _ pod :: cs => pod.ObjectMeta.Name :: createdPodNames cs
  | _ :: cs => createdPodNames cs

/-- The names of the fake nodes started by the calls of a log, in order. -/
def createdNodeNames : List Call → List String
  | [] => []
  | Call.Start n :: cs => n.name :: createdNodeNames cs
  | _ :: cs => createdNodeNames cs

/-- The create calls of a log, in order, each as the object kind it creates and
the resource name it carries: a pod creation is a create call of kind Pod, the
start of a fake node a create call of kind Node. -/
def createdNames : List Call → List (config.Object × String)
  | [] => []
  | Call.PodsCreate _ pod :: cs => (config.Pod, pod.ObjectMeta.Name) :: createdNames cs
  | Call.Start n :: cs => (config.Node, n.name) :: createdNames cs
  | _ :: cs => createdNames cs

/-- The names a step can give to resources, with their kind: those of the
indices below the count of its create payload when the driver dispatches the
step to `RunCreate`, none otherwise. -/
def stepNames (step : config.Step) : List (config.Object × String) :=
  if step.Verb = config.Create then
    match step.Create with
    | some create =>
      (List.range create.Count).map (fun i => (create.Object, create.Class ++ "-" ++ toString i))
    | none => []
  else []

/-- The object kind and class of every create step of a list of steps, in
order: one entry per step the driver dispatches to `RunCreate` with a
payload. -/
def createKeys : List config.Step → List (config.Object × config.Class)
  | [] => []
  | step :: rest =>
    if step.Verb = config.Create then
      match step.Create with
      | some create => (create.Object, create.Class) :: createKeys rest
      | none => createKeys rest
    else createKeys rest

/-- The value of a decimal numeral, most significant digit first. -/
def decimalValue (cs : List Char) : Nat :=
  cs.foldl (fun a c => 10 * a + (c.toNat - 48)) 0

/-- The names of the first `count` nodes of a list query answer, in the order
of the answer. -/
def firstNodeNames (nodes : corev1.NodeList) (count : Nat) : List String :=
  (nodes.Items.toList.take count).map (fun n => n.ObjectMeta.Name)

/-- The names of the first `count` pods of a list query answer, in the order
of the answer. -/
def firstPodNames (pods : corev1.PodList) (count : Nat) : List String :=
  (pods.Items.toList.take count).map (fun p => p.ObjectMeta.Name)

/-- The list options of a query by class alone, as `deleteNode` and
`deletePod` build them. -/
def classOptions (cls : config.Class) : metav1.ListOptions :=
  { LabelSelector := "np.class=" ++ cls, FieldSelector := "" }

/-- The run after the driver has dispatched the steps of a list one after the
other, whatever their outcomes. -/
def worldAfter (r : runner σ) : List config.Step → Run σ → Run σ
  | [], w => w
  | step :: rest, w => worldAfter r rest (dispatch r step w).2

/-- The outcome of the step at position `j` of a list of steps when the driver
dispatches it after all the steps before it; `none` when the list has no
position `j`. -/
def outcomeAt (r : runner σ) (steps : List config.Step) (w : Run σ) (j : Nat) :
    Option Outcome :=
  (steps.get? j).map (fun step => (dispatch r step (worldAfter r (steps.take j) w)).1)

/-- The list options of the query one poll of a node assertion sends. -/
def assertNodeOptions (assert : config.AssertStep) : metav1.ListOptions :=
  { LabelSelector := if assert.Class ≠ "" then "np.class=" ++ assert.Class else "",
    FieldSelector := "" }

/-- The list options of the query one poll of a pod assertion sends. -/
def assertPodOptions (assert : config.AssertStep) : metav1.ListOptions :=
  { LabelSelector := if assert.Class ≠ "" then "np.class=" ++ assert.Class else "",
    FieldSelector := if assert.PodPhase ≠ "" then "status.phase=" ++ assert.PodPhase else "" }

/-- The list options of the query for the resources of a class, whatever their
phase, as a poll of an assertion on that class builds them. -/
def classQuery (cls : config.Class) : metav1.ListOptions :=
  { LabelSelector := if cls ≠ "" then "np.class=" ++ cls else "", FieldSelector := "" }

/-! ## A scripted control plane for the concrete runs -/

namespace fixture

/-- The state of the scripted control plane: how many list queries and how
many writes it has answered. -/
structure Replay where
  lists : Nat
  writes : Nat
  deriving DecidableEq

/-- A control plane that answers from a script: query number `j` on nodes gets
entry `j` of `nodeLists`, on pods entry `j` of `podLists` (both kinds of query
advance the same counter), write number `j` gets entry `j` of `writes`.  Past
the end of the script a query fails and a write is accepted. -/
def client (nodeLists : List (Except Error corev1.NodeList))
    (podLists : List (Except Error corev1.PodList)) (writes : List (Option Error)) :
    kubernetes.Clientset Replay :=
  { NodesList := fun s _ =>
      ((nodeLists.get? s.lists).getD (Except.error "end of script"),
        { s with lists := s.lists + 1 }),
    PodsList := fun s _ _ =>
      ((podLists.get? s.lists).getD (Except.error "end of script"),
        { s with lists := s.lists + 1 }),
    PodsCreate := fun s _ _ => ((writes.get? s.writes).getD none, { s with writes := s.writes + 1 }),
    PodsUpdateStatus := fun s _ _ =>
      ((writes.get? s.writes).getD none, { s with writes := s.writes + 1 }),
    NodesDelete := fun s _ => ((writes.get? s.writes).getD none, { s with writes := s.writes + 1 }),
    PodsDelete := fun s _ _ => ((writes.get? s.writes).getD none, { s with writes := s.writes + 1 }),
    Start := fun s _ => ((writes.get? s.writes).getD none, { s with writes := s.writes + 1 }),
    Sleep := fun s _ => s,
    Now := fun s => s.lists + s.writes }

/-- A catalog with one node class and one pod class, both named "worker". -/
def nodeConfig : config.NodeConfig :=
  { NodeClasses := [{ Name := "worker", Labels := [("np.class", "worker")],
                      Resources := { raw := "cpu: 4" } }] }

/-- The pod half of the catalog. -/
def podConfig : config.PodConfig :=
  { PodClasses := [{ Name := "worker", Labels := [("np.class", "worker")],
                     Spec := { raw := "busybox" } }] }

/-- A runner over the scripted control plane, in the namespace "default". -/
def runnerOf (nodeLists : List (Except Error corev1.NodeList))
    (podLists : List (Except Error corev1.PodList)) (writes : List (Option Error)) :
    runner Replay :=
  { client := client nodeLists podLists writes, namespace_ := "default",
    podConfig := podConfig, nodeConfig := nodeConfig }

/-- The start of a run: nothing answered, nothing called. -/
def start : Run Replay := { state := { lists := 0, writes := 0 }, calls := [] }

/-- A pending pod of the class "worker". -/
def workerPod (name : String) : corev1.Pod :=
  { ObjectMeta := { Name := name, Labels := [("np.class", "worker")] },
    Spec := { raw := "busybox" },
    Status := { Phase := corev1.PodPending, Conditions := [] } }

/-- A step that carries only an assert payload. -/
def assertStep (a : config.AssertStep) : config.Step :=
  { Verb := config.Assert, Assert := some a, Create := none, Change := none, Delete := none }

/-- A step that carries only a create payload. -/
def createStep (c : config.CreateStep) : config.Step :=
  { Verb := config.Create, Assert := none, Create := some c, Change := none, Delete := none }

/-- A step that carries only a change payload. -/
def changeStep (c : config.ChangeStep) : config.Step :=
  { Verb := config.Change, Assert := none, Create := none, Change := some c, Delete := none }

/-- A step that carries only a delete payload. -/
def deleteStep (c : config.DeleteStep) : config.Step :=
  { Verb := config.Delete, Assert := none, Create := none, Change := none, Delete := some c }

/-- A node of the class "worker". -/
def workerNode (name : String) : corev1.Node :=
  { ObjectMeta := { Name := name, Labels := [("np.class", "worker")] } }

/-- The state of the in-memory control plane: the nodes and the pods it holds,
the oldest first. -/
structure Cluster where
  nodes : List corev1.Node
  pods : List corev1.Pod
  deriving DecidableEq

/-- An equality label selector of the form the runner builds, `"<key>=<value>"`,
selects the resources that carry that label; the empty selector selects every
resource. -/
def selects (selector : String) (labels : metav1.Labels) : Bool :=
  decide (selector = "") || labels.any (fun kv => decide (kv.1 ++ "=" ++ kv.2 = selector))

/-- A field selector of the form the runner builds, `"status.phase=<phase>"`,
selects the pods in that phase; the empty selector selects every pod. -/
def inPhase (selector : String) (phase : corev1.PodPhase) : Bool :=
  decide (selector = "") || decide ("status.phase=" ++ phase = selector)

/-- The item slice of a list answer: a control plane may hand an empty result
back as the nil slice (`nilWhenEmpty`) or as an empty slice that is not nil. -/
def answer {α : Type} (nilWhenEmpty : Bool) (found : List α) : Slice α :=
  if nilWhenEmpty && found.isEmpty then Slice.nil else Slice.mk found

/-- An in-memory control plane that reflects writes synchronously: it accepts
every write, a created pod or started node is part of the state at once and is
listed by every later query whose selectors match it, and a deleted resource
is gone at once.  A started fake node is registered under its name with the
label `np.class` of its class in front of its own labels. -/
def memory (nilWhenEmpty : Bool) : kubernetes.Clientset Cluster :=
  { NodesList := fun s opts =>
      (Except.ok (corev1.NodeList.mk (answer nilWhenEmpty
        (s.nodes.filter (fun n => selects opts.LabelSelector n.ObjectMeta.Labels)))), s),
    PodsList := fun s _ opts =>
      (Except.ok (corev1.PodList.mk (answer nilWhenEmpty
        (s.pods.filter (fun p => selects opts.LabelSelector p.ObjectMeta.Labels
          && inPhase opts.FieldSelector p.Status.Phase)))), s),
    PodsCreate := fun s _ pod => (none, { s with pods := s.pods ++ [pod] }),
    PodsUpdateStatus := fun s _ pod =>
      (none, { s with pods := s.pods.map (fun p =>
        if p.ObjectMeta.Name = pod.ObjectMeta.Name then pod else p) }),
    NodesDelete := fun s name =>
      (none, { s with nodes := s.nodes.filter (fun n => decide (n.ObjectMeta.Name ≠ name)) }),
    PodsDelete := fun s _ name =>
      (none, { s with pods := s.pods.filter (fun p => decide (p.ObjectMeta.Name ≠ name)) }),
    Start := fun s n =>
      (none, { s with nodes := s.nodes ++ [corev1.Node.mk
        (metav1.ObjectMeta.mk n.name (("np.class", n.cls) :: n.labels))] }),
    Sleep := fun s _ => s,
    Now := fun _ => 0 }

/-- A runner over the in-memory control plane, in the namespace "default",
with the catalog of the scripted runner. -/
def memoryRunner (nilWhenEmpty : Bool) : runner Cluster :=
  { client := memory nilWhenEmpty, namespace_ := "default",
    podConfig := podConfig, nodeConfig := nodeConfig }

/-- The start of a run on an empty cluster. -/
def emptyCluster : Run Cluster := { state := { nodes := [], pods := [] }, calls := [] }

end fixture

/-! ## The whole seconds of a duration -/

set_option maxRecDepth 4000 in
/-- The whole seconds `int(d.Seconds())` of some durations: whole numbers of
seconds give that number, a duration below one second gives 0, and from 2^24
seconds on the sum `float64(sec) + float64(nsec)/1e9` can round up to the next
whole second, where dividing the nanoseconds by `time.Second` gives one
less. -/
theorem Seconds_values :
    time.Seconds 0 = 0 ∧ time.Seconds 999999999 = 0 ∧ time.Seconds 1000000000 = 1 ∧
    time.Seconds 5000000000 = 5 ∧ time.Seconds (-1500000000) = -1 ∧
    time.Seconds 16777216999999999 = 16777217 ∧
    Int.tdiv 16777216999999999 time.Second = 16777216 ∧
    time.Seconds 16777215999999999 = 16777215 := by
  decide

/-- The count of halvings finds the leading binary digit. -/
theorem log2Fuel_spec (fuel : Nat) :
    ∀ n : Nat, 1 ≤ n → n ≤ fuel →
      2 ^ float64.log2Fuel fuel n ≤ n ∧ n < 2 ^ (float64.log2Fuel fuel n + 1) := by
  induction fuel with
  | zero => intro n h1 hf; omega
  | succ fuel ih =>
    intro n h1 hf
    by_cases h2 : 2 ≤ n
    · have := ih (n / 2) (by omega) (by omega)
      simp only [float64.log2Fuel, h2, if_true]
      rw [pow_succ, pow_succ]
      omega
    · have hn : n = 1 := by omega
      simp [float64.log2Fuel, hn]

/-- The leading binary digit of a number between two powers of two. -/
theorem log2_eq (n k : Nat) (hlo : 2 ^ k ≤ n) (hhi : n < 2 ^ (k + 1)) : float64.log2 n = k := by
  have h1 : 1 ≤ n := le_trans (Nat.one_le_two_pow) hlo
  obtain ⟨ha, hb⟩ := log2Fuel_spec n n h1 (le_refl n)
  unfold float64.log2
  by_contra hne
  rcases Nat.lt_or_gt_of_ne hne with h | h
  · have : 2 ^ (float64.log2Fuel n n + 1) ≤ 2 ^ k := Nat.pow_le_pow_right (by decide) h
    omega
  · have : 2 ^ (k + 1) ≤ 2 ^ float64.log2Fuel n n := Nat.pow_le_pow_right (by decide) h
    omega

/-- A 53-digit numerator over a power of two is a double already. -/
theorem round_exact (m t : Nat) (hlo : 2 ^ 52 ≤ m) (hhi : m < 2 ^ 53) :
    float64.round m (2 ^ t) = { mant := m, exp := -(t : Int) } := by
  have hm : float64.log2 m = 52 := log2_eq m 52 hlo hhi
  have ht : float64.log2 (2 ^ t) = t :=
    log2_eq (2 ^ t) t (le_refl _) (Nat.pow_lt_pow_right (by decide) (Nat.lt_succ_self t))
  have hm0 : m ≠ 0 := by
    have : 0 < 2 ^ 52 := Nat.pos_pow_of_pos 52 (by decide)
    omega
  have hcond : 2 ^ t * 2 ^ (((52 : Nat) : Int) - (t : Int)).toNat ≤
      m * 2 ^ (-(((52 : Nat) : Int) - (t : Int))).toNat := by
    by_cases h : t ≤ 52
    · have h1 : (((52 : Nat) : Int) - (t : Int)).toNat = 52 - t := by omega
      have h2 : (-(((52 : Nat) : Int) - (t : Int))).toNat = 0 := by omega
      rw [h1, h2, ← pow_add, pow_zero, Nat.mul_one]
      have : t + (52 - t) = 52 := by omega
      rw [this]; exact hlo
    · have h1 : (((52 : Nat) : Int) - (t : Int)).toNat = 0 := by omega
      have h2 : (-(((52 : Nat) : Int) - (t : Int))).toNat = t - 52 := by omega
      rw [h1, h2, pow_zero, Nat.mul_one]
      have : 2 ^ t = 2 ^ 52 * 2 ^ (t - 52) := by
        rw [← pow_add]; congr 1; omega
      rw [this]
      exact Nat.mul_le_mul_right _ hlo
  have hpos : 0 < 2 ^ t := Nat.pos_pow_of_pos t (by decide)
  have hs1 : (-(((52 : Nat) : Int) - (t : Int) - 52)).toNat = t := by omega
  have hs2 : (((52 : Nat) : Int) - (t : Int) - 52).toNat = 0 := by omega
  have hs : ((52 : Nat) : Int) - (t : Int) - 52 = -(t : Int) := by omega
  unfold float64.round
  rw [if_neg hm0]
  have hs3 : (-(-(t : Int))).toNat = t := by omega
  have hs4 : (-(t : Int)).toNat = 0 := by omega
  simp only [hm, ht, if_pos hcond, hs, hs3, hs4, pow_zero, Nat.mul_one,
    Nat.mul_div_cancel _ hpos, Nat.mul_mod_left]
  rw [if_neg]
  rintro (h | ⟨h, _⟩) <;> omega

/-- A whole number below 2^53 is a double, and adding zero to it gives it back. -/
theorem secondsOf_whole (W : Nat) (hW : W < 2 ^ 53) :
    time.secondsOf (W * 1000000000) = W := by
  have hz : float64.div (float64.ofNat 0) (float64.ofNat 1000000000) = { mant := 0, exp := 0 } := by
    decide
  unfold time.secondsOf
  simp only [Nat.mul_mod_left, Nat.mul_div_cancel W (show 0 < 1000000000 by decide), hz]
  rcases Nat.eq_zero_or_pos W with h0 | h1
  · subst h0; decide
  · obtain ⟨ha, hb⟩ := log2Fuel_spec W W h1 (le_refl W)
    have hL : float64.log2 W = float64.log2Fuel W W := rfl
    generalize hLdef : float64.log2Fuel W W = L at ha hb hL
    have hL52 : L ≤ 52 := by
      by_contra h
      have : 2 ^ 53 ≤ 2 ^ L := Nat.pow_le_pow_right (by decide) (by omega)
      omega
    have hof : float64.ofNat W = { mant := W * 2 ^ (52 - L), exp := (L : Int) - 52 } := by
      have hW0 : W ≠ 0 := by omega
      have hl1 : float64.log2 1 = 0 := by decide
      unfold float64.ofNat float64.round
      rw [if_neg hW0]
      simp only [hL, hl1]
      have e1 : ((L : Int) - ((0 : Nat) : Int)).toNat = L := by omega
      have e2 : (-((L : Int) - ((0 : Nat) : Int))).toNat = 0 := by omega
      have hc : 1 * 2 ^ ((L : Int) - ((0 : Nat) : Int)).toNat ≤ W * 2 ^ (-((L : Int) - ((0 : Nat) : Int))).toNat := by
        rw [e1, e2]; simpa using ha
      rw [if_pos hc]
      have e3 : (-((L : Int) - ((0 : Nat) : Int) - 52)).toNat = 52 - L := by omega
      have e4 : ((L : Int) - ((0 : Nat) : Int) - 52).toNat = 0 := by omega
      have e5 : (L : Int) - ((0 : Nat) : Int) - 52 = (L : Int) - 52 := by omega
      have e6 : (-((L : Int) - 52)).toNat = 52 - L := by omega
      have e7 : ((L : Int) - 52).toNat = 0 := by omega
      simp only [e5, e6, e7, pow_zero, Nat.mul_one, Nat.div_one, Nat.mod_one]
      rw [if_neg]
      rintro (h | ⟨h, _⟩) <;> omega
    have hmlo : 2 ^ 52 ≤ W * 2 ^ (52 - L) := by
      have : 2 ^ 52 = 2 ^ L * 2 ^ (52 - L) := by rw [← pow_add]; congr 1; omega
      rw [this]; exact Nat.mul_le_mul_right _ ha
    have hmhi : W * 2 ^ (52 - L) < 2 ^ 53 := by
      have : 2 ^ 53 = 2 ^ (L + 1) * 2 ^ (52 - L) := by rw [← pow_add]; congr 1; omega
      rw [this]
      exact Nat.mul_lt_mul_of_pos_right hb (Nat.pos_pow_of_pos _ (by decide))
    have e6 : ((L : Int) - 52).toNat = 0 := by omega
    have e7 : (-((L : Int) - 52)).toNat = 52 - L := by omega
    have hadd : float64.add (float64.ofNat W) { mant := 0, exp := 0 } =
        { mant := W * 2 ^ (52 - L), exp := -((52 - L : Nat) : Int) } := by
      rw [hof]
      unfold float64.add float64.Value.num float64.Value.den
      simp only [e6, e7, pow_zero, Nat.mul_one, Nat.zero_mul, Nat.add_zero, Int.neg_zero,
        Int.toNat_zero]
      exact round_exact _ _ hmlo hmhi
    rw [hadd]
    unfold float64.toNat float64.Value.num float64.Value.den
    have e8 : (-((52 - L : Nat) : Int)).toNat = 0 := by omega
    have e9 : (-(-((52 - L : Nat) : Int))).toNat = 52 - L := by omega
    simp only [e8, e9, pow_zero, Nat.mul_one]
    exact Nat.mul_div_cancel _ (Nat.pos_pow_of_pos _ (by decide))

/-- A delay of `W` whole seconds gives the backoff `W` steps, for every `W` below 2^53
(a delay in nanoseconds that fits 63 bits is below 2^34 seconds). -/
theorem Seconds_whole (W : Nat) (hW : W < 2 ^ 53) :
    time.Seconds ((W : Int) * time.Second) = (W : Int) := by
  have hnn : ¬ ((W : Int) * time.Second < 0) := by
    have : (0 : Int) ≤ (W : Int) * time.Second :=
      Int.mul_nonneg (Int.ofNat_nonneg W) (by decide)
    omega
  have hab : ((W : Int) * time.Second).natAbs = W * 1000000000 := by
    rw [Int.natAbs_mul]; rfl
  unfold time.Seconds
  rw [if_neg hnn, hab, secondsOf_whole W hW]

/-! ## Lemmas on the polling loop -/

/-- One `Step` of the backoff of `RunAssert` with steps left: it yields the
fixed interval and counts one step down. -/
theorem Backoff_Step_succ (d : Int) (n : Nat) :
    wait.Backoff.Step { Duration := d, Factor := 1, Steps := ((n + 1 : Nat) : Int), Cap := 0 }
      = (d, { Duration := d, Factor := 1, Steps := (n : Int), Cap := 0 }) := by
  have h1 : ¬ (((n + 1 : Nat) : Int) < 1) := by omega
  simp [wait.Backoff.Step, h1]

/-- The polling loop on the backoff of `RunAssert` is its unrolling. -/
theorem pollLoop_eq_pollN (r : runner σ) (poll : Run σ → Outcome × Run σ) (n : Nat) :
    ∀ (err : Outcome) (w : Run σ),
      pollLoop r poll { Duration := time.Second, Factor := 1, Steps := (n : Int), Cap := 0 } err w
        = pollN r poll n err w := by
  induction n with
  | zero =>
    intro err w
    rw [pollLoop]
    simp [pollN]
  | succ n ih =>
    intro err w
    rw [pollLoop]
    have h1 : (0 : Int) < ((n + 1 : Nat) : Int) := by omega
    simp only [h1, dite_true, pollN]
    rcases hp : poll w with ⟨o, w1⟩
    cases o with
    | nil => rfl
    | fault p => rfl
    | err e =>
      simp only [Backoff_Step_succ]
      exact ih _ _

/-- The polling loop does nothing when the backoff has no step. -/
theorem pollLoop_no_steps (r : runner σ) (poll : Run σ → Outcome × Run σ) (b : wait.Backoff)
    (h : b.Steps ≤ 0) (err : Outcome) (w : Run σ) : pollLoop r poll b err w = (err, w) := by
  rw [pollLoop]
  have h1 : ¬ (0 < b.Steps) := by omega
  simp [h1]

/-- The run of `RunAssert` on a node or pod step, by the whole seconds of its
budget. -/
theorem RunAssert_eq_pollN (r : runner σ) (step : config.Step) (assert : config.AssertStep)
    (W : Nat) (w : Run σ) (hstep : step.Assert = some assert)
    (hobj : assert.Object = config.Node ∨ assert.Object = config.Pod)
    (hW : time.Seconds assert.Delay = (W : Int)) :
    RunAssert r step w = pollN r (pollOf r assert) W Outcome.nil w := by
  have hnp : config.Pod ≠ config.Node := by decide
  unfold RunAssert pollOf
  simp only [hstep, hW, one_mul]
  rcases hobj with h | h
  · simp only [h, if_true]
    exact pollLoop_eq_pollN r _ W _ _
  · simp only [h, hnp, if_false, if_true]
    exact pollLoop_eq_pollN r _ W _ _

/-- The list queries of a log that was extended. -/
theorem countLists_append (a b : List Call) :
    countLists (a ++ b) = countLists a + countLists b := by
  induction a with
  | nil => simp [countLists]
  | cons c cs ih => cases c <;> simp [countLists, ih] <;> omega

/-- A poll is its list query: the outcome follows from the answer, the state
is the one the query leaves, and the log grows by one list query. -/
theorem pollOf_eq (r : runner σ) (assert : config.AssertStep) (w : Run σ) :
    (pollOf r assert w).1 = pollOutcome assert (pollQuery r assert w.state).1 ∧
    (pollOf r assert w).2.state = (pollQuery r assert w.state).2 ∧
    countLists (pollOf r assert w).2.calls = countLists w.calls + 1 := by
  unfold pollOf pollQuery
  by_cases hobj : assert.Object = config.Node
  · simp only [hobj, if_true, assertNode, listNodes]
    rcases hq : r.client.NodesList w.state
      { LabelSelector := if assert.Class ≠ "" then "np.class=" ++ assert.Class else "",
        FieldSelector := "" } with ⟨a, s1⟩
    cases a with
    | error e => simp [pollOutcome, countLists_append, countLists]
    | ok l =>
      rcases l with ⟨items⟩
      cases items with
      | nil =>
        by_cases hc : assert.Class = "" <;>
          simp [pollOutcome, mismatchError, hobj, hc, countLists_append, countLists, Slice.len]
      | mk xs =>
        by_cases hc : assert.Class = "" <;> by_cases hn : xs.length = assert.Count <;>
          simp [pollOutcome, mismatchError, hobj, hc, hn, countLists_append, countLists,
            Slice.len]
  · simp only [hobj, if_false, assertPod, listPods]
    rcases hq : r.client.PodsList w.state r.namespace_
      { LabelSelector := if assert.Class ≠ "" then "np.class=" ++ assert.Class else "",
        FieldSelector :=
          if assert.PodPhase ≠ "" then "status.phase=" ++ assert.PodPhase else "" } with ⟨a, s1⟩
    cases a with
    | error e => simp [pollOutcome, countLists_append, countLists]
    | ok l =>
      rcases l with ⟨items⟩
      cases items with
      | nil => simp [pollOutcome, mismatchError, hobj, countLists_append, countLists, Slice.len]
      | mk xs =>
        by_cases hn : xs.length = assert.Count <;>
          simp [pollOutcome, mismatchError, hobj, hn, countLists_append, countLists, Slice.len]

/-- A poll succeeds exactly on an answer that meets the count. -/
theorem pollOutcome_eq_nil_iff (assert : config.AssertStep) (q : Except Error (Slice Unit)) :
    pollOutcome assert q = Outcome.nil ↔ meetsCount assert q = true := by
  cases q with
  | error e => simp [pollOutcome, meetsCount]
  | ok items =>
    cases items with
    | nil => simp [pollOutcome, meetsCount]
    | mk xs => simp [pollOutcome, meetsCount, Slice.len]

/-- The outcome of a poll is never a fault. -/
theorem pollOutcome_ne_fault (assert : config.AssertStep) (q : Except Error (Slice Unit))
    (p : String) : pollOutcome assert q ≠ Outcome.fault p := by
  cases q with
  | error e => simp [pollOutcome]
  | ok items =>
    simp only [pollOutcome]
    split <;> simp

/-- The unrolled loop when the first `n` polls all fail: it returns the
outcome of poll number `n` after `n` list queries. -/
theorem pollN_all_fail (r : runner σ) (assert : config.AssertStep) (n : Nat) :
    ∀ (err : Outcome) (w : Run σ),
      (∀ j, j < n → meetsCount assert (pollQuery r assert (pollState r assert j w.state)).1
        = false) →
      (pollN r (pollOf r assert) n err w).1
          = (if n = 0 then err
             else pollOutcome assert (pollQuery r assert (pollState r assert (n - 1) w.state)).1) ∧
        countLists (pollN r (pollOf r assert) n err w).2.calls = countLists w.calls + n := by
  induction n with
  | zero => intro err w _; simp [pollN]
  | succ n ih =>
    intro err w h
    obtain ⟨h1, h2, h3⟩ := pollOf_eq r assert w
    have h0 := h 0 (Nat.succ_pos n)
    simp only [pollState] at h0
    have hne : pollOutcome assert (pollQuery r assert w.state).1 ≠ Outcome.nil := by
      rw [Ne, pollOutcome_eq_nil_iff, h0]; simp
    rcases hp : pollOf r assert w with ⟨o, w1⟩
    rw [hp] at h1 h2 h3
    simp only at h1 h2 h3
    cases o with
    | nil => exact absurd h1.symm hne
    | fault p => exact absurd h1.symm (pollOutcome_ne_fault assert _ p)
    | err e =>
      simp only [pollN, hp]
      have hs : (sleep r time.Second w1).state
          = r.client.Sleep (pollQuery r assert w.state).2 time.Second := by
        simp [sleep, h2]
      have hrest := ih (Outcome.err e) (sleep r time.Second w1) (by
        intro j hj
        have := h (j + 1) (Nat.succ_lt_succ hj)
        simpa [pollState, hs] using this)
      refine ⟨?_, ?_⟩
      · rw [hrest.1]
        cases n with
        | zero => simp [pollState, h1]
        | succ m => simp [pollState, hs]
      · rw [hrest.2]
        simp [sleep, countLists_append, countLists, h3]
        omega

/-- The unrolled loop when poll number `k + 1` is the first to meet the count
and the budget reaches it: it returns nil after `k + 1` list queries. -/
theorem pollN_first_success (r : runner σ) (assert : config.AssertStep) (k : Nat) :
    ∀ (n : Nat) (err : Outcome) (w : Run σ), k < n →
      (∀ j, j < k → meetsCount assert (pollQuery r assert (pollState r assert j w.state)).1
        = false) →
      meetsCount assert (pollQuery r assert (pollState r assert k w.state)).1 = true →
      (pollN r (pollOf r assert) n err w).1 = Outcome.nil ∧
        countLists (pollN r (pollOf r assert) n err w).2.calls = countLists w.calls + (k + 1) := by
  induction k with
  | zero =>
    intro n err w hn _ hat
    obtain ⟨m, rfl⟩ : ∃ m, n = m + 1 := ⟨n - 1, by omega⟩
    obtain ⟨h1, _, h3⟩ := pollOf_eq r assert w
    simp only [pollState] at hat
    rw [(pollOutcome_eq_nil_iff assert _).mpr hat] at h1
    rcases hp : pollOf r assert w with ⟨o, w1⟩
    rw [hp] at h1 h3
    simp only at h1 h3
    subst h1
    simp [pollN, hp, h3]
  | succ k ih =>
    intro n err w hn hbefore hat
    obtain ⟨m, rfl⟩ : ∃ m, n = m + 1 := ⟨n - 1, by omega⟩
    obtain ⟨h1, h2, h3⟩ := pollOf_eq r assert w
    have h0 := hbefore 0 (Nat.succ_pos k)
    simp only [pollState] at h0
    have hne : pollOutcome assert (pollQuery r assert w.state).1 ≠ Outcome.nil := by
      rw [Ne, pollOutcome_eq_nil_iff, h0]; simp
    rcases hp : pollOf r assert w with ⟨o, w1⟩
    rw [hp] at h1 h2 h3
    simp only at h1 h2 h3
    cases o with
    | nil => exact absurd h1.symm hne
    | fault p => exact absurd h1.symm (pollOutcome_ne_fault assert _ p)
    | err e =>
      simp only [pollN, hp]
      have hs : (sleep r time.Second w1).state
          = r.client.Sleep (pollQuery r assert w.state).2 time.Second := by
        simp [sleep, h2]
      have hrest := ih m (Outcome.err e) (sleep r time.Second w1) (by omega) (by
        intro j hj
        have := hbefore (j + 1) (Nat.succ_lt_succ hj)
        simpa [pollState, hs] using this) (by simpa [pollState, hs] using hat)
      refine ⟨hrest.1, ?_⟩
      rw [hrest.2]
      simp [sleep, countLists_append, countLists, h3]
      omega

/-! ## C1: the wait budget of an assertion -/

/-- C1 (as amended): for an assert step on Node or Pod whose budget counts `W`
whole seconds with `W ≥ 1` (`W` is `int(Delay.Seconds())`, the number of
steps `RunAssert` gives its backoff; by `Seconds_whole` a delay of
`W * time.Second` has this `W`), and a control plane whose list query number
`k` (`k ≥ 1`) is the first to return a list that is not nil and has exactly
the expected count, `RunAssert` returns success if and only if `k ≤ W`; when
`k > W` it returns the failure of poll number `W`, the last one it made: the
error of that list query when the query failed, the count-mismatch error with
the count that query returned otherwise. -/
theorem RunAssert_within_budget (r : runner σ) (step : config.Step)
    (assert : config.AssertStep) (W k : Nat) (w : Run σ)
    (hstep : step.Assert = some assert)
    (hobj : assert.Object = config.Node ∨ assert.Object = config.Pod)
    (hW : time.Seconds assert.Delay = (W : Int)) (hW1 : 1 ≤ W) (hk : 1 ≤ k)
    (hbefore : ∀ j, j + 1 < k →
      meetsCount assert (pollQuery r assert (pollState r assert j w.state)).1 = false)
    (hat : meetsCount assert (pollQuery r assert (pollState r assert (k - 1) w.state)).1 = true) :
    ((RunAssert r step w).1 = Outcome.nil ↔ k ≤ W) ∧
    (W < k →
      (∀ e, (pollQuery r assert (pollState r assert (W - 1) w.state)).1 = Except.error e →
        (RunAssert r step w).1 = Outcome.err e) ∧
      (∀ items, (pollQuery r assert (pollState r assert (W - 1) w.state)).1 = Except.ok items →
        (RunAssert r step w).1 = Outcome.err (mismatchError assert items.len))) := by
  rw [RunAssert_eq_pollN r step assert W w hstep hobj hW]
  by_cases hkW : k ≤ W
  · have hs := pollN_first_success r assert (k - 1) W Outcome.nil w (by omega)
      (fun j hj => hbefore j (by omega)) hat
    exact ⟨⟨fun _ => hkW, fun _ => hs.1⟩, fun h => absurd hkW (by omega)⟩
  · have hf := (pollN_all_fail r assert W Outcome.nil w
      (fun j hj => hbefore j (by omega))).1
    have hW0 : W ≠ 0 := by omega
    simp only [hW0, if_false] at hf
    have hlast : meetsCount assert
        (pollQuery r assert (pollState r assert (W - 1) w.state)).1 = false :=
      hbefore (W - 1) (by omega)
    refine ⟨⟨fun h => ?_, fun h => absurd h hkW⟩, fun _ => ⟨fun e he => ?_, fun items hi => ?_⟩⟩
    · rw [hf, pollOutcome_eq_nil_iff, hlast] at h
      exact absurd h (by simp)
    · rw [hf, he]; rfl
    · rw [hf, hi]
      rw [hi] at hlast
      cases items with
      | nil => simp [pollOutcome]
      | mk xs =>
        have : ¬ xs.length = assert.Count := by simpa [meetsCount] using hlast
        simp [pollOutcome, Slice.len, this]

set_option maxRecDepth 4000 in
/-- C1, a concrete run: a budget of two seconds, the first query finds no pod
and the second finds the one pod expected, so the assertion succeeds. -/
theorem RunAssert_within_budget_witness :
    (RunAssert
        (fixture.runnerOf []
          [Except.ok { Items := Slice.mk [] },
           Except.ok { Items := Slice.mk [fixture.workerPod "worker-0"] }] [])
        (fixture.assertStep { Count := 1, Class := "worker", Object := config.Pod,
                              PodPhase := "", Delay := 2000000000 })
        fixture.start).1 = Outcome.nil ↔ 2 ≤ 2 :=
  (RunAssert_within_budget
    (fixture.runnerOf []
      [Except.ok { Items := Slice.mk [] },
       Except.ok { Items := Slice.mk [fixture.workerPod "worker-0"] }] [])
    (fixture.assertStep { Count := 1, Class := "worker", Object := config.Pod,
                          PodPhase := "", Delay := 2000000000 })
    { Count := 1, Class := "worker", Object := config.Pod, PodPhase := "", Delay := 2000000000 }
    2 2 fixture.start rfl (Or.inr rfl) (by decide) (by decide) (by decide)
    (by
      intro j hj
      have h0 : j = 0 := by omega
      subst h0
      decide)
    (by decide)).1

set_option maxRecDepth 4000 in
/-- C1 as stated fails on three runs of a pod assertion that expects no pod.
(1) Budget one second, the first query fails and the second returns an empty
list: the first query with the expected count is number 2, beyond the budget,
and the failure returned is the error of the query, which is no count-mismatch
message whatever count it is given.  (2) Budget one second, the first query
returns the nil list, that is 0 resources as expected: the run fails.
(3) Budget zero seconds, the first query would be the first with the expected
count, so `k = 1 > W = 0`: the run succeeds. -/
theorem RunAssert_budget_counterexample :
    (returnsCount { Count := 0, Class := "", Object := config.Pod, PodPhase := "",
                    Delay := 1000000000 }
        (pollQuery (fixture.runnerOf []
            [Except.error "connection refused", Except.ok { Items := Slice.mk [] }] [])
          { Count := 0, Class := "", Object := config.Pod, PodPhase := "", Delay := 1000000000 }
          fixture.start.state).1 = false ∧
      returnsCount { Count := 0, Class := "", Object := config.Pod, PodPhase := "",
                     Delay := 1000000000 }
        (pollQuery (fixture.runnerOf []
            [Except.error "connection refused", Except.ok { Items := Slice.mk [] }] [])
          { Count := 0, Class := "", Object := config.Pod, PodPhase := "", Delay := 1000000000 }
          (pollState (fixture.runnerOf []
              [Except.error "connection refused", Except.ok { Items := Slice.mk [] }] [])
            { Count := 0, Class := "", Object := config.Pod, PodPhase := "",
              Delay := 1000000000 } 1 fixture.start.state)).1 = true ∧
      (RunAssert (fixture.runnerOf []
            [Except.error "connection refused", Except.ok { Items := Slice.mk [] }] [])
          (fixture.assertStep { Count := 0, Class := "", Object := config.Pod, PodPhase := "",
                                Delay := 1000000000 })
          fixture.start).1 = Outcome.err "connection refused" ∧
      ∀ n : Nat, "connection refused" ≠
        mismatchError { Count := 0, Class := "", Object := config.Pod, PodPhase := "",
                        Delay := 1000000000 } n) ∧
    (returnsCount { Count := 0, Class := "", Object := config.Pod, PodPhase := "",
                    Delay := 1000000000 }
        (pollQuery (fixture.runnerOf [] [Except.ok { Items := Slice.nil }] [])
          { Count := 0, Class := "", Object := config.Pod, PodPhase := "", Delay := 1000000000 }
          fixture.start.state).1 = true ∧
      (RunAssert (fixture.runnerOf [] [Except.ok { Items := Slice.nil }] [])
          (fixture.assertStep { Count := 0, Class := "", Object := config.Pod, PodPhase := "",
                                Delay := 1000000000 })
          fixture.start).1 = Outcome.err "found 0 pods of class  and phase: , but 0 expected") ∧
    (returnsCount { Count := 0, Class := "", Object := config.Pod, PodPhase := "", Delay := 0 }
        (pollQuery (fixture.runnerOf [] [Except.ok { Items := Slice.mk [] }] [])
          { Count := 0, Class := "", Object := config.Pod, PodPhase := "", Delay := 0 }
          fixture.start.state).1 = true ∧
      (RunAssert (fixture.runnerOf [] [Except.ok { Items := Slice.mk [] }] [])
          (fixture.assertStep { Count := 0, Class := "", Object := config.Pod, PodPhase := "",
                                Delay := 0 })
          fixture.start).1 = Outcome.nil) := by
  refine ⟨⟨by decide, by decide, ?_, ?_⟩, ⟨by decide, ?_⟩, ⟨by decide, ?_⟩⟩
  · rw [RunAssert_eq_pollN _ _ _ 1 _ rfl (Or.inr rfl) (by decide)]
    decide
  · intro n h
    have h1 := congrArg (fun s : String => s.data.head?) h
    simp [mismatchError, config.Pod, config.Node] at h1
  · rw [RunAssert_eq_pollN _ _ _ 1 _ rfl (Or.inr rfl) (by decide)]
    decide
  · rw [RunAssert_eq_pollN _ _ _ 0 _ rfl (Or.inr rfl) (by decide)]
    decide

/-! ## C2: one poll -/

/-- C2 (as amended): when the list query of a poll (`assertNode`, `assertPod`)
succeeds, the poll succeeds exactly when the returned list is not nil and its
length is the expected count; on any other answer, the nil list included, it
fails with the count-mismatch error that reports the length of the list. -/
theorem assert_poll_iff (r : runner σ) (assert : config.AssertStep) (w : Run σ) :
    (∀ nodeList : corev1.NodeList,
      (r.client.NodesList w.state
        { LabelSelector := if assert.Class ≠ "" then "np.class=" ++ assert.Class else "",
          FieldSelector := "" }).1 = Except.ok nodeList →
      ((assertNode r assert w).1 = Outcome.nil ↔
        nodeList.Items ≠ Slice.nil ∧ nodeList.Items.len = assert.Count) ∧
      ((assertNode r assert w).1 ≠ Outcome.nil →
        (assertNode r assert w).1 = Outcome.err
          (if assert.Class ≠ "" then
            "found " ++ toString nodeList.Items.len ++ " nodes of class " ++ assert.Class
              ++ ", but " ++ toString assert.Count ++ " expected"
           else "found " ++ toString nodeList.Items.len ++ " nodes but "
              ++ toString assert.Count ++ " expected"))) ∧
    (∀ podList : corev1.PodList,
      (r.client.PodsList w.state r.namespace_
        { LabelSelector := if assert.Class ≠ "" then "np.class=" ++ assert.Class else "",
          FieldSelector :=
            if assert.PodPhase ≠ "" then "status.phase=" ++ assert.PodPhase else "" }).1
        = Except.ok podList →
      ((assertPod r assert w).1 = Outcome.nil ↔
        podList.Items ≠ Slice.nil ∧ podList.Items.len = assert.Count) ∧
      ((assertPod r assert w).1 ≠ Outcome.nil →
        (assertPod r assert w).1 = Outcome.err
          ("found " ++ toString podList.Items.len ++ " pods of class " ++ assert.Class
            ++ " and phase: " ++ assert.PodPhase ++ ", but " ++ toString assert.Count
            ++ " expected"))) := by
  constructor
  · intro nodeList h
    simp only [assertNode, listNodes]
    rcases hq : r.client.NodesList w.state
      { LabelSelector := if assert.Class ≠ "" then "np.class=" ++ assert.Class else "",
        FieldSelector := "" } with ⟨a, s1⟩
    rw [hq] at h
    simp only at h
    subst h
    by_cases hc : nodeList.Items = Slice.nil ∨ nodeList.Items.len ≠ assert.Count
    · have hc2 : ¬ (nodeList.Items ≠ Slice.nil ∧ nodeList.Items.len = assert.Count) := by
        intro h2; rcases hc with h3 | h3
        · exact h2.1 h3
        · exact h3 h2.2
      by_cases hcl : assert.Class = "" <;> simp [hc, hc2, hcl]
    · have hc2 : nodeList.Items ≠ Slice.nil ∧ nodeList.Items.len = assert.Count := by
        constructor
        · intro h3; exact hc (Or.inl h3)
        · by_contra h3; exact hc (Or.inr h3)
      simp [hc, hc2]
  · intro podList h
    simp only [assertPod, listPods]
    rcases hq : r.client.PodsList w.state r.namespace_
      { LabelSelector := if assert.Class ≠ "" then "np.class=" ++ assert.Class else "",
        FieldSelector :=
          if assert.PodPhase ≠ "" then "status.phase=" ++ assert.PodPhase else "" } with ⟨a, s1⟩
    rw [hq] at h
    simp only at h
    subst h
    by_cases hc : podList.Items = Slice.nil ∨ podList.Items.len ≠ assert.Count
    · have hc2 : ¬ (podList.Items ≠ Slice.nil ∧ podList.Items.len = assert.Count) := by
        intro h2; rcases hc with h3 | h3
        · exact h2.1 h3
        · exact h3 h2.2
      simp [hc, hc2]
    · have hc2 : podList.Items ≠ Slice.nil ∧ podList.Items.len = assert.Count := by
        constructor
        · intro h3; exact hc (Or.inl h3)
        · by_contra h3; exact hc (Or.inr h3)
      simp [hc, hc2]

/-- C2, a concrete poll: two pods of the class are listed and two are
expected, so the poll succeeds. -/
theorem assert_poll_iff_witness :
    (assertPod
        (fixture.runnerOf []
          [Except.ok { Items := Slice.mk [fixture.workerPod "worker-0",
                                          fixture.workerPod "worker-1"] }] [])
        { Count := 2, Class := "worker", Object := config.Pod, PodPhase := "",
          Delay := 1000000000 }
        fixture.start).1 = Outcome.nil ↔
      (Slice.mk [fixture.workerPod "worker-0", fixture.workerPod "worker-1"]
          : Slice corev1.Pod) ≠ Slice.nil ∧
        (Slice.mk [fixture.workerPod "worker-0", fixture.workerPod "worker-1"]
          : Slice corev1.Pod).len = 2 :=
  ((assert_poll_iff
    (fixture.runnerOf []
      [Except.ok { Items := Slice.mk [fixture.workerPod "worker-0",
                                      fixture.workerPod "worker-1"] }] [])
    { Count := 2, Class := "worker", Object := config.Pod, PodPhase := "", Delay := 1000000000 }
    fixture.start).2
    { Items := Slice.mk [fixture.workerPod "worker-0", fixture.workerPod "worker-1"] } rfl).1

/-- C2 as stated fails when the list comes back nil: the query of the poll
succeeds and returns no resource, the expected count is 0, and both
`assertPod` and `assertNode` fail, reporting 0 found but 0 expected. -/
theorem assert_poll_nil_list_counterexample :
    (assertPod (fixture.runnerOf [] [Except.ok { Items := Slice.nil }] [])
        { Count := 0, Class := "worker", Object := config.Pod, PodPhase := "", Delay := 1000000000 }
        fixture.start).1
      = Outcome.err "found 0 pods of class worker and phase: , but 0 expected" ∧
    (assertNode (fixture.runnerOf [Except.ok { Items := Slice.nil }] [] [])
        { Count := 0, Class := "worker", Object := config.Node, PodPhase := "",
          Delay := 1000000000 }
        fixture.start).1
      = Outcome.err "found 0 nodes of class worker, but 0 expected" ∧
    (Slice.nil : Slice corev1.Pod).len = 0 := by
  decide

/-! ## C3: at least one poll -/

set_option maxRecDepth 4000 in
/-- C3, the run at the failing input: on a pod assertion whose budget is
below one second (here 999999999 ns, for any count, class and phase)
`RunAssert` returns success without a single call: the log and the state of
the control plane are as before. -/
theorem RunAssert_short_budget_no_poll (r : runner σ) (w : Run σ) (count : Nat)
    (cls phase : String) :
    RunAssert r
      (fixture.assertStep { Count := count, Class := cls, Object := config.Pod,
                            PodPhase := phase, Delay := 999999999 }) w
      = (Outcome.nil, w) := by
  have hnp : config.Pod ≠ config.Node := by decide
  simp only [RunAssert, fixture.assertStep, hnp, if_false, if_true]
  exact pollLoop_no_steps r _ _ (by decide) _ _

/-- The unrolled polling loop with `W` steps makes at most `W` list queries. -/
theorem pollN_polls_le (r : runner σ) (assert : config.AssertStep) (W : Nat) :
    ∀ (err : Outcome) (w : Run σ),
      countLists (pollN r (pollOf r assert) W err w).2.calls ≤ countLists w.calls + W := by
  induction W with
  | zero => intro err w; simp [pollN]
  | succ n ih =>
    intro err w
    obtain ⟨_, _, h3⟩ := pollOf_eq r assert w
    rcases hp : pollOf r assert w with ⟨o, w1⟩
    rw [hp] at h3
    simp only at h3
    cases o with
    | nil => simp only [pollN, hp]; omega
    | fault p => simp only [pollN, hp]; omega
    | err e =>
      simp only [pollN, hp]
      have hrest := ih (Outcome.err e) (sleep r time.Second w1)
      have hs : countLists (sleep r time.Second w1).calls = countLists w1.calls := by
        simp [sleep, countLists_append, countLists]
      omega

/-- The half of C3 that holds: with a budget of `W` whole seconds `RunAssert`
on a node or pod step makes at most `W` list queries. -/
theorem RunAssert_polls_le_budget (r : runner σ) (step : config.Step)
    (assert : config.AssertStep) (W : Nat) (w : Run σ) (hstep : step.Assert = some assert)
    (hobj : assert.Object = config.Node ∨ assert.Object = config.Pod)
    (hW : time.Seconds assert.Delay = (W : Int)) :
    countLists (RunAssert r step w).2.calls ≤ countLists w.calls + W := by
  rw [RunAssert_eq_pollN r step assert W w hstep hobj hW]
  exact pollN_polls_le r assert W Outcome.nil w

/-! ## Lemmas on the counted loops and on batches of writes -/

/-- A counted loop whose body indexes a list and writes the element is the
batch of writes over the part of the list the counter runs through. -/
theorem forCount_index_eq_writeAll {α : Type} (body : Nat → Run σ → Outcome × Run σ)
    (call : α → Run σ → Option Error × Run σ) (wrap : Error → Error) (xs : List α)
    (hbody : ∀ i w, body i w =
      match xs.get? i with
      | none => (Outcome.fault "index out of range", w)
      | some x =>
        match call x w with
        | (some e, w1) => (Outcome.err (wrap e), w1)
        | (none, w1) => (Outcome.nil, w1)) :
    ∀ (n i : Nat) (w : Run σ), i + n ≤ xs.length →
      forCount body n i w = writeAll call wrap ((xs.drop i).take n) w := by
  intro n
  induction n with
  | zero => intro i w _; simp [forCount, writeAll]
  | succ n ih =>
    intro i w h
    have hi : i < xs.length := by omega
    have hd : xs.drop i = xs.get ⟨i, hi⟩ :: xs.drop (i + 1) := by
      simp
    have hg : xs.get? i = some (xs.get ⟨i, hi⟩) := List.get?_eq_get hi
    rw [hd, List.take_succ_cons]
    simp only [forCount, writeAll, hbody, hg]
    rcases call (xs.get ⟨i, hi⟩) w with ⟨a, w1⟩
    cases a with
    | some e => rfl
    | none => exact ih (i + 1) w1 (by omega)

/-- A counted loop whose body writes a resource made from the counter is the
batch of writes over the resources of the counter values it runs through. -/
theorem forCount_gen_eq_writeAll {α : Type} (body : Nat → Run σ → Outcome × Run σ)
    (call : α → Run σ → Option Error × Run σ) (wrap : Error → Error) (f : Nat → α)
    (hbody : ∀ i w, body i w =
      match call (f i) w with
      | (some e, w1) => (Outcome.err (wrap e), w1)
      | (none, w1) => (Outcome.nil, w1)) :
    ∀ (n i : Nat) (w : Run σ),
      forCount body n i w = writeAll call wrap ((List.range' i n).map f) w := by
  intro n
  induction n with
  | zero => intro i w; simp [forCount, writeAll]
  | succ n ih =>
    intro i w
    simp only [forCount, List.range'_succ, List.map_cons, writeAll, hbody]
    rcases call (f i) w with ⟨a, w1⟩
    cases a with
    | some e => rfl
    | none => exact ih (i + 1) w1

/-- The answer to the first write of a batch. -/
theorem answerAt_cons_zero {α : Type} (op : σ → α → Option Error × σ) (x : α) (xs : List α)
    (s : σ) : answerAt op (x :: xs) s 0 = some (op s x).1 := by
  simp [answerAt, stateAfter]

/-- The answer to a later write of a batch. -/
theorem answerAt_cons_succ {α : Type} (op : σ → α → Option Error × σ) (x : α) (xs : List α)
    (s : σ) (j : Nat) : answerAt op (x :: xs) s (j + 1) = answerAt op xs (op s x).2 j := by
  simp [answerAt, stateAfter]

/-- A batch whose writes are all accepted: it returns nil, has made every
write of the list, in order, and nothing else. -/
theorem writeAll_accepted {α : Type} (op : σ → α → Option Error × σ) (mk : α → Call)
    (wrap : Error → Error) (xs : List α) :
    ∀ (w : Run σ), (∀ j, j < xs.length → answerAt op xs w.state j = some none) →
      writeAll (logged op mk) wrap xs w
        = (Outcome.nil, { state := stateAfter op xs w.state, calls := w.calls ++ xs.map mk }) := by
  induction xs with
  | nil => intro w _; simp [writeAll, stateAfter]
  | cons x xs ih =>
    intro w h
    have h0 := h 0 (by simp)
    rw [answerAt_cons_zero] at h0
    have h0 : (op w.state x).1 = none := by simpa using h0
    have hrest := ih { state := (op w.state x).2, calls := w.calls ++ [mk x] } (by
      intro j hj
      have := h (j + 1) (by simpa using hj)
      rwa [answerAt_cons_succ] at this)
    simp only [writeAll, logged, h0]
    rw [hrest]
    simp [stateAfter]

/-- A batch whose write for position `j` is the first to be rejected: it
returns that error and has made the writes for positions `0..j`, in order, and
nothing else. -/
theorem writeAll_rejected {α : Type} (op : σ → α → Option Error × σ) (mk : α → Call)
    (wrap : Error → Error) (xs : List α) :
    ∀ (w : Run σ) (j : Nat) (e : Error),
      (∀ i, i < j → answerAt op xs w.state i = some none) →
      answerAt op xs w.state j = some (some e) →
      (writeAll (logged op mk) wrap xs w).1 = Outcome.err (wrap e) ∧
        (writeAll (logged op mk) wrap xs w).2.calls = w.calls ++ (xs.take (j + 1)).map mk := by
  induction xs with
  | nil => intro w j e _ h; simp [answerAt] at h
  | cons x xs ih =>
    intro w j e hb hj
    cases j with
    | zero =>
      rw [answerAt_cons_zero] at hj
      have h0 : (op w.state x).1 = some e := by simpa using hj
      simp [writeAll, logged, h0]
    | succ j =>
      have h0 := hb 0 (Nat.succ_pos j)
      rw [answerAt_cons_zero] at h0
      have h0 : (op w.state x).1 = none := by simpa using h0
      rw [answerAt_cons_succ] at hj
      have hrest := ih { state := (op w.state x).2, calls := w.calls ++ [mk x] } j e (by
        intro i hi
        have := hb (i + 1) (Nat.succ_lt_succ hi)
        rwa [answerAt_cons_succ] at this) hj
      simp only [writeAll, logged, h0]
      refine ⟨hrest.1, ?_⟩
      rw [hrest.2]
      simp

/-! ## C4: a change to the same phase -/

/-- C4: for every Change step on Pod whose source phase equals its target
phase, whatever the class, the count and the state of the cluster, `RunChange`
fails with the no-op-transition error and issues no call at all: the log and
the state of the control plane are as before. -/
theorem RunChange_same_phase (r : runner σ) (step : config.Step) (change : config.ChangeStep)
    (w : Run σ) (hstep : step.Change = some change) (hobj : change.Object = config.Pod)
    (hsame : change.FromPodPhase = change.ToPodPhase) :
    RunChange r step w
      = (Outcome.err ("the change requested is to the same phase. From phase: "
          ++ change.FromPodPhase ++ ", to phase: " ++ change.ToPodPhase), w) := by
  simp [RunChange, hstep, hobj, changePod, hsame]

/-- C4, a concrete run: a change of one worker pod from Running to Running
against a cluster that lists such a pod. -/
theorem RunChange_same_phase_witness :
    RunChange
        (fixture.runnerOf [] [Except.ok { Items := Slice.mk [fixture.workerPod "worker-0"] }] [])
        (fixture.changeStep { Count := 1, Class := "worker", Object := config.Pod,
                              FromPodPhase := corev1.PodRunning,
                              ToPodPhase := corev1.PodRunning })
        fixture.start
      = (Outcome.err
          "the change requested is to the same phase. From phase: Running, to phase: Running",
         fixture.start) :=
  RunChange_same_phase _ _
    { Count := 1, Class := "worker", Object := config.Pod,
      FromPodPhase := corev1.PodRunning, ToPodPhase := corev1.PodRunning }
    fixture.start rfl rfl rfl

/-! ## C5: a change of more pods than the source phase holds -/

/-- C5 (as amended): for every Change step on Pod with distinct source and
target phases whose count is greater than the number `n` of pods the query
returns for the class and the source phase, `RunChange` fails, with the
InsufficientCount error ("expected atleast ...") when `n ≥ 1` and with the
NotFound error ("found 0 pods ...") when `n = 0`, and in both cases the only
call it has issued is the list query: no update-status call. -/
theorem RunChange_too_few (r : runner σ) (step : config.Step) (change : config.ChangeStep)
    (w : Run σ) (pods : corev1.PodList) (hstep : step.Change = some change)
    (hobj : change.Object = config.Pod) (hne : change.FromPodPhase ≠ change.ToPodPhase)
    (hq : (r.client.PodsList w.state r.namespace_
            { LabelSelector := "np.class=" ++ change.Class,
              FieldSelector := "status.phase=" ++ change.FromPodPhase }).1 = Except.ok pods)
    (hlt : pods.Items.len < change.Count) :
    (RunChange r step w).1
        = Outcome.err
          (if pods.Items.len = 0 then
            "found 0 pods of class: " ++ change.Class ++ " and phase: "
              ++ change.FromPodPhase ++ ", expected: " ++ toString change.Count
           else
            "expected atleast " ++ toString change.Count ++ " pods of class: "
              ++ change.Class ++ " and phase: " ++ change.FromPodPhase ++ ", but found: "
              ++ toString pods.Items.len) ∧
      (RunChange r step w).2.calls
        = w.calls ++ [Call.PodsList r.namespace_
            { LabelSelector := "np.class=" ++ change.Class,
              FieldSelector := "status.phase=" ++ change.FromPodPhase }] := by
  simp only [RunChange, hstep, hobj, changePod, hne, if_false, if_true, listPods]
  rcases hq2 : r.client.PodsList w.state r.namespace_
      { LabelSelector := "np.class=" ++ change.Class,
        FieldSelector := "status.phase=" ++ change.FromPodPhase } with ⟨a, s1⟩
  rw [hq2] at hq
  simp only at hq
  subst hq
  by_cases h0 : pods.Items.len = 0
  · simp [h0]
  · simp [h0, hlt]

/-- C5, a concrete run: three pods are asked to change, one pending pod is
listed. -/
theorem RunChange_too_few_witness :
    (RunChange
        (fixture.runnerOf [] [Except.ok { Items := Slice.mk [fixture.workerPod "worker-0"] }] [])
        (fixture.changeStep { Count := 3, Class := "worker", Object := config.Pod,
                              FromPodPhase := corev1.PodPending,
                              ToPodPhase := corev1.PodRunning })
        fixture.start).1
      = Outcome.err "expected atleast 3 pods of class: worker and phase: Pending, but found: 1" :=
  (RunChange_too_few
    (fixture.runnerOf [] [Except.ok { Items := Slice.mk [fixture.workerPod "worker-0"] }] [])
    (fixture.changeStep { Count := 3, Class := "worker", Object := config.Pod,
                          FromPodPhase := corev1.PodPending, ToPodPhase := corev1.PodRunning })
    { Count := 3, Class := "worker", Object := config.Pod,
      FromPodPhase := corev1.PodPending, ToPodPhase := corev1.PodRunning }
    fixture.start { Items := Slice.mk [fixture.workerPod "worker-0"] }
    rfl rfl (by decide) rfl (by decide)).1

/-- C5 as stated fails when the query returns no pod: a change of one pod from
Pending to Running against a cluster that lists none fails with the NotFound
message, which is not the InsufficientCount message for these numbers. -/
theorem RunChange_zero_found_counterexample :
    (RunChange
        (fixture.runnerOf [] [Except.ok { Items := Slice.mk [] }] [])
        (fixture.changeStep { Count := 1, Class := "worker", Object := config.Pod,
                              FromPodPhase := corev1.PodPending,
                              ToPodPhase := corev1.PodRunning })
        fixture.start).1
      = Outcome.err "found 0 pods of class: worker and phase: Pending, expected: 1" ∧
    (RunChange
        (fixture.runnerOf [] [Except.ok { Items := Slice.mk [] }] [])
        (fixture.changeStep { Count := 1, Class := "worker", Object := config.Pod,
                              FromPodPhase := corev1.PodPending,
                              ToPodPhase := corev1.PodRunning })
        fixture.start).1
      ≠ Outcome.err "expected atleast 1 pods of class: worker and phase: Pending, but found: 0" := by
  decide

/-! ## C6: a create of an unknown class -/

/-- The search of `createNode` through a catalog without the class. -/
theorem createNodeIn_unknown (r : runner σ) (create : config.CreateStep) (w : Run σ) :
    ∀ (classes : List config.NodeClass), (∀ cls ∈ classes, cls.Name ≠ create.Class) →
      createNodeIn r create classes w
        = (Outcome.err ("class: " ++ create.Class ++ " not found in the node config"), w) := by
  intro classes
  induction classes with
  | nil => intro _; rfl
  | cons c cs ih =>
    intro h
    have hc : c.Name ≠ create.Class := h c (by simp)
    simp only [createNodeIn, hc, if_false]
    exact ih (fun cls hcls => h cls (by simp [hcls]))

/-- The search of `createPod` through a catalog without the class. -/
theorem createPodIn_unknown (r : runner σ) (create : config.CreateStep) (w : Run σ) :
    ∀ (classes : List config.PodClass), (∀ cls ∈ classes, cls.Name ≠ create.Class) →
      createPodIn r create classes w
        = (Outcome.err ("class: " ++ create.Class ++ " not found in the pod config"), w) := by
  intro classes
  induction classes with
  | nil => intro _; rfl
  | cons c cs ih =>
    intro h
    have hc : c.Name ≠ create.Class := h c (by simp)
    simp only [createPodIn, hc, if_false]
    exact ih (fun cls hcls => h cls (by simp [hcls]))

/-- C6: for every Create step on Node or Pod whose class is not the name of any
entry of the catalog for that kind, and for every count, `RunCreate` fails with
the class-not-found error and issues no call: the log and the state of the
control plane are as before, so there is no create-pod and no
register-fake-node call. -/
theorem RunCreate_unknown_class (r : runner σ) (step : config.Step)
    (create : config.CreateStep) (w : Run σ) (hstep : step.Create = some create) :
    (create.Object = config.Node →
      (∀ cls ∈ r.nodeConfig.NodeClasses, cls.Name ≠ create.Class) →
      RunCreate r step w
        = (Outcome.err ("class: " ++ create.Class ++ " not found in the node config"), w)) ∧
    (create.Object = config.Pod →
      (∀ cls ∈ r.podConfig.PodClasses, cls.Name ≠ create.Class) →
      RunCreate r step w
        = (Outcome.err ("class: " ++ create.Class ++ " not found in the pod config"), w)) := by
  have hnp : config.Pod ≠ config.Node := by decide
  constructor
  · intro hobj h
    simp only [RunCreate, hstep, hobj, if_true, createNode]
    exact createNodeIn_unknown r create w _ h
  · intro hobj h
    simp only [RunCreate, hstep, hobj, hnp, if_true, if_false, createPod]
    exact createPodIn_unknown r create w _ h

/-- C6, a concrete run: five pods of the class "gpu" are asked for and the
catalog only has "worker". -/
theorem RunCreate_unknown_class_witness :
    RunCreate (fixture.runnerOf [] [] [])
        (fixture.createStep { Count := 5, Class := "gpu", Object := config.Pod })
        fixture.start
      = (Outcome.err "class: gpu not found in the pod config", fixture.start) :=
  (RunCreate_unknown_class (fixture.runnerOf [] [] [])
    (fixture.createStep { Count := 5, Class := "gpu", Object := config.Pod })
    { Count := 5, Class := "gpu", Object := config.Pod } fixture.start rfl).2 rfl
    (by decide)

/-! ## C7: the pod handed to the update-status call -/

/-- C7, the run at the failing input: one pending pod without conditions is
changed to Running.  The step succeeds after the list query and one
update-status call, and the pod that call carries has the target phase and an
empty list of conditions; the condition record with status True is appended to
the conditions of the loop variable `pod`, which is not the pod sent. -/
theorem RunChange_update_without_condition :
    (RunChange
        (fixture.runnerOf [] [Except.ok { Items := Slice.mk [fixture.workerPod "worker-0"] }] [])
        (fixture.changeStep { Count := 1, Class := "worker", Object := config.Pod,
                              FromPodPhase := corev1.PodPending,
                              ToPodPhase := corev1.PodRunning })
        fixture.start).1 = Outcome.nil ∧
    (RunChange
        (fixture.runnerOf [] [Except.ok { Items := Slice.mk [fixture.workerPod "worker-0"] }] [])
        (fixture.changeStep { Count := 1, Class := "worker", Object := config.Pod,
                              FromPodPhase := corev1.PodPending,
                              ToPodPhase := corev1.PodRunning })
        fixture.start).2.calls
      = [Call.PodsList "default"
            { LabelSelector := "np.class=worker", FieldSelector := "status.phase=Pending" },
         Call.PodsUpdateStatus "default"
            { ObjectMeta := { Name := "worker-0", Labels := [("np.class", "worker")] },
              Spec := { raw := "busybox" },
              Status := { Phase := "Running", Conditions := [] } }] ∧
    (changeLocals { Count := 1, Class := "worker", Object := config.Pod,
                    FromPodPhase := corev1.PodPending, ToPodPhase := corev1.PodRunning }
        (fixture.workerPod "worker-0") 1).1.Status.Conditions
      = [{ Type_ := "Running", Status := "True", LastTransitionTime := 1 }] := by
  decide

/-! ## C8: the batch of status updates -/

/-- Indexing a slice is indexing the list of its elements. -/
theorem Slice_index_eq {α : Type} (s : Slice α) (i : Nat) : s.index i = s.toList.get? i := by
  cases s <;> simp [Slice.index, Slice.toList]

/-- The length of a slice is the length of the list of its elements. -/
theorem Slice_len_eq {α : Type} (s : Slice α) : s.len = s.toList.length := by
  cases s <;> simp [Slice.len, Slice.toList]

/-- A batch over the images of a list. -/
theorem writeAll_map {α β : Type} (call : β → Run σ → Option Error × Run σ)
    (wrap : Error → Error) (f : α → β) (xs : List α) :
    ∀ (w : Run σ), writeAll (fun x => call (f x)) wrap xs w = writeAll call wrap (xs.map f) w := by
  induction xs with
  | nil => intro w; rfl
  | cons x xs ih =>
    intro w
    simp only [writeAll, List.map_cons]
    rcases call (f x) w with ⟨a, w1⟩
    cases a with
    | some e => rfl
    | none => exact ih w1

/-- The update loop of `changePod` over a list that is long enough is the
batch of update-status calls for the first `count` pods, each given the target
phase. -/
theorem changePod_loop_eq (r : runner σ) (change : config.ChangeStep) (pods : corev1.PodList)
    (w : Run σ) (hn : change.Count ≤ pods.Items.len) :
    forCount (changePodBody r change pods) change.Count 0 w
      = writeAll
          (logged (fun s pod => r.client.PodsUpdateStatus s r.namespace_ pod)
            (Call.PodsUpdateStatus r.namespace_))
          id ((pods.Items.toList.take change.Count).map (changedPod change)) w := by
  rw [forCount_index_eq_writeAll (changePodBody r change pods)
    (fun item w => podsUpdateStatus r (changeLocals change item (r.client.Now w.state)).2 w)
    id pods.Items.toList]
  · rw [List.drop_zero, ← writeAll_map]
    rfl
  · intro i w
    simp only [changePodBody, Slice_index_eq]
    cases pods.Items.toList.get? i with
    | none => rfl
    | some item =>
      simp only
      rcases podsUpdateStatus r (changeLocals change item (r.client.Now w.state)).2 w with ⟨a, w1⟩
      cases a <;> rfl
  · rw [← Slice_len_eq]; omega

/-- C8: for every Change step on Pod with distinct phases whose query returns
a list of `n` pods with `n ≥ count` and `n ≥ 1`, `RunChange` issues, after the
list query, update-status calls for the pods at positions `0, 1, ...` of the
returned list, each with the target phase, in that order and for no other pod.
If all `count` calls are accepted it returns success and the log holds exactly
those `count` calls; if the call for position `j` is the first to fail it
returns that failure and the log holds exactly the calls for positions
`0..j`, so positions beyond `j` are untouched. -/
theorem RunChange_updates_in_order (r : runner σ) (step : config.Step)
    (change : config.ChangeStep) (w : Run σ) (pods : corev1.PodList)
    (hstep : step.Change = some change) (hobj : change.Object = config.Pod)
    (hne : change.FromPodPhase ≠ change.ToPodPhase)
    (hq : (r.client.PodsList w.state r.namespace_
            { LabelSelector := "np.class=" ++ change.Class,
              FieldSelector := "status.phase=" ++ change.FromPodPhase }).1 = Except.ok pods)
    (hn : change.Count ≤ pods.Items.len) (h1 : 1 ≤ pods.Items.len) :
    ((∀ j, j < change.Count →
        answerAt (fun s pod => r.client.PodsUpdateStatus s r.namespace_ pod)
          ((pods.Items.toList.take change.Count).map (changedPod change))
          (r.client.PodsList w.state r.namespace_
            { LabelSelector := "np.class=" ++ change.Class,
              FieldSelector := "status.phase=" ++ change.FromPodPhase }).2 j = some none) →
      (RunChange r step w).1 = Outcome.nil ∧
      (RunChange r step w).2.calls
        = w.calls ++ [Call.PodsList r.namespace_
            { LabelSelector := "np.class=" ++ change.Class,
              FieldSelector := "status.phase=" ++ change.FromPodPhase }]
          ++ ((pods.Items.toList.take change.Count).map (changedPod change)).map
              (Call.PodsUpdateStatus r.namespace_)) ∧
    (∀ j e, j < change.Count →
      (∀ i, i < j →
        answerAt (fun s pod => r.client.PodsUpdateStatus s r.namespace_ pod)
          ((pods.Items.toList.take change.Count).map (changedPod change))
          (r.client.PodsList w.state r.namespace_
            { LabelSelector := "np.class=" ++ change.Class,
              FieldSelector := "status.phase=" ++ change.FromPodPhase }).2 i = some none) →
      answerAt (fun s pod => r.client.PodsUpdateStatus s r.namespace_ pod)
          ((pods.Items.toList.take change.Count).map (changedPod change))
          (r.client.PodsList w.state r.namespace_
            { LabelSelector := "np.class=" ++ change.Class,
              FieldSelector := "status.phase=" ++ change.FromPodPhase }).2 j = some (some e) →
      (RunChange r step w).1 = Outcome.err e ∧
      (RunChange r step w).2.calls
        = w.calls ++ [Call.PodsList r.namespace_
            { LabelSelector := "np.class=" ++ change.Class,
              FieldSelector := "status.phase=" ++ change.FromPodPhase }]
          ++ (((pods.Items.toList.take change.Count).map (changedPod change)).take (j + 1)).map
              (Call.PodsUpdateStatus r.namespace_)) := by
  have h0 : ¬ pods.Items.len = 0 := by omega
  have hlt : ¬ pods.Items.len < change.Count := by omega
  have hrun : RunChange r step w
      = writeAll
          (logged (fun s pod => r.client.PodsUpdateStatus s r.namespace_ pod)
            (Call.PodsUpdateStatus r.namespace_))
          id ((pods.Items.toList.take change.Count).map (changedPod change))
          { state := (r.client.PodsList w.state r.namespace_
              { LabelSelector := "np.class=" ++ change.Class,
                FieldSelector := "status.phase=" ++ change.FromPodPhase }).2,
            calls := w.calls ++ [Call.PodsList r.namespace_
              { LabelSelector := "np.class=" ++ change.Class,
                FieldSelector := "status.phase=" ++ change.FromPodPhase }] } := by
    simp only [RunChange, hstep, hobj, changePod, hne, if_false, if_true, listPods]
    rcases hq2 : r.client.PodsList w.state r.namespace_
        { LabelSelector := "np.class=" ++ change.Class,
          FieldSelector := "status.phase=" ++ change.FromPodPhase } with ⟨a, s1⟩
    rw [hq2] at hq
    simp only at hq
    subst hq
    simp only [h0, hlt, if_false]
    exact changePod_loop_eq r change pods _ hn
  have hlen : ((pods.Items.toList.take change.Count).map (changedPod change)).length
      = change.Count := by
    rw [List.length_map, List.length_take, ← Slice_len_eq]; omega
  rw [hrun]
  constructor
  · intro hall
    rw [writeAll_accepted _ _ _ _ _ (by
      intro j hj
      rw [hlen] at hj
      exact hall j hj)]
    exact ⟨rfl, rfl⟩
  · intro j e _ hb hj
    have := writeAll_rejected (fun s pod => r.client.PodsUpdateStatus s r.namespace_ pod)
      (Call.PodsUpdateStatus r.namespace_) id
      ((pods.Items.toList.take change.Count).map (changedPod change))
      { state := (r.client.PodsList w.state r.namespace_
          { LabelSelector := "np.class=" ++ change.Class,
            FieldSelector := "status.phase=" ++ change.FromPodPhase }).2,
        calls := w.calls ++ [Call.PodsList r.namespace_
          { LabelSelector := "np.class=" ++ change.Class,
            FieldSelector := "status.phase=" ++ change.FromPodPhase }] } j e hb hj
    exact ⟨this.1, this.2⟩

/-- C8, a concrete run: two of three listed pods are to go from Pending to
Running and the control plane rejects the second update.  The step returns
that error after the list query and the updates for positions 0 and 1; the
third pod is not touched. -/
theorem RunChange_updates_in_order_witness :
    (RunChange
        (fixture.runnerOf []
          [Except.ok { Items := Slice.mk [fixture.workerPod "worker-0",
              fixture.workerPod "worker-1", fixture.workerPod "worker-2"] }]
          [none, some "conflict"])
        (fixture.changeStep { Count := 2, Class := "worker", Object := config.Pod,
                              FromPodPhase := corev1.PodPending,
                              ToPodPhase := corev1.PodRunning })
        fixture.start).1 = Outcome.err "conflict" ∧
    (RunChange
        (fixture.runnerOf []
          [Except.ok { Items := Slice.mk [fixture.workerPod "worker-0",
              fixture.workerPod "worker-1", fixture.workerPod "worker-2"] }]
          [none, some "conflict"])
        (fixture.changeStep { Count := 2, Class := "worker", Object := config.Pod,
                              FromPodPhase := corev1.PodPending,
                              ToPodPhase := corev1.PodRunning })
        fixture.start).2.calls
      = [Call.PodsList "default"
            { LabelSelector := "np.class=worker", FieldSelector := "status.phase=Pending" },
         Call.PodsUpdateStatus "default"
            { ObjectMeta := { Name := "worker-0", Labels := [("np.class", "worker")] },
              Spec := { raw := "busybox" },
              Status := { Phase := "Running", Conditions := [] } },
         Call.PodsUpdateStatus "default"
            { ObjectMeta := { Name := "worker-1", Labels := [("np.class", "worker")] },
              Spec := { raw := "busybox" },
              Status := { Phase := "Running", Conditions := [] } }] := by
  have h := (RunChange_updates_in_order
    (fixture.runnerOf []
      [Except.ok { Items := Slice.mk [fixture.workerPod "worker-0",
          fixture.workerPod "worker-1", fixture.workerPod "worker-2"] }]
      [none, some "conflict"])
    (fixture.changeStep { Count := 2, Class := "worker", Object := config.Pod,
                          FromPodPhase := corev1.PodPending, ToPodPhase := corev1.PodRunning })
    { Count := 2, Class := "worker", Object := config.Pod,
      FromPodPhase := corev1.PodPending, ToPodPhase := corev1.PodRunning }
    fixture.start
    { Items := Slice.mk [fixture.workerPod "worker-0", fixture.workerPod "worker-1",
        fixture.workerPod "worker-2"] }
    rfl rfl (by decide) rfl (by decide) (by decide)).2 1 "conflict" (by decide)
    (by
      intro i hi
      have h0 : i = 0 := by omega
      subst h0
      decide)
    (by decide)
  exact ⟨h.1, h.2.trans (by decide)⟩

/-! ## C9: the names a create step gives -/

/-- The digit character of a digit has the value of the digit. -/
theorem digitChar_value (k : Nat) (h : k < 10) : (Nat.digitChar k).toNat - 48 = k := by
  interval_cases k <;> decide

/-- Reading back the digits `Nat.toDigitsCore` puts in front of `ds`. -/
theorem decimal_toDigitsCore (fuel : Nat) :
    ∀ (n : Nat) (ds : List Char), n < fuel →
      (Nat.toDigitsCore 10 fuel n ds).foldl (fun a c => 10 * a + (c.toNat - 48)) 0
        = ds.foldl (fun a c => 10 * a + (c.toNat - 48)) n := by
  induction fuel with
  | zero => intro n ds h; omega
  | succ fuel ih =>
    intro n ds h
    have hd := digitChar_value (n % 10) (Nat.mod_lt n (by decide))
    simp only [Nat.toDigitsCore]
    by_cases h0 : n / 10 = 0
    · have hn : n % 10 = n := by omega
      simp only [h0, if_true, List.foldl_cons, hd]
      congr 1
      omega
    · simp only [h0, if_false]
      rw [ih (n / 10) _ (by omega)]
      simp only [List.foldl_cons, hd]
      congr 1
      omega

/-- The decimal numeral of a number reads back as the number. -/
theorem decimalValue_toString (n : Nat) : decimalValue (toString n).data = n := by
  have h : (toString n).data = Nat.toDigits 10 n := rfl
  rw [h, decimalValue, Nat.toDigits, decimal_toDigitsCore (n + 1) n [] (by omega)]
  rfl

/-- Distinct numbers have distinct decimal numerals. -/
theorem toString_nat_injective (i j : Nat) (h : toString i = toString j) : i = j := by
  have := congrArg (fun s : String => decimalValue s.data) h
  simpa [decimalValue_toString] using this

/-- The name `"<class>-<i>"` determines the index `i`. -/
theorem resource_name_injective (cls : String) (i j : Nat)
    (h : cls ++ "-" ++ toString i = cls ++ "-" ++ toString j) : i = j := by
  apply toString_nat_injective
  have h1 := congrArg String.data h
  simp only [String.data_append, List.append_assoc] at h1
  have h2 := List.append_cancel_left (List.append_cancel_left h1)
  exact String.ext h2

/-- The names of the resources with indices `0..n-1` of a class are pairwise
distinct. -/
theorem resource_names_nodup (cls : String) (n : Nat) :
    ((List.range n).map (fun i => cls ++ "-" ++ toString i)).Nodup := by
  apply List.Nodup.map_on
  · intro i _ j _ h
    exact resource_name_injective cls i j h
  · exact List.nodup_range n

/-- The search of `createNode` stops at the first entry with the name of the
class and runs the creation loop for it. -/
theorem createNodeIn_found (r : runner σ) (create : config.CreateStep) (w : Run σ)
    (cls : config.NodeClass) :
    ∀ (classes : List config.NodeClass),
      classes.find? (fun c => decide (c.Name = create.Class)) = some cls →
      createNodeIn r create classes w
        = forCount (createNodeBody r create cls) create.Count 0 w := by
  intro classes
  induction classes with
  | nil => intro h; simp at h
  | cons c cs ih =>
    intro h
    by_cases hc : c.Name = create.Class
    · simp only [List.find?, hc, decide_True] at h
      cases h
      simp [createNodeIn, hc]
    · simp only [List.find?, hc, decide_False] at h
      simp only [createNodeIn, hc, if_false]
      exact ih h

/-- The search of `createPod` stops at the first entry with the name of the
class and runs the creation loop for it. -/
theorem createPodIn_found (r : runner σ) (create : config.CreateStep) (w : Run σ)
    (cls : config.PodClass) :
    ∀ (classes : List config.PodClass),
      classes.find? (fun c => decide (c.Name = create.Class)) = some cls →
      createPodIn r create classes w = forCount (createPodBody r cls) create.Count 0 w := by
  intro classes
  induction classes with
  | nil => intro h; simp at h
  | cons c cs ih =>
    intro h
    by_cases hc : c.Name = create.Class
    · simp only [List.find?, hc, decide_True] at h
      cases h
      simp [createPodIn, hc]
    · simp only [List.find?, hc, decide_False] at h
      simp only [createPodIn, hc, if_false]
      exact ih h

/-- The entry a search finds has the name searched for. -/
theorem find_name_eq {α : Type} (name : α → String) (cls : α) (target : String) :
    ∀ (classes : List α), classes.find? (fun c => decide (name c = target)) = some cls →
      name cls = target := by
  intro classes h
  have := List.find?_some h
  simpa using this

/-- The creation loop of `createNode` is the batch of fake-node starts for the
indices it runs through. -/
theorem createNode_loop_eq (r : runner σ) (create : config.CreateStep)
    (cls : config.NodeClass) (n i : Nat) (w : Run σ) :
    forCount (createNodeBody r create cls) n i w
      = writeAll (logged r.client.Start Call.Start)
          (fun e => "could not create node of class: " ++ create.Class ++ ", err: " ++ e)
          ((List.range' i n).map (newNode cls)) w := by
  apply forCount_gen_eq_writeAll
  intro j w1
  simp only [createNodeBody, newNode]
  rcases h : startNode r (node.NewFakeNode (cls.Name ++ "-" ++ toString j) cls.Name cls.Labels
    cls.Resources) w1 with ⟨a, w2⟩
  have h2 : logged r.client.Start Call.Start (node.NewFakeNode (cls.Name ++ "-" ++ toString j)
      cls.Name cls.Labels cls.Resources) w1 = (a, w2) := h
  rw [h2]

/-- The creation loop of `createPod` is the batch of pod creations for the
indices it runs through. -/
theorem createPod_loop_eq (r : runner σ) (cls : config.PodClass) (n i : Nat) (w : Run σ) :
    forCount (createPodBody r cls) n i w
      = writeAll (logged (fun s pod => r.client.PodsCreate s r.namespace_ pod)
          (Call.PodsCreate r.namespace_)) id ((List.range' i n).map (newPod cls)) w := by
  apply forCount_gen_eq_writeAll
  intro j w1
  simp only [createPodBody, newPod]
  rcases h : podsCreate r
    { ObjectMeta := { Name := cls.Name ++ "-" ++ toString j, Labels := cls.Labels },
      Spec := cls.Spec, Status := { Phase := "", Conditions := [] } } w1 with ⟨a, w2⟩
  have h2 : logged (fun s pod => r.client.PodsCreate s r.namespace_ pod)
      (Call.PodsCreate r.namespace_)
      { ObjectMeta := { Name := cls.Name ++ "-" ++ toString j, Labels := cls.Labels },
        Spec := cls.Spec, Status := { Phase := "", Conditions := [] } } w1 = (a, w2) := h
  rw [h2]
  cases a <;> rfl

/-- A control plane that accepts every write accepts every write of a batch. -/
theorem answerAt_accepts {α : Type} (op : σ → α → Option Error × σ)
    (hacc : ∀ s x, (op s x).1 = none) (xs : List α) (s : σ) (j : Nat) (hj : j < xs.length) :
    answerAt op xs s j = some none := by
  unfold answerAt
  rw [List.get?_eq_get hj]
  simp [hacc]

/-- C9: for every Create step on Node or Pod whose class `C` is in the catalog
(`cls` is the first entry of that name) and every count `N`, against a control
plane that accepts every write, `RunCreate` succeeds and has issued exactly `N`
create calls (fake-node starts for Node, pod creations for Pod) whose names are
`"C-0", ..., "C-(N-1)"` in that order, each with the labels of the catalog
entry; these `N` names are pairwise distinct; and for `N = 0` it returns
success without any call. -/
theorem RunCreate_names_in_order (r : runner σ) (step : config.Step)
    (create : config.CreateStep) (w : Run σ) (hstep : step.Create = some create) :
    (create.Object = config.Node → ∀ cls : config.NodeClass,
      r.nodeConfig.NodeClasses.find? (fun c => decide (c.Name = create.Class)) = some cls →
      ((∀ s n, (r.client.Start s n).1 = none) →
        (RunCreate r step w).1 = Outcome.nil ∧
        (RunCreate r step w).2.calls
          = w.calls ++ (List.range create.Count).map (fun i =>
              Call.Start (node.NewFakeNode (create.Class ++ "-" ++ toString i) create.Class
                cls.Labels cls.Resources))) ∧
      (create.Count = 0 → RunCreate r step w = (Outcome.nil, w))) ∧
    (create.Object = config.Pod → ∀ cls : config.PodClass,
      r.podConfig.PodClasses.find? (fun c => decide (c.Name = create.Class)) = some cls →
      ((∀ s ns pod, (r.client.PodsCreate s ns pod).1 = none) →
        (RunCreate r step w).1 = Outcome.nil ∧
        (RunCreate r step w).2.calls
          = w.calls ++ (List.range create.Count).map (fun i =>
              Call.PodsCreate r.namespace_
                { ObjectMeta := { Name := create.Class ++ "-" ++ toString i,
                                  Labels := cls.Labels },
                  Spec := cls.Spec,
                  Status := { Phase := "", Conditions := [] } })) ∧
      (create.Count = 0 → RunCreate r step w = (Outcome.nil, w))) ∧
    ((List.range create.Count).map (fun i => create.Class ++ "-" ++ toString i)).Nodup := by
  have hnp : config.Pod ≠ config.Node := by decide
  refine ⟨?_, ?_, resource_names_nodup _ _⟩
  · intro hobj cls hfind
    have hname : cls.Name = create.Class := find_name_eq (fun c => c.Name) cls _ _ hfind
    have hrun : RunCreate r step w = forCount (createNodeBody r create cls) create.Count 0 w := by
      simp only [RunCreate, hstep, hobj, if_true, createNode]
      exact createNodeIn_found r create w cls _ hfind
    constructor
    · intro hacc
      rw [hrun, createNode_loop_eq, writeAll_accepted _ _ _ _ _
        (fun j hj => answerAt_accepts _ hacc _ _ j hj)]
      simp only [List.map_map, List.range_eq_range']
      refine ⟨trivial, ?_⟩
      congr 1
      apply List.map_congr_left
      intro i _
      simp [newNode, hname]
    · intro h0
      rw [hrun, h0]
      rfl
  · intro hobj cls hfind
    have hname : cls.Name = create.Class := find_name_eq (fun c => c.Name) cls _ _ hfind
    have hrun : RunCreate r step w = forCount (createPodBody r cls) create.Count 0 w := by
      simp only [RunCreate, hstep, hobj, hnp, if_true, if_false, createPod]
      exact createPodIn_found r create w cls _ hfind
    constructor
    · intro hacc
      rw [hrun, createPod_loop_eq, writeAll_accepted _ _ _ _ _
        (fun j hj => answerAt_accepts _ (fun s x => hacc s r.namespace_ x) _ _ j hj)]
      simp only [List.map_map, List.range_eq_range']
      refine ⟨trivial, ?_⟩
      congr 1
      apply List.map_congr_left
      intro i _
      simp [newPod, hname]
    · intro h0
      rw [hrun, h0]
      rfl

/-- C9, a concrete run: three pods of the class "worker" against a control
plane that accepts every write. -/
theorem RunCreate_names_in_order_witness :
    (RunCreate (fixture.runnerOf [] [] [])
        (fixture.createStep { Count := 3, Class := "worker", Object := config.Pod })
        fixture.start).1 = Outcome.nil ∧
    createdPodNames (RunCreate (fixture.runnerOf [] [] [])
        (fixture.createStep { Count := 3, Class := "worker", Object := config.Pod })
        fixture.start).2.calls = ["worker-0", "worker-1", "worker-2"] := by
  have h := ((RunCreate_names_in_order (fixture.runnerOf [] [] [])
    (fixture.createStep { Count := 3, Class := "worker", Object := config.Pod })
    { Count := 3, Class := "worker", Object := config.Pod } fixture.start rfl).2.1 rfl
    { Name := "worker", Labels := [("np.class", "worker")], Spec := { raw := "busybox" } }
    rfl).1 (by intro s ns pod; rfl)
  refine ⟨h.1, ?_⟩
  rw [h.2]
  decide

/-! ## C10: resource names within a scenario run -/

/-- The create calls of a log that was extended. -/
theorem createdNames_append (a b : List Call) :
    createdNames (a ++ b) = createdNames a ++ createdNames b := by
  induction a with
  | nil => rfl
  | cons c cs ih => cases c <;> simp [createdNames, ih]

/-- A digit character is not the dash. -/
theorem digitChar_ne_dash (k : Nat) (h : k < 10) : Nat.digitChar k ≠ '-' := by
  interval_cases k <;> decide

/-- The function `Nat.toDigitsCore` puts no dash in front of its accumulator. -/
theorem toDigitsCore_no_dash (fuel : Nat) :
    ∀ (n : Nat) (ds : List Char), (∀ c ∈ ds, c ≠ '-') →
      ∀ c ∈ Nat.toDigitsCore 10 fuel n ds, c ≠ '-' := by
  induction fuel with
  | zero => intro n ds h; simpa [Nat.toDigitsCore] using h
  | succ fuel ih =>
    intro n ds h
    have hd := digitChar_ne_dash (n % 10) (Nat.mod_lt n (by decide))
    have hcons : ∀ c ∈ Nat.digitChar (n % 10) :: ds, c ≠ '-' := by
      intro c hc
      rcases List.mem_cons.mp hc with h1 | h1
      · rw [h1]; exact hd
      · exact h c h1
    simp only [Nat.toDigitsCore]
    by_cases h0 : n / 10 = 0
    · simpa only [h0, if_true] using hcons
    · simp only [h0, if_false]
      exact ih (n / 10) _ hcons

/-- A decimal numeral has no dash. -/
theorem toString_nat_no_dash (n : Nat) : '-' ∉ (toString n).data := by
  have h : (toString n).data = Nat.toDigits 10 n := rfl
  rw [h, Nat.toDigits]
  intro hmem
  exact toDigitsCore_no_dash (n + 1) n [] (by simp) '-' hmem rfl

/-- Two texts that agree after a dash followed by dash-free tails agree before
the dash. -/
theorem eq_before_last_dash (d1 d2 : List Char) (h1 : '-' ∉ d1) (h2 : '-' ∉ d2) :
    ∀ (a b : List Char), a ++ '-' :: d1 = b ++ '-' :: d2 → a = b := by
  intro a
  induction a with
  | nil =>
    intro b h
    cases b with
    | nil => rfl
    | cons y b' =>
      simp only [List.nil_append, List.cons_append, List.cons.injEq] at h
      exact absurd (by rw [h.2]; simp) h1
  | cons x a' ih =>
    intro b h
    cases b with
    | nil =>
      simp only [List.nil_append, List.cons_append, List.cons.injEq] at h
      exact absurd (by rw [← h.2]; simp) h2
    | cons y b' =>
      simp only [List.cons_append, List.cons.injEq] at h
      rw [h.1, ih b' h.2]

/-- The name `"<class>-<i>"` determines the class. -/
theorem resource_name_class (c1 c2 : String) (i j : Nat)
    (h : c1 ++ "-" ++ toString i = c2 ++ "-" ++ toString j) : c1 = c2 := by
  have h1 := congrArg String.data h
  simp only [String.data_append, List.append_assoc] at h1
  have h2 : c1.data ++ '-' :: (toString i).data = c2.data ++ '-' :: (toString j).data := h1
  exact String.ext (eq_before_last_dash _ _ (toString_nat_no_dash i) (toString_nat_no_dash j)
    _ _ h2)

/-- A counted loop whose body issues no create call issues no create call. -/
theorem forCount_quiet (body : Nat → Run σ → Outcome × Run σ)
    (hbody : ∀ i w, createdNames (body i w).2.calls = createdNames w.calls) :
    ∀ (n i : Nat) (w : Run σ),
      createdNames (forCount body n i w).2.calls = createdNames w.calls := by
  intro n
  induction n with
  | zero => intro i w; rfl
  | succ n ih =>
    intro i w
    have hb := hbody i w
    rcases hp : body i w with ⟨o, w1⟩
    rw [hp] at hb
    cases o with
    | nil => simp only [forCount, hp]; rw [ih]; exact hb
    | err e => simp only [forCount, hp]; exact hb
    | fault p => simp only [forCount, hp]; exact hb

/-- The unrolled polling loop issues no create call when the poll issues
none. -/
theorem pollN_quiet (r : runner σ) (poll : Run σ → Outcome × Run σ)
    (hpoll : ∀ w, createdNames (poll w).2.calls = createdNames w.calls) :
    ∀ (n : Nat) (err : Outcome) (w : Run σ),
      createdNames (pollN r poll n err w).2.calls = createdNames w.calls := by
  intro n
  induction n with
  | zero => intro err w; rfl
  | succ n ih =>
    intro err w
    have hb := hpoll w
    rcases hp : poll w with ⟨o, w1⟩
    rw [hp] at hb
    cases o with
    | nil => simp only [pollN, hp]; exact hb
    | fault p => simp only [pollN, hp]; exact hb
    | err e =>
      simp only [pollN, hp]
      rw [ih]
      simpa [sleep, createdNames_append, createdNames] using hb

/-- A poll of a node assertion issues no create call. -/
theorem assertNode_quiet (r : runner σ) (assert : config.AssertStep) (w : Run σ) :
    createdNames (assertNode r assert w).2.calls = createdNames w.calls := by
  simp only [assertNode, listNodes]
  split
  · rename_i h
    simp only [Prod.mk.injEq] at h
    rw [← h.2]
    simp [createdNames_append, createdNames]
  · rename_i h
    simp only [Prod.mk.injEq] at h
    split
    · split <;> (rw [← h.2]; simp [createdNames_append, createdNames])
    · rw [← h.2]; simp [createdNames_append, createdNames]

/-- A poll of a pod assertion issues no create call. -/
theorem assertPod_quiet (r : runner σ) (assert : config.AssertStep) (w : Run σ) :
    createdNames (assertPod r assert w).2.calls = createdNames w.calls := by
  simp only [assertPod, listPods]
  split
  · rename_i h
    simp only [Prod.mk.injEq] at h
    rw [← h.2]
    simp [createdNames_append, createdNames]
  · rename_i h
    simp only [Prod.mk.injEq] at h
    split <;> (rw [← h.2]; simp [createdNames_append, createdNames])

/-- An assert step issues no create call. -/
theorem RunAssert_quiet (r : runner σ) (step : config.Step) (w : Run σ) :
    createdNames (RunAssert r step w).2.calls = createdNames w.calls := by
  cases hstep : step.Assert with
  | none => simp [RunAssert, hstep]
  | some assert =>
    by_cases hobj : assert.Object = config.Node ∨ assert.Object = config.Pod
    · by_cases hs : time.Seconds assert.Delay ≤ 0
      · have hnp : config.Pod ≠ config.Node := by decide
        simp only [RunAssert, hstep]
        rcases hobj with h | h
        · simp only [h, if_true]
          rw [pollLoop_no_steps r _ _ hs]
        · simp only [h, hnp, if_false, if_true]
          rw [pollLoop_no_steps r _ _ hs]
      · have hW : time.Seconds assert.Delay = ((time.Seconds assert.Delay).toNat : Int) := by
          rw [Int.toNat_of_nonneg]; omega
        rw [RunAssert_eq_pollN r step assert _ w hstep hobj hW]
        apply pollN_quiet
        intro w1
        unfold pollOf
        split
        · exact assertNode_quiet r assert w1
        · exact assertPod_quiet r assert w1
    · have h1 : ¬ assert.Object = config.Node := fun h => hobj (Or.inl h)
      have h2 : ¬ assert.Object = config.Pod := fun h => hobj (Or.inr h)
      simp [RunAssert, hstep, h1, h2]

/-- A node list query is no create call. -/
theorem listNodes_quiet (r : runner σ) (opts : metav1.ListOptions) (w : Run σ) :
    createdNames (listNodes r opts w).2.calls = createdNames w.calls := by
  simp [listNodes, createdNames_append, createdNames]

/-- A pod list query is no create call. -/
theorem listPods_quiet (r : runner σ) (opts : metav1.ListOptions) (w : Run σ) :
    createdNames (listPods r opts w).2.calls = createdNames w.calls := by
  simp [listPods, createdNames_append, createdNames]

/-- The body of the update loop issues no create call. -/
theorem changePodBody_quiet (r : runner σ) (change : config.ChangeStep)
    (pods : corev1.PodList) (i : Nat) (w : Run σ) :
    createdNames (changePodBody r change pods i w).2.calls = createdNames w.calls := by
  simp only [changePodBody]
  cases pods.Items.index i with
  | none => rfl
  | some item =>
    have hq : createdNames (podsUpdateStatus r
        (changeLocals change item (r.client.Now w.state)).2 w).2.calls = createdNames w.calls := by
      simp [podsUpdateStatus, createdNames_append, createdNames]
    simp only
    generalize podsUpdateStatus r (changeLocals change item (r.client.Now w.state)).2 w = q
      at hq ⊢
    rcases q with ⟨a, w1⟩
    cases a <;> exact hq

/-- The body of the node deletion loop issues no create call. -/
theorem deleteNodeBody_quiet (r : runner σ) (nodes : corev1.NodeList) (i : Nat) (w : Run σ) :
    createdNames (deleteNodeBody r nodes i w).2.calls = createdNames w.calls := by
  simp only [deleteNodeBody]
  cases nodes.Items.index i with
  | none => rfl
  | some item =>
    have hq : createdNames (nodesDelete r item.ObjectMeta.Name w).2.calls
        = createdNames w.calls := by
      simp [nodesDelete, createdNames_append, createdNames]
    simp only
    generalize nodesDelete r item.ObjectMeta.Name w = q at hq ⊢
    rcases q with ⟨a, w1⟩
    cases a <;> exact hq

/-- The body of the pod deletion loop issues no create call. -/
theorem deletePodBody_quiet (r : runner σ) (pods : corev1.PodList) (i : Nat) (w : Run σ) :
    createdNames (deletePodBody r pods i w).2.calls = createdNames w.calls := by
  simp only [deletePodBody]
  cases pods.Items.index i with
  | none => rfl
  | some item =>
    have hq : createdNames (podsDelete r item.ObjectMeta.Name w).2.calls
        = createdNames w.calls := by
      simp [podsDelete, createdNames_append, createdNames]
    simp only
    generalize podsDelete r item.ObjectMeta.Name w = q at hq ⊢
    rcases q with ⟨a, w1⟩
    cases a <;> exact hq

/-- A change step issues no create call. -/
theorem RunChange_quiet (r : runner σ) (step : config.Step) (w : Run σ) :
    createdNames (RunChange r step w).2.calls = createdNames w.calls := by
  cases hstep : step.Change with
  | none => simp [RunChange, hstep]
  | some change =>
    simp only [RunChange, hstep]
    by_cases hobj : change.Object = config.Pod
    · simp only [hobj, if_true, changePod]
      by_cases hsame : change.FromPodPhase = change.ToPodPhase
      · simp only [hsame, if_true]
      · simp only [hsame, if_false]
        have hq := listPods_quiet r
          { LabelSelector := "np.class=" ++ change.Class,
            FieldSelector := "status.phase=" ++ change.FromPodPhase } w
        generalize listPods r
          { LabelSelector := "np.class=" ++ change.Class,
            FieldSelector := "status.phase=" ++ change.FromPodPhase } w = q at hq ⊢
        rcases q with ⟨a, w1⟩
        cases a with
        | error e => exact hq
        | ok pods =>
          simp only
          split
          · exact hq
          · split
            · exact hq
            · rw [forCount_quiet _ (changePodBody_quiet r change pods)]
              exact hq
    · simp only [hobj, if_false]

/-- A delete step issues no create call. -/
theorem RunDelete_quiet (r : runner σ) (step : config.Step) (w : Run σ) :
    createdNames (RunDelete r step w).2.calls = createdNames w.calls := by
  cases hstep : step.Delete with
  | none => simp [RunDelete, hstep]
  | some delete =>
    simp only [RunDelete, hstep]
    by_cases hnode : delete.Object = config.Node
    · simp only [hnode, if_true, deleteNode]
      have hq := listNodes_quiet r
        { LabelSelector := "np.class=" ++ delete.Class, FieldSelector := "" } w
      generalize listNodes r
        { LabelSelector := "np.class=" ++ delete.Class, FieldSelector := "" } w = q at hq ⊢
      rcases q with ⟨a, w1⟩
      cases a with
      | error e => exact hq
      | ok nodes =>
        simp only
        split
        · exact hq
        · rw [forCount_quiet _ (deleteNodeBody_quiet r nodes)]
          exact hq
    · simp only [hnode, if_false]
      by_cases hpod : delete.Object = config.Pod
      · simp only [hpod, if_true, deletePod]
        have hq := listPods_quiet r
          { LabelSelector := "np.class=" ++ delete.Class, FieldSelector := "" } w
        generalize listPods r
          { LabelSelector := "np.class=" ++ delete.Class, FieldSelector := "" } w = q at hq ⊢
        rcases q with ⟨a, w1⟩
        cases a with
        | error e => exact hq
        | ok pods =>
          simp only
          split
          · exact hq
          · rw [forCount_quiet _ (deletePodBody_quiet r pods)]
            exact hq
      · simp only [hpod, if_false]

/-- A batch of writes has made the writes for a front part of its list, in
order, and nothing else, whatever the control plane answered. -/
theorem writeAll_calls {α : Type} (op : σ → α → Option Error × σ) (mk : α → Call)
    (wrap : Error → Error) (xs : List α) :
    ∀ (w : Run σ), ∃ m,
      (writeAll (logged op mk) wrap xs w).2.calls = w.calls ++ (xs.take m).map mk := by
  induction xs with
  | nil => intro w; exact ⟨0, by simp [writeAll]⟩
  | cons x xs ih =>
    intro w
    cases h : (op w.state x).1 with
    | some e => exact ⟨1, by simp [writeAll, logged, h]⟩
    | none =>
      obtain ⟨m, hm⟩ := ih { state := (op w.state x).2, calls := w.calls ++ [mk x] }
      refine ⟨m + 1, ?_⟩
      simp only [writeAll, logged, h]
      rw [hm]
      simp

/-- The create calls of a list of pod creations for indices of a class. -/
theorem createdNames_pods (ns : String) (cls : config.PodClass) (l : List Nat) :
    createdNames (l.map (fun i => Call.PodsCreate ns (newPod cls i)))
      = l.map (fun i => (config.Pod, cls.Name ++ "-" ++ toString i)) := by
  induction l with
  | nil => rfl
  | cons i l ih =>
    simp only [List.map_cons, createdNames]
    rw [ih]
    rfl

/-- The create calls of a list of fake-node starts for indices of a class. -/
theorem createdNames_nodes (cls : config.NodeClass) (l : List Nat) :
    createdNames (l.map (fun i => Call.Start (newNode cls i)))
      = l.map (fun i => (config.Node, cls.Name ++ "-" ++ toString i)) := by
  induction l with
  | nil => rfl
  | cons i l ih =>
    simp only [List.map_cons, createdNames]
    rw [ih]
    rfl

/-- The create calls of a create step: a front part of the names
`"<class>-0", "<class>-1", ...` below its count, of the kind of the step. -/
theorem RunCreate_created (r : runner σ) (step : config.Step) (create : config.CreateStep)
    (w : Run σ) (hstep : step.Create = some create) :
    ∃ L, createdNames (RunCreate r step w).2.calls = createdNames w.calls ++ L ∧
      L <+: (List.range create.Count).map
        (fun i => (create.Object, create.Class ++ "-" ++ toString i)) := by
  have hnp : config.Pod ≠ config.Node := by decide
  by_cases hnode : create.Object = config.Node
  · cases hfind : r.nodeConfig.NodeClasses.find? (fun c => decide (c.Name = create.Class)) with
    | none =>
      refine ⟨[], ?_, List.nil_prefix⟩
      have h := createNodeIn_unknown r create w r.nodeConfig.NodeClasses (by
        intro cls hcls hname
        have := List.find?_eq_none.mp hfind cls hcls
        simp [hname] at this)
      simp [RunCreate, hstep, hnode, createNode, h]
    | some cls =>
      have hname : cls.Name = create.Class := find_name_eq (fun c => c.Name) cls _ _ hfind
      have hrun : RunCreate r step w
          = forCount (createNodeBody r create cls) create.Count 0 w := by
        simp only [RunCreate, hstep, hnode, if_true, createNode]
        exact createNodeIn_found r create w cls _ hfind
      obtain ⟨m, hm⟩ := writeAll_calls r.client.Start Call.Start
        (fun e => "could not create node of class: " ++ create.Class ++ ", err: " ++ e)
        ((List.range' 0 create.Count).map (newNode cls)) w
      refine ⟨((List.range create.Count).take m).map
        (fun i => (create.Object, create.Class ++ "-" ++ toString i)), ?_, ?_⟩
      · rw [hrun, createNode_loop_eq, hm, createdNames_append, ← List.map_take, List.map_map,
          ← List.range_eq_range']
        have := createdNames_nodes cls ((List.range create.Count).take m)
        simp only [Function.comp_def]
        rw [this, hname, hnode]
      · exact List.IsPrefix.map _ (List.take_prefix _ _)
  · by_cases hpod : create.Object = config.Pod
    · cases hfind : r.podConfig.PodClasses.find? (fun c => decide (c.Name = create.Class)) with
      | none =>
        refine ⟨[], ?_, List.nil_prefix⟩
        have h := createPodIn_unknown r create w r.podConfig.PodClasses (by
          intro cls hcls hname
          have := List.find?_eq_none.mp hfind cls hcls
          simp [hname] at this)
        simp [RunCreate, hstep, hpod, hnp, createPod, h]
      | some cls =>
        have hname : cls.Name = create.Class := find_name_eq (fun c => c.Name) cls _ _ hfind
        have hrun : RunCreate r step w = forCount (createPodBody r cls) create.Count 0 w := by
          simp only [RunCreate, hstep, hpod, hnp, if_true, if_false, createPod]
          exact createPodIn_found r create w cls _ hfind
        obtain ⟨m, hm⟩ := writeAll_calls (fun s pod => r.client.PodsCreate s r.namespace_ pod)
          (Call.PodsCreate r.namespace_) id ((List.range' 0 create.Count).map (newPod cls)) w
        refine ⟨((List.range create.Count).take m).map
          (fun i => (create.Object, create.Class ++ "-" ++ toString i)), ?_, ?_⟩
        · rw [hrun, createPod_loop_eq, hm, createdNames_append, ← List.map_take, List.map_map,
            ← List.range_eq_range']
          have := createdNames_pods r.namespace_ cls ((List.range create.Count).take m)
          simp only [Function.comp_def]
          rw [this, hname, hpod]
        · exact List.IsPrefix.map _ (List.take_prefix _ _)
    · exact ⟨[], by simp [RunCreate, hstep, hnode, hpod], List.nil_prefix⟩

/-- The create calls of one dispatched step: a front part of the names the
step can give. -/
theorem dispatch_created (r : runner σ) (step : config.Step) (w : Run σ) :
    ∃ L, createdNames (dispatch r step w).2.calls = createdNames w.calls ++ L ∧
      L <+: stepNames step := by
  unfold dispatch
  by_cases ha : step.Verb = config.Assert
  · rw [if_pos ha]
    exact ⟨[], by simp [RunAssert_quiet], List.nil_prefix⟩
  · rw [if_neg ha]
    by_cases hc : step.Verb = config.Create
    · rw [if_pos hc]
      cases hstep : step.Create with
      | none => exact ⟨[], by simp [RunCreate, hstep], List.nil_prefix⟩
      | some create =>
        obtain ⟨L, h1, h2⟩ := RunCreate_created r step create w hstep
        refine ⟨L, h1, ?_⟩
        simpa [stepNames, hc, hstep] using h2
    · rw [if_neg hc]
      by_cases hch : step.Verb = config.Change
      · rw [if_pos hch]
        exact ⟨[], by simp [RunChange_quiet], List.nil_prefix⟩
      · rw [if_neg hch]
        by_cases hd : step.Verb = config.Delete
        · rw [if_pos hd]
          exact ⟨[], by simp [RunDelete_quiet], List.nil_prefix⟩
        · rw [if_neg hd]
          exact ⟨[], by simp, List.nil_prefix⟩

/-- The names a step can give are pairwise distinct. -/
theorem stepNames_nodup (step : config.Step) : (stepNames step).Nodup := by
  unfold stepNames
  split
  · split
    · apply List.Nodup.map_on
      · intro i _ j _ h
        simp only [Prod.mk.injEq, true_and] at h
        exact resource_name_injective _ i j h
      · exact List.nodup_range _
    · exact List.nodup_nil
  · exact List.nodup_nil

/-- A name a step can give is the name of an index of the class of its create
payload, and the step is dispatched to `RunCreate`. -/
theorem mem_stepNames (step : config.Step) (x : config.Object × String)
    (h : x ∈ stepNames step) :
    ∃ (create : config.CreateStep) (j : Nat), step.Verb = config.Create ∧
      step.Create = some create ∧
      x = (create.Object, create.Class ++ "-" ++ toString j) := by
  unfold stepNames at h
  by_cases hv : step.Verb = config.Create
  · cases hc : step.Create with
    | none => simp [hv, hc] at h
    | some create =>
      simp only [hv, hc, if_true, List.mem_map, List.mem_range] at h
      obtain ⟨j, _, hj⟩ := h
      exact ⟨create, j, hv, rfl, hj.symm⟩
  · simp [hv] at h

/-- The keys of the later steps are among the keys of all steps. -/
theorem createKeys_tail (step : config.Step) (rest : List config.Step) :
    (createKeys rest).Sublist (createKeys (step :: rest)) := by
  simp only [createKeys]
  split
  · split
    · exact List.sublist_cons_self _ _
    · exact List.Sublist.refl _
  · exact List.Sublist.refl _

/-- The create calls of the steps the driver runs: pairwise distinct in kind
and name when no two create steps have the same kind and class, and each the
name of an index of the class of one of the create steps. -/
theorem runSteps_created (r : runner σ) (scenario : config.Scenario) :
    ∀ (steps : List config.Step) (i : Nat) (w : Run σ), (createKeys steps).Nodup →
      ∃ L, createdNames (runSteps r scenario steps i w).2.calls = createdNames w.calls ++ L ∧
        L.Nodup ∧
        ∀ x ∈ L, ∃ (c : String) (j : Nat),
          (x.1, c) ∈ createKeys steps ∧ x.2 = c ++ "-" ++ toString j := by
  intro steps
  induction steps with
  | nil => intro i w _; exact ⟨[], by simp [runSteps], List.nodup_nil, by simp⟩
  | cons step rest ih =>
    intro i w hkeys
    have hrest : (createKeys rest).Nodup := hkeys.sublist (createKeys_tail step rest)
    simp only [runSteps]
    cases scenario.RawSteps.get? i with
    | none => exact ⟨[], by simp, List.nodup_nil, by simp⟩
    | some raw =>
      obtain ⟨L1, h1, hp⟩ := dispatch_created r step w
      have hn1 : L1.Nodup := (stepNames_nodup step).sublist hp.sublist
      have hf1 : ∀ x ∈ L1, ∃ (create : config.CreateStep) (j : Nat),
          step.Verb = config.Create ∧ step.Create = some create ∧
          x = (create.Object, create.Class ++ "-" ++ toString j) :=
        fun x hx => mem_stepNames step x (hp.subset hx)
      have hform1 : ∀ x ∈ L1, ∃ (c : String) (j : Nat), (x.1, c) ∈ createKeys (step :: rest) ∧
          x.2 = c ++ "-" ++ toString j := by
        intro x hx
        obtain ⟨create, j, hv, hc, hxe⟩ := hf1 x hx
        refine ⟨create.Class, j, ?_, by rw [hxe]⟩
        rw [hxe]
        simp [createKeys, hv, hc]
      rcases hd : dispatch r step w with ⟨o, w1⟩
      rw [hd] at h1
      simp only at h1
      cases o with
      | err e => exact ⟨L1, h1, hn1, hform1⟩
      | fault p => exact ⟨L1, h1, hn1, hform1⟩
      | nil =>
        obtain ⟨L2, h2, hn2, hf2⟩ := ih (i + 1) w1 hrest
        refine ⟨L1 ++ L2, ?_, ?_, ?_⟩
        · simp only
          rw [h2, h1, List.append_assoc]
        · rw [List.nodup_append]
          refine ⟨hn1, hn2, ?_⟩
          intro x hx1 hx2
          obtain ⟨create, j, hv, hc, hxe⟩ := hf1 x hx1
          obtain ⟨c, j2, hmem, hname⟩ := hf2 x hx2
          rw [hxe] at hmem hname
          simp only at hmem hname
          have hcls : create.Class = c := resource_name_class _ _ _ _ hname
          rw [← hcls] at hmem
          have hk : createKeys (step :: rest)
              = (create.Object, create.Class) :: createKeys rest := by
            simp [createKeys, hv, hc]
          rw [hk] at hkeys
          exact (List.nodup_cons.mp hkeys).1 hmem
        · intro x hx
          rcases List.mem_append.mp hx with h | h
          · exact hform1 x h
          · obtain ⟨c, j, hmem, hname⟩ := hf2 x h
            exact ⟨c, j, (createKeys_tail step rest).subset hmem, hname⟩

/-- C10 (as amended): for every scenario in which no two Create steps of the
same object kind name the same class, no two create calls of the same object
kind issued during one `RunScenario` carry the same resource name, whatever
the control plane answers and wherever the run stops. -/
theorem RunScenario_names_distinct (r : runner σ) (scenario : config.Scenario) (s : σ)
    (hkeys : (createKeys scenario.Steps).Nodup) :
    (createdNames (RunScenario r scenario { state := s, calls := [] }).2.calls).Nodup := by
  obtain ⟨L, h, hn, _⟩ := runSteps_created r scenario scenario.Steps 0
    { state := s, calls := [] } hkeys
  unfold RunScenario
  rw [h]
  simpa [createdNames] using hn

/-- C10, a concrete run: two worker pods, then one worker node; the node and
the first pod share the text of their name and differ in kind. -/
theorem RunScenario_names_distinct_witness :
    (createdNames (RunScenario (fixture.runnerOf [] [] [])
        { Name := "two kinds",
          Steps := [fixture.createStep { Count := 2, Class := "worker", Object := config.Pod },
                    fixture.createStep { Count := 1, Class := "worker", Object := config.Node }],
          RawSteps := ["create 2 worker pods", "create 1 worker node"] }
        { state := { lists := 0, writes := 0 }, calls := [] }).2.calls).Nodup :=
  RunScenario_names_distinct (fixture.runnerOf [] [] [])
    { Name := "two kinds",
      Steps := [fixture.createStep { Count := 2, Class := "worker", Object := config.Pod },
                fixture.createStep { Count := 1, Class := "worker", Object := config.Node }],
      RawSteps := ["create 2 worker pods", "create 1 worker node"] }
    { lists := 0, writes := 0 } (by decide)

/-- C10 as stated fails on a scenario with two Create steps for the same
class: each step numbers its pods from 0, so both issue a create call named
"worker-0" (here the control plane rejects the second one, and the call has
been issued all the same). -/
theorem RunScenario_names_counterexample :
    createdNames (RunScenario
        (fixture.runnerOf [] [] [none, some "pods \"worker-0\" already exists"])
        { Name := "twice",
          Steps := [fixture.createStep { Count := 1, Class := "worker", Object := config.Pod },
                    fixture.createStep { Count := 1, Class := "worker", Object := config.Pod }],
          RawSteps := ["create 1 worker pod", "create 1 worker pod"] }
        fixture.start).2.calls
      = [(config.Pod, "worker-0"), (config.Pod, "worker-0")] ∧
    ¬ (createdNames (RunScenario
        (fixture.runnerOf [] [] [none, some "pods \"worker-0\" already exists"])
        { Name := "twice",
          Steps := [fixture.createStep { Count := 1, Class := "worker", Object := config.Pod },
                    fixture.createStep { Count := 1, Class := "worker", Object := config.Pod }],
          RawSteps := ["create 1 worker pod", "create 1 worker pod"] }
        fixture.start).2.calls).Nodup := by
  decide

/-! ## C11: the batch of deletions -/

/-- The deletion loop of `deleteNode` over a list that is long enough is the
batch of node deletions for the names of the first `count` nodes. -/
theorem deleteNode_loop_eq (r : runner σ) (nodes : corev1.NodeList) (count : Nat) (w : Run σ)
    (hn : count ≤ nodes.Items.len) :
    forCount (deleteNodeBody r nodes) count 0 w
      = writeAll (logged r.client.NodesDelete Call.NodesDelete) id
          (firstNodeNames nodes count) w := by
  rw [forCount_index_eq_writeAll (deleteNodeBody r nodes)
    (fun (item : corev1.Node) w => nodesDelete r item.ObjectMeta.Name w) id nodes.Items.toList]
  · rw [List.drop_zero, firstNodeNames, ← writeAll_map]
    rfl
  · intro i w
    simp only [deleteNodeBody, Slice_index_eq]
    cases nodes.Items.toList.get? i with
    | none => rfl
    | some item =>
      simp only
      rcases nodesDelete r item.ObjectMeta.Name w with ⟨a, w1⟩
      cases a <;> rfl
  · rw [← Slice_len_eq]; omega

/-- The deletion loop of `deletePod` over a list that is long enough is the
batch of pod deletions for the names of the first `count` pods. -/
theorem deletePod_loop_eq (r : runner σ) (pods : corev1.PodList) (count : Nat) (w : Run σ)
    (hn : count ≤ pods.Items.len) :
    forCount (deletePodBody r pods) count 0 w
      = writeAll (logged (fun s name => r.client.PodsDelete s r.namespace_ name)
          (Call.PodsDelete r.namespace_)) id (firstPodNames pods count) w := by
  rw [forCount_index_eq_writeAll (deletePodBody r pods)
    (fun (item : corev1.Pod) w => podsDelete r item.ObjectMeta.Name w) id pods.Items.toList]
  · rw [List.drop_zero, firstPodNames, ← writeAll_map]
    rfl
  · intro i w
    simp only [deletePodBody, Slice_index_eq]
    cases pods.Items.toList.get? i with
    | none => rfl
    | some item =>
      simp only
      rcases podsDelete r item.ObjectMeta.Name w with ⟨a, w1⟩
      cases a <;> rfl
  · rw [← Slice_len_eq]; omega

/-- A delete step on Node whose class query is answered with a list: the
count check, then the batch of deletions, both after the one list query. -/
theorem RunDelete_node_eq (r : runner σ) (step : config.Step) (delete : config.DeleteStep)
    (w : Run σ) (nodes : corev1.NodeList) (hstep : step.Delete = some delete)
    (hobj : delete.Object = config.Node)
    (hq : (r.client.NodesList w.state (classOptions delete.Class)).1 = Except.ok nodes) :
    RunDelete r step w
      = if nodes.Items.len < delete.Count then
          (Outcome.err ("found " ++ toString nodes.Items.len ++ " nodes of class: "
            ++ delete.Class ++ ", but expected: " ++ toString delete.Count),
           { state := (r.client.NodesList w.state (classOptions delete.Class)).2,
             calls := w.calls ++ [Call.NodesList (classOptions delete.Class)] })
        else
          writeAll (logged r.client.NodesDelete Call.NodesDelete) id
            (firstNodeNames nodes delete.Count)
            { state := (r.client.NodesList w.state (classOptions delete.Class)).2,
              calls := w.calls ++ [Call.NodesList (classOptions delete.Class)] } := by
  simp only [classOptions] at hq ⊢
  simp only [RunDelete, hstep, hobj, if_true, deleteNode, listNodes]
  rcases hq2 : r.client.NodesList w.state
      { LabelSelector := "np.class=" ++ delete.Class, FieldSelector := "" } with ⟨a, s1⟩
  rw [hq2] at hq
  simp only at hq
  subst hq
  by_cases hlt : nodes.Items.len < delete.Count
  · simp only [hlt, if_true]
  · simp only [hlt, if_false]
    exact deleteNode_loop_eq r nodes _ _ (by omega)

/-- A delete step on Pod whose class query is answered with a list: the count
check, then the batch of deletions, both after the one list query. -/
theorem RunDelete_pod_eq (r : runner σ) (step : config.Step) (delete : config.DeleteStep)
    (w : Run σ) (pods : corev1.PodList) (hstep : step.Delete = some delete)
    (hobj : delete.Object = config.Pod)
    (hq : (r.client.PodsList w.state r.namespace_ (classOptions delete.Class)).1
      = Except.ok pods) :
    RunDelete r step w
      = if pods.Items.len < delete.Count then
          (Outcome.err ("found " ++ toString pods.Items.len ++ " pods of class: "
            ++ delete.Class ++ ", but expected: " ++ toString delete.Count),
           { state := (r.client.PodsList w.state r.namespace_ (classOptions delete.Class)).2,
             calls := w.calls ++ [Call.PodsList r.namespace_ (classOptions delete.Class)] })
        else
          writeAll (logged (fun s name => r.client.PodsDelete s r.namespace_ name)
              (Call.PodsDelete r.namespace_)) id (firstPodNames pods delete.Count)
            { state := (r.client.PodsList w.state r.namespace_ (classOptions delete.Class)).2,
              calls := w.calls ++ [Call.PodsList r.namespace_ (classOptions delete.Class)] } := by
  have hnp : config.Pod ≠ config.Node := by decide
  simp only [classOptions] at hq ⊢
  simp only [RunDelete, hstep, hobj, hnp, if_true, if_false, deletePod, listPods]
  rcases hq2 : r.client.PodsList w.state r.namespace_
      { LabelSelector := "np.class=" ++ delete.Class, FieldSelector := "" } with ⟨a, s1⟩
  rw [hq2] at hq
  simp only at hq
  subst hq
  by_cases hlt : pods.Items.len < delete.Count
  · simp only [hlt, if_true]
  · simp only [hlt, if_false]
    exact deletePod_loop_eq r pods _ _ (by omega)

/-- A batch of writes that reports errors unchanged, in full: when every write
is accepted it returns nil after exactly the writes of the list, and when the
write for position `j` is the first to be rejected it returns that error after
exactly the writes for positions `0..j`. -/
theorem writeAll_spec {α : Type} (op : σ → α → Option Error × σ) (mk : α → Call)
    (xs : List α) (w : Run σ) :
    ((∀ j, j < xs.length → answerAt op xs w.state j = some none) →
      (writeAll (logged op mk) id xs w).1 = Outcome.nil ∧
      (writeAll (logged op mk) id xs w).2.calls = w.calls ++ xs.map mk) ∧
    (∀ j e, (∀ i, i < j → answerAt op xs w.state i = some none) →
      answerAt op xs w.state j = some (some e) →
      (writeAll (logged op mk) id xs w).1 = Outcome.err e ∧
      (writeAll (logged op mk) id xs w).2.calls = w.calls ++ (xs.take (j + 1)).map mk) := by
  constructor
  · intro hall
    rw [writeAll_accepted op mk id xs w hall]
    exact ⟨rfl, rfl⟩
  · intro j e hb hj
    exact writeAll_rejected op mk id xs w j e hb hj

/-- The first `count` names of a list that is long enough are `count` names. -/
theorem firstNodeNames_length (nodes : corev1.NodeList) (count : Nat)
    (h : count ≤ nodes.Items.len) : (firstNodeNames nodes count).length = count := by
  rw [firstNodeNames, List.length_map, List.length_take, ← Slice_len_eq]; omega

/-- The first `count` names of a list that is long enough are `count` names. -/
theorem firstPodNames_length (pods : corev1.PodList) (count : Nat)
    (h : count ≤ pods.Items.len) : (firstPodNames pods count).length = count := by
  rw [firstPodNames, List.length_map, List.length_take, ← Slice_len_eq]; omega

/-- C11: for every Delete step on Node or Pod whose class query succeeds and
returns `n` resources: if `n < count`, `RunDelete` fails with the
InsufficientCount error and its only call is the list query (no delete call);
otherwise it issues, after the list query, delete calls for the names of the
resources at positions `0, ..., count-1` of the returned list, in that order
and for no other resource: when all are accepted it returns success and the
log holds exactly those `count` calls, and when the call for position `j` is
the first to fail it returns that failure and the log holds exactly the calls
for positions `0..j`, so no delete call is issued after the failing one. -/
theorem RunDelete_deletes_in_order (r : runner σ) (step : config.Step)
    (delete : config.DeleteStep) (w : Run σ) (hstep : step.Delete = some delete) :
    (delete.Object = config.Node → ∀ nodes : corev1.NodeList,
      (r.client.NodesList w.state (classOptions delete.Class)).1 = Except.ok nodes →
      (nodes.Items.len < delete.Count →
        (RunDelete r step w).1
          = Outcome.err ("found " ++ toString nodes.Items.len ++ " nodes of class: "
              ++ delete.Class ++ ", but expected: " ++ toString delete.Count) ∧
        (RunDelete r step w).2.calls
          = w.calls ++ [Call.NodesList (classOptions delete.Class)]) ∧
      (delete.Count ≤ nodes.Items.len →
        ((∀ j, j < delete.Count →
            answerAt r.client.NodesDelete (firstNodeNames nodes delete.Count)
              (r.client.NodesList w.state (classOptions delete.Class)).2 j = some none) →
          (RunDelete r step w).1 = Outcome.nil ∧
          (RunDelete r step w).2.calls
            = w.calls ++ [Call.NodesList (classOptions delete.Class)]
              ++ (firstNodeNames nodes delete.Count).map Call.NodesDelete) ∧
        (∀ j e,
          (∀ i, i < j →
            answerAt r.client.NodesDelete (firstNodeNames nodes delete.Count)
              (r.client.NodesList w.state (classOptions delete.Class)).2 i = some none) →
          answerAt r.client.NodesDelete (firstNodeNames nodes delete.Count)
            (r.client.NodesList w.state (classOptions delete.Class)).2 j = some (some e) →
          (RunDelete r step w).1 = Outcome.err e ∧
          (RunDelete r step w).2.calls
            = w.calls ++ [Call.NodesList (classOptions delete.Class)]
              ++ ((firstNodeNames nodes delete.Count).take (j + 1)).map Call.NodesDelete))) ∧
    (delete.Object = config.Pod → ∀ pods : corev1.PodList,
      (r.client.PodsList w.state r.namespace_ (classOptions delete.Class)).1 = Except.ok pods →
      (pods.Items.len < delete.Count →
        (RunDelete r step w).1
          = Outcome.err ("found " ++ toString pods.Items.len ++ " pods of class: "
              ++ delete.Class ++ ", but expected: " ++ toString delete.Count) ∧
        (RunDelete r step w).2.calls
          = w.calls ++ [Call.PodsList r.namespace_ (classOptions delete.Class)]) ∧
      (delete.Count ≤ pods.Items.len →
        ((∀ j, j < delete.Count →
            answerAt (fun s name => r.client.PodsDelete s r.namespace_ name)
              (firstPodNames pods delete.Count)
              (r.client.PodsList w.state r.namespace_ (classOptions delete.Class)).2 j
              = some none) →
          (RunDelete r step w).1 = Outcome.nil ∧
          (RunDelete r step w).2.calls
            = w.calls ++ [Call.PodsList r.namespace_ (classOptions delete.Class)]
              ++ (firstPodNames pods delete.Count).map (Call.PodsDelete r.namespace_)) ∧
        (∀ j e,
          (∀ i, i < j →
            answerAt (fun s name => r.client.PodsDelete s r.namespace_ name)
              (firstPodNames pods delete.Count)
              (r.client.PodsList w.state r.namespace_ (classOptions delete.Class)).2 i
              = some none) →
          answerAt (fun s name => r.client.PodsDelete s r.namespace_ name)
            (firstPodNames pods delete.Count)
            (r.client.PodsList w.state r.namespace_ (classOptions delete.Class)).2 j
            = some (some e) →
          (RunDelete r step w).1 = Outcome.err e ∧
          (RunDelete r step w).2.calls
            = w.calls ++ [Call.PodsList r.namespace_ (classOptions delete.Class)]
              ++ ((firstPodNames pods delete.Count).take (j + 1)).map
                  (Call.PodsDelete r.namespace_)))) := by
  constructor
  · intro hobj nodes hq
    rw [RunDelete_node_eq r step delete w nodes hstep hobj hq]
    constructor
    · intro hlt
      rw [if_pos hlt]
      exact ⟨rfl, rfl⟩
    · intro hle
      rw [if_neg (by omega)]
      have hspec := writeAll_spec r.client.NodesDelete Call.NodesDelete
        (firstNodeNames nodes delete.Count)
        { state := (r.client.NodesList w.state (classOptions delete.Class)).2,
          calls := w.calls ++ [Call.NodesList (classOptions delete.Class)] }
      rw [firstNodeNames_length nodes _ hle] at hspec
      exact hspec
  · intro hobj pods hq
    rw [RunDelete_pod_eq r step delete w pods hstep hobj hq]
    constructor
    · intro hlt
      rw [if_pos hlt]
      exact ⟨rfl, rfl⟩
    · intro hle
      rw [if_neg (by omega)]
      have hspec := writeAll_spec (fun s name => r.client.PodsDelete s r.namespace_ name)
        (Call.PodsDelete r.namespace_) (firstPodNames pods delete.Count)
        { state := (r.client.PodsList w.state r.namespace_ (classOptions delete.Class)).2,
          calls := w.calls ++ [Call.PodsList r.namespace_ (classOptions delete.Class)] }
      rw [firstPodNames_length pods _ hle] at hspec
      exact hspec

/-- C11, a concrete run: two of three listed worker nodes are to be deleted
and the control plane rejects the second deletion.  The step returns that
error after the list query and the deletions of "worker-0" and "worker-1"; the
third node is not touched. -/
theorem RunDelete_deletes_in_order_witness :
    (RunDelete
        (fixture.runnerOf
          [Except.ok { Items := Slice.mk [fixture.workerNode "worker-0",
              fixture.workerNode "worker-1", fixture.workerNode "worker-2"] }]
          [] [none, some "forbidden"])
        (fixture.deleteStep { Count := 2, Class := "worker", Object := config.Node })
        fixture.start).1 = Outcome.err "forbidden" ∧
    (RunDelete
        (fixture.runnerOf
          [Except.ok { Items := Slice.mk [fixture.workerNode "worker-0",
              fixture.workerNode "worker-1", fixture.workerNode "worker-2"] }]
          [] [none, some "forbidden"])
        (fixture.deleteStep { Count := 2, Class := "worker", Object := config.Node })
        fixture.start).2.calls
      = [Call.NodesList { LabelSelector := "np.class=worker", FieldSelector := "" },
         Call.NodesDelete "worker-0", Call.NodesDelete "worker-1"] := by
  have h := (((RunDelete_deletes_in_order
    (fixture.runnerOf
      [Except.ok { Items := Slice.mk [fixture.workerNode "worker-0",
          fixture.workerNode "worker-1", fixture.workerNode "worker-2"] }]
      [] [none, some "forbidden"])
    (fixture.deleteStep { Count := 2, Class := "worker", Object := config.Node })
    { Count := 2, Class := "worker", Object := config.Node } fixture.start rfl).1 rfl
    { Items := Slice.mk [fixture.workerNode "worker-0", fixture.workerNode "worker-1",
        fixture.workerNode "worker-2"] } rfl).2 (by decide)).2 1 "forbidden"
    (by
      intro i hi
      have h0 : i = 0 := by omega
      subst h0
      decide)
    (by decide)
  exact ⟨h.1, h.2.trans (by decide)⟩

/-! ## C12: the driver stops at the first failing step -/

/-- The outcome of the first step of a list. -/
theorem outcomeAt_cons_zero (r : runner σ) (step : config.Step) (rest : List config.Step)
    (w : Run σ) : outcomeAt r (step :: rest) w 0 = some (dispatch r step w).1 := by
  simp [outcomeAt, worldAfter]

/-- The outcome of a later step of a list. -/
theorem outcomeAt_cons_succ (r : runner σ) (step : config.Step) (rest : List config.Step)
    (w : Run σ) (j : Nat) :
    outcomeAt r (step :: rest) w (j + 1) = outcomeAt r rest (dispatch r step w).2 j := by
  simp [outcomeAt, worldAfter]

/-- The loop of the driver over steps that all have a raw text: it returns nil
exactly when every step returns nil, having run them all, and when the step at
position `j` is the first not to return nil it returns the outcome of that
step in the run that step left, having run the steps `0..j` and no other. -/
theorem runSteps_spec (r : runner σ) (scenario : config.Scenario) :
    ∀ (steps : List config.Step) (i : Nat) (w : Run σ),
      i + steps.length ≤ scenario.RawSteps.length →
      ((runSteps r scenario steps i w).1 = Outcome.nil ↔
        ∀ j, j < steps.length → outcomeAt r steps w j = some Outcome.nil) ∧
      ((∀ j, j < steps.length → outcomeAt r steps w j = some Outcome.nil) →
        runSteps r scenario steps i w = (Outcome.nil, worldAfter r steps w)) ∧
      (∀ j o, (∀ k, k < j → outcomeAt r steps w k = some Outcome.nil) →
        outcomeAt r steps w j = some o → o ≠ Outcome.nil →
        runSteps r scenario steps i w = (o, worldAfter r (steps.take (j + 1)) w)) := by
  intro steps
  induction steps with
  | nil =>
    intro i w _
    refine ⟨⟨fun _ j hj => absurd hj (by simp), fun _ => rfl⟩, fun _ => rfl, ?_⟩
    intro j o _ h _
    simp [outcomeAt] at h
  | cons step rest ih =>
    intro i w hlen
    simp only [List.length_cons] at hlen
    have hi : i < scenario.RawSteps.length := by omega
    have hraw : scenario.RawSteps.get? i = some (scenario.RawSteps.get ⟨i, hi⟩) :=
      List.get?_eq_get hi
    have h0 := outcomeAt_cons_zero r step rest w
    rcases hd : dispatch r step w with ⟨o, w1⟩
    rw [hd] at h0
    simp only at h0
    by_cases ho : o = Outcome.nil
    · subst ho
      have hrun : runSteps r scenario (step :: rest) i w = runSteps r scenario rest (i + 1) w1 := by
        simp only [runSteps, hraw, hd]
      obtain ⟨hA, hB, hC⟩ := ih (i + 1) w1 (by omega)
      have hshift : ∀ j, outcomeAt r (step :: rest) w (j + 1) = outcomeAt r rest w1 j := by
        intro j
        rw [outcomeAt_cons_succ, hd]
      have hall : (∀ j, j < (step :: rest).length →
            outcomeAt r (step :: rest) w j = some Outcome.nil) ↔
          ∀ j, j < rest.length → outcomeAt r rest w1 j = some Outcome.nil := by
        constructor
        · intro h j hj
          rw [← hshift]
          exact h (j + 1) (by simpa using hj)
        · intro h j hj
          cases j with
          | zero => exact h0
          | succ j =>
            rw [hshift]
            exact h j (by simpa using hj)
      have hw : worldAfter r (step :: rest) w = worldAfter r rest w1 := by
        simp [worldAfter, hd]
      refine ⟨?_, ?_, ?_⟩
      · rw [hrun, hA, hall]
      · intro h
        rw [hrun, hw]
        exact hB (hall.mp h)
      · intro j o hb hj hne
        cases j with
        | zero =>
          rw [h0] at hj
          exact absurd (Option.some.inj hj).symm hne
        | succ j =>
          rw [hshift] at hj
          rw [hrun, hC j o (fun k hk => by
            rw [← hshift]
            exact hb (k + 1) (by omega)) hj hne]
          simp [worldAfter, hd]
    · have hrun : runSteps r scenario (step :: rest) i w = (o, w1) := by
        simp only [runSteps, hraw, hd]
      have hnot : ¬ ∀ j, j < (step :: rest).length →
          outcomeAt r (step :: rest) w j = some Outcome.nil := by
        intro h
        have := h 0 (by simp)
        rw [h0] at this
        exact ho (Option.some.inj this)
      refine ⟨?_, ?_, ?_⟩
      · rw [hrun]
        exact ⟨fun h => absurd h ho, fun h => absurd h hnot⟩
      · intro h
        exact absurd h hnot
      · intro j o2 hb hj _
        cases j with
        | zero =>
          rw [h0] at hj
          rw [hrun, ← Option.some.inj hj]
          simp [worldAfter, hd]
        | succ j =>
          have := hb 0 (Nat.succ_pos j)
          rw [h0] at this
          exact absurd (Option.some.inj this) ho

/-- C12 (as amended): for every scenario whose RawSteps list is at least as
long as its Steps list, `RunScenario` executes the steps in sequence order,
each by the executor of its verb, and advances only when that executor
succeeds: it returns success if and only if every step succeeds, having run
them all; and when the step at position `j` is the first to fail it returns
exactly the outcome of that step, unchanged, in the run that step left: the
steps `0..j` have been executed and no later step has issued any call. -/
theorem RunScenario_first_failure (r : runner σ) (scenario : config.Scenario) (w : Run σ)
    (hlen : scenario.Steps.length ≤ scenario.RawSteps.length) :
    ((RunScenario r scenario w).1 = Outcome.nil ↔
      ∀ j, j < scenario.Steps.length → outcomeAt r scenario.Steps w j = some Outcome.nil) ∧
    ((∀ j, j < scenario.Steps.length → outcomeAt r scenario.Steps w j = some Outcome.nil) →
      RunScenario r scenario w = (Outcome.nil, worldAfter r scenario.Steps w)) ∧
    (∀ j o, (∀ k, k < j → outcomeAt r scenario.Steps w k = some Outcome.nil) →
      outcomeAt r scenario.Steps w j = some o → o ≠ Outcome.nil →
      RunScenario r scenario w = (o, worldAfter r (scenario.Steps.take (j + 1)) w)) ∧
    (∀ (step : config.Step) (w1 : Run σ),
      (step.Verb = config.Assert → dispatch r step w1 = RunAssert r step w1) ∧
      (step.Verb = config.Create → dispatch r step w1 = RunCreate r step w1) ∧
      (step.Verb = config.Change → dispatch r step w1 = RunChange r step w1) ∧
      (step.Verb = config.Delete → dispatch r step w1 = RunDelete r step w1)) := by
  obtain ⟨hA, hB, hC⟩ := runSteps_spec r scenario scenario.Steps 0 w (by omega)
  refine ⟨hA, hB, hC, ?_⟩
  intro step w1
  refine ⟨?_, ?_, ?_, ?_⟩
  · intro h
    simp [dispatch, h]
  · intro h
    have h1 : config.Create ≠ config.Assert := by decide
    simp [dispatch, h, h1]
  · intro h
    have h1 : config.Change ≠ config.Assert := by decide
    have h2 : config.Change ≠ config.Create := by decide
    simp [dispatch, h, h1, h2]
  · intro h
    have h1 : config.Delete ≠ config.Assert := by decide
    have h2 : config.Delete ≠ config.Create := by decide
    have h3 : config.Delete ≠ config.Change := by decide
    simp [dispatch, h, h1, h2, h3]

/-- C12, a concrete run: the second of three steps asks for a class that is not
in the catalog; the scenario returns its error after the one pod of the first
step has been created, and the third step creates nothing. -/
theorem RunScenario_first_failure_witness :
    RunScenario (fixture.runnerOf [] [] [])
        { Name := "stops",
          Steps := [fixture.createStep { Count := 1, Class := "worker", Object := config.Pod },
                    fixture.createStep { Count := 1, Class := "gpu", Object := config.Pod },
                    fixture.createStep { Count := 1, Class := "worker", Object := config.Node }],
          RawSteps := ["create 1 worker pod", "create 1 gpu pod", "create 1 worker node"] }
        fixture.start
      = (Outcome.err "class: gpu not found in the pod config",
         worldAfter (fixture.runnerOf [] [] [])
          [fixture.createStep { Count := 1, Class := "worker", Object := config.Pod },
           fixture.createStep { Count := 1, Class := "gpu", Object := config.Pod }]
          fixture.start) :=
  (RunScenario_first_failure (fixture.runnerOf [] [] [])
    { Name := "stops",
      Steps := [fixture.createStep { Count := 1, Class := "worker", Object := config.Pod },
                fixture.createStep { Count := 1, Class := "gpu", Object := config.Pod },
                fixture.createStep { Count := 1, Class := "worker", Object := config.Node }],
      RawSteps := ["create 1 worker pod", "create 1 gpu pod", "create 1 worker node"] }
    fixture.start (by decide)).2.2.1 1 (Outcome.err "class: gpu not found in the pod config")
    (by
      intro k hk
      have h0 : k = 0 := by omega
      subst h0
      decide)
    (by decide) (by decide)

/-- C12 as stated fails on a scenario whose RawSteps list is shorter than its
Steps list: the one step of the scenario succeeds when it is dispatched, and
`RunScenario` does not return success, it faults on the lookup of the raw
text before the step is run. -/
theorem RunScenario_short_raw_counterexample :
    outcomeAt (fixture.runnerOf [] [] [])
        [fixture.createStep { Count := 1, Class := "worker", Object := config.Pod }]
        fixture.start 0 = some Outcome.nil ∧
    (RunScenario (fixture.runnerOf [] [] [])
        { Name := "no raw text",
          Steps := [fixture.createStep { Count := 1, Class := "worker", Object := config.Pod }],
          RawSteps := [] }
        fixture.start).1 = Outcome.fault "index out of range" ∧
    (RunScenario (fixture.runnerOf [] [] [])
        { Name := "no raw text",
          Steps := [fixture.createStep { Count := 1, Class := "worker", Object := config.Pod }],
          RawSteps := [] }
        fixture.start).2.calls = [] := by
  decide

/-! ## C13: the error the driver returns -/

/-- A text in front of a message changes the message unless it is empty. -/
theorem prefixed_ne (p m : String) (hp : p ≠ "") : p ++ m ≠ m := by
  intro h
  apply hp
  have h1 := congrArg String.data h
  simp only [String.data_append] at h1
  exact String.ext (List.append_left_eq_self.mp h1)

/-- C13 (as amended): for every scenario whose RawSteps list is at least as
long as its Steps list and whose step at index `i` is the first to fail, with
the error `e`, the error `RunScenario` returns is `e` itself: the message of
the failing step with nothing in front of it, neither the index nor the
verb. -/
theorem RunScenario_error_verbatim (r : runner σ) (scenario : config.Scenario) (w : Run σ)
    (i : Nat) (e : Error) (hlen : scenario.Steps.length ≤ scenario.RawSteps.length)
    (hbefore : ∀ k, k < i → outcomeAt r scenario.Steps w k = some Outcome.nil)
    (hat : outcomeAt r scenario.Steps w i = some (Outcome.err e)) :
    (RunScenario r scenario w).1 = Outcome.err e ∧
    ∀ p : String, p ≠ "" → (RunScenario r scenario w).1 ≠ Outcome.err (p ++ e) := by
  have h := (runSteps_spec r scenario scenario.Steps 0 w (by omega)).2.2 i (Outcome.err e)
    hbefore hat (by simp)
  have h1 : (RunScenario r scenario w).1 = Outcome.err e := by
    unfold RunScenario
    rw [h]
  refine ⟨h1, ?_⟩
  intro p hp hcontra
  rw [h1] at hcontra
  exact prefixed_ne p e hp (Outcome.err.inj hcontra).symm

/-- C13, a concrete run: the step at index 1 asks for a class that is not in
the catalog, and the scenario returns the message of `createPod` as it is. -/
theorem RunScenario_error_verbatim_witness :
    (RunScenario (fixture.runnerOf [] [] [])
        { Name := "verbatim",
          Steps := [fixture.createStep { Count := 1, Class := "worker", Object := config.Pod },
                    fixture.createStep { Count := 1, Class := "gpu", Object := config.Pod }],
          RawSteps := ["create 1 worker pod", "create 1 gpu pod"] }
        fixture.start).1 = Outcome.err "class: gpu not found in the pod config" :=
  (RunScenario_error_verbatim (fixture.runnerOf [] [] [])
    { Name := "verbatim",
      Steps := [fixture.createStep { Count := 1, Class := "worker", Object := config.Pod },
                fixture.createStep { Count := 1, Class := "gpu", Object := config.Pod }],
      RawSteps := ["create 1 worker pod", "create 1 gpu pod"] }
    fixture.start 1 "class: gpu not found in the pod config" (by decide)
    (by
      intro k hk
      have h0 : k = 0 := by omega
      subst h0
      decide)
    (by decide)).1

/-- C13 as stated fails on a scenario whose step at index 1, a create step,
fails: the error returned is the message of that step and nothing else, the
same as `RunCreate` returns for the step on its own: no text, be it an index
or a verb, stands in front of it. -/
theorem RunScenario_no_prefix_counterexample :
    (RunScenario (fixture.runnerOf [] [] [])
        { Name := "verbatim",
          Steps := [fixture.createStep { Count := 1, Class := "worker", Object := config.Pod },
                    fixture.createStep { Count := 1, Class := "gpu", Object := config.Pod }],
          RawSteps := ["create 1 worker pod", "create 1 gpu pod"] }
        fixture.start).1 = Outcome.err "class: gpu not found in the pod config" ∧
    (RunCreate (fixture.runnerOf [] [] [])
        (fixture.createStep { Count := 1, Class := "gpu", Object := config.Pod })
        fixture.start).1 = Outcome.err "class: gpu not found in the pod config" ∧
    ∀ p : String, p ≠ "" →
      (RunScenario (fixture.runnerOf [] [] [])
        { Name := "verbatim",
          Steps := [fixture.createStep { Count := 1, Class := "worker", Object := config.Pod },
                    fixture.createStep { Count := 1, Class := "gpu", Object := config.Pod }],
          RawSteps := ["create 1 worker pod", "create 1 gpu pod"] }
        fixture.start).1 ≠ Outcome.err (p ++ "class: gpu not found in the pod config") := by
  have h1 : (RunScenario (fixture.runnerOf [] [] [])
        { Name := "verbatim",
          Steps := [fixture.createStep { Count := 1, Class := "worker", Object := config.Pod },
                    fixture.createStep { Count := 1, Class := "gpu", Object := config.Pod }],
          RawSteps := ["create 1 worker pod", "create 1 gpu pod"] }
        fixture.start).1 = Outcome.err "class: gpu not found in the pod config" := by
    decide
  refine ⟨h1, by decide, ?_⟩
  intro p hp hcontra
  rw [h1] at hcontra
  exact prefixed_ne p _ hp (Outcome.err.inj hcontra).symm

/-! ## C14: a delete whose class query fails or finds nothing -/

/-- A delete step on Node whose class query fails. -/
theorem RunDelete_node_query_error (r : runner σ) (step : config.Step)
    (delete : config.DeleteStep) (w : Run σ) (e : Error) (hstep : step.Delete = some delete)
    (hobj : delete.Object = config.Node)
    (hq : (r.client.NodesList w.state (classOptions delete.Class)).1 = Except.error e) :
    RunDelete r step w
      = (Outcome.err ("no nodes found for class: " ++ delete.Class),
         { state := (r.client.NodesList w.state (classOptions delete.Class)).2,
           calls := w.calls ++ [Call.NodesList (classOptions delete.Class)] }) := by
  simp only [classOptions] at hq ⊢
  simp only [RunDelete, hstep, hobj, if_true, deleteNode, listNodes]
  rcases hq2 : r.client.NodesList w.state
      { LabelSelector := "np.class=" ++ delete.Class, FieldSelector := "" } with ⟨a, s1⟩
  rw [hq2] at hq
  simp only at hq
  subst hq
  rfl

/-- A delete step on Pod whose class query fails. -/
theorem RunDelete_pod_query_error (r : runner σ) (step : config.Step)
    (delete : config.DeleteStep) (w : Run σ) (e : Error) (hstep : step.Delete = some delete)
    (hobj : delete.Object = config.Pod)
    (hq : (r.client.PodsList w.state r.namespace_ (classOptions delete.Class)).1
      = Except.error e) :
    RunDelete r step w
      = (Outcome.err ("no pods found for class: " ++ delete.Class),
         { state := (r.client.PodsList w.state r.namespace_ (classOptions delete.Class)).2,
           calls := w.calls ++ [Call.PodsList r.namespace_ (classOptions delete.Class)] }) := by
  have hnp : config.Pod ≠ config.Node := by decide
  simp only [classOptions] at hq ⊢
  simp only [RunDelete, hstep, hobj, hnp, if_true, if_false, deletePod, listPods]
  rcases hq2 : r.client.PodsList w.state r.namespace_
      { LabelSelector := "np.class=" ++ delete.Class, FieldSelector := "" } with ⟨a, s1⟩
  rw [hq2] at hq
  simp only at hq
  subst hq
  rfl

/-- C14 (as amended): for every Delete step on Node or Pod, a class query that
fails is reported as "no nodes found for class: C" (for pods "no pods found
for class: C"), whatever the error of the control plane, and a class query
that returns zero resources is reported otherwise: as the InsufficientCount
error "found 0 ... of class: C, but expected: N" when the count `N` is at
least 1, and as success when the count is 0.  In all these cases the list
query is the only call: no delete call is issued. -/
theorem RunDelete_query_failed_or_empty (r : runner σ) (step : config.Step)
    (delete : config.DeleteStep) (w : Run σ) (hstep : step.Delete = some delete) :
    (delete.Object = config.Node →
      (∀ e, (r.client.NodesList w.state (classOptions delete.Class)).1 = Except.error e →
        (RunDelete r step w).1 = Outcome.err ("no nodes found for class: " ++ delete.Class) ∧
        (RunDelete r step w).2.calls
          = w.calls ++ [Call.NodesList (classOptions delete.Class)]) ∧
      (∀ nodes : corev1.NodeList,
        (r.client.NodesList w.state (classOptions delete.Class)).1 = Except.ok nodes →
        nodes.Items.len = 0 →
        (RunDelete r step w).1
          = (if delete.Count = 0 then Outcome.nil
             else Outcome.err ("found " ++ toString (0 : Nat) ++ " nodes of class: "
              ++ delete.Class ++ ", but expected: " ++ toString delete.Count)) ∧
        (RunDelete r step w).2.calls
          = w.calls ++ [Call.NodesList (classOptions delete.Class)])) ∧
    (delete.Object = config.Pod →
      (∀ e, (r.client.PodsList w.state r.namespace_ (classOptions delete.Class)).1
          = Except.error e →
        (RunDelete r step w).1 = Outcome.err ("no pods found for class: " ++ delete.Class) ∧
        (RunDelete r step w).2.calls
          = w.calls ++ [Call.PodsList r.namespace_ (classOptions delete.Class)]) ∧
      (∀ pods : corev1.PodList,
        (r.client.PodsList w.state r.namespace_ (classOptions delete.Class)).1
          = Except.ok pods →
        pods.Items.len = 0 →
        (RunDelete r step w).1
          = (if delete.Count = 0 then Outcome.nil
             else Outcome.err ("found " ++ toString (0 : Nat) ++ " pods of class: "
              ++ delete.Class ++ ", but expected: " ++ toString delete.Count)) ∧
        (RunDelete r step w).2.calls
          = w.calls ++ [Call.PodsList r.namespace_ (classOptions delete.Class)])) := by
  constructor
  · intro hobj
    constructor
    · intro e hq
      rw [RunDelete_node_query_error r step delete w e hstep hobj hq]
      exact ⟨rfl, rfl⟩
    · intro nodes hq h0
      rw [RunDelete_node_eq r step delete w nodes hstep hobj hq, h0]
      by_cases hc : delete.Count = 0
      · simp [hc, firstNodeNames, writeAll]
      · have hpos : 0 < delete.Count := by omega
        simp [hc, hpos]
  · intro hobj
    constructor
    · intro e hq
      rw [RunDelete_pod_query_error r step delete w e hstep hobj hq]
      exact ⟨rfl, rfl⟩
    · intro pods hq h0
      rw [RunDelete_pod_eq r step delete w pods hstep hobj hq, h0]
      by_cases hc : delete.Count = 0
      · simp [hc, firstPodNames, writeAll]
      · have hpos : 0 < delete.Count := by omega
        simp [hc, hpos]

/-- C14, a concrete run: the class query of a delete of one worker pod fails
with a timeout, and the step reports that no pods were found. -/
theorem RunDelete_query_failed_or_empty_witness :
    (RunDelete (fixture.runnerOf [] [Except.error "timeout"] [])
        (fixture.deleteStep { Count := 1, Class := "worker", Object := config.Pod })
        fixture.start).1 = Outcome.err "no pods found for class: worker" :=
  (((RunDelete_query_failed_or_empty (fixture.runnerOf [] [Except.error "timeout"] [])
    (fixture.deleteStep { Count := 1, Class := "worker", Object := config.Pod })
    { Count := 1, Class := "worker", Object := config.Pod } fixture.start rfl).2 rfl).1
    "timeout" rfl).1

/-- C14 as stated fails on a class query that returns zero resources: a delete
of one worker pod gets the message of a failed query when the query fails, the
InsufficientCount message when the query returns an empty list, and a delete
of no pod succeeds on the empty list. -/
theorem RunDelete_empty_list_counterexample :
    (RunDelete (fixture.runnerOf [] [Except.error "timeout"] [])
        (fixture.deleteStep { Count := 1, Class := "worker", Object := config.Pod })
        fixture.start).1 = Outcome.err "no pods found for class: worker" ∧
    (RunDelete (fixture.runnerOf [] [Except.ok { Items := Slice.mk [] }] [])
        (fixture.deleteStep { Count := 1, Class := "worker", Object := config.Pod })
        fixture.start).1 = Outcome.err "found 0 pods of class: worker, but expected: 1" ∧
    (RunDelete (fixture.runnerOf [] [Except.ok { Items := Slice.mk [] }] [])
        (fixture.deleteStep { Count := 0, Class := "worker", Object := config.Pod })
        fixture.start).1 = Outcome.nil := by
  decide

/-! ## C15: a step without the payload of its verb -/

/-- C15: for each of `RunAssert`, `RunCreate`, `RunChange` and `RunDelete`, and
for every step whose payload for that verb is absent (nil), whatever its other
fields hold, the executor returns a defined missing-payload error (it does not
fault on the absent payload) and issues no call: the log and the state of the
control plane are as before. -/
theorem missing_payload (r : runner σ) (step : config.Step) (w : Run σ) :
    (step.Assert = none →
      RunAssert r step w = (Outcome.err "there is no assert in this step.", w)) ∧
    (step.Create = none →
      RunCreate r step w = (Outcome.err "there is no create in this step.", w)) ∧
    (step.Change = none →
      RunChange r step w = (Outcome.err "there is no change in this step.", w)) ∧
    (step.Delete = none →
      RunDelete r step w = (Outcome.err "there is no delete in this step.", w)) := by
  refine ⟨?_, ?_, ?_, ?_⟩
  · intro h; simp [RunAssert, h]
  · intro h; simp [RunCreate, h]
  · intro h; simp [RunChange, h]
  · intro h; simp [RunDelete, h]

/-- C15, a concrete run: a step of verb "change" that carries a create payload
and no change payload, against a cluster that lists a pod. -/
theorem missing_payload_witness :
    RunChange
        (fixture.runnerOf [] [Except.ok { Items := Slice.mk [fixture.workerPod "worker-0"] }] [])
        { Verb := config.Change, Assert := none,
          Create := some { Count := 1, Class := "worker", Object := config.Pod },
          Change := none, Delete := none }
        fixture.start
      = (Outcome.err "there is no change in this step.", fixture.start) :=
  (missing_payload
    (fixture.runnerOf [] [Except.ok { Items := Slice.mk [fixture.workerPod "worker-0"] }] [])
    { Verb := config.Change, Assert := none,
      Create := some { Count := 1, Class := "worker", Object := config.Pod },
      Change := none, Delete := none }
    fixture.start).2.2.1 rfl

/-! ## C16: an object kind the verb does not support -/

/-- C16: for every step whose payload names an object kind the verb does not
support (any kind other than Node or Pod for Assert, Create and Delete; any
kind other than Pod, Node included, for Change), the executor fails with the
unsupported-object error and issues no call: the log and the state of the
control plane are as before; for Assert this holds whatever the wait budget,
so no poll is made. -/
theorem unsupported_object (r : runner σ) (step : config.Step) (w : Run σ) :
    (∀ assert : config.AssertStep, step.Assert = some assert →
      assert.Object ≠ config.Node → assert.Object ≠ config.Pod →
      RunAssert r step w
        = (Outcome.err ("assert object: " ++ assert.Object ++ " not supported"), w)) ∧
    (∀ create : config.CreateStep, step.Create = some create →
      create.Object ≠ config.Node → create.Object ≠ config.Pod →
      RunCreate r step w
        = (Outcome.err ("create object: " ++ create.Object ++ " not supported"), w)) ∧
    (∀ delete : config.DeleteStep, step.Delete = some delete →
      delete.Object ≠ config.Node → delete.Object ≠ config.Pod →
      RunDelete r step w
        = (Outcome.err ("delete object: " ++ delete.Object ++ " not supported"), w)) ∧
    (∀ change : config.ChangeStep, step.Change = some change →
      change.Object ≠ config.Pod →
      RunChange r step w
        = (Outcome.err ("change object: " ++ change.Object ++ " not supported"), w)) := by
  refine ⟨?_, ?_, ?_, ?_⟩
  · intro a h h1 h2; simp [RunAssert, h, h1, h2]
  · intro c h h1 h2; simp [RunCreate, h, h1, h2]
  · intro d h h1 h2; simp [RunDelete, h, h1, h2]
  · intro c h h1; simp [RunChange, h, h1]

/-- C16, a concrete run: a change of one worker node from Pending to Running,
against a cluster that would list a pod. -/
theorem unsupported_object_witness :
    RunChange
        (fixture.runnerOf [] [Except.ok { Items := Slice.mk [fixture.workerPod "worker-0"] }] [])
        (fixture.changeStep { Count := 1, Class := "worker", Object := config.Node,
                              FromPodPhase := corev1.PodPending,
                              ToPodPhase := corev1.PodRunning })
        fixture.start
      = (Outcome.err ("change object: " ++ config.Node ++ " not supported"), fixture.start) :=
  (unsupported_object
    (fixture.runnerOf [] [Except.ok { Items := Slice.mk [fixture.workerPod "worker-0"] }] [])
    (fixture.changeStep { Count := 1, Class := "worker", Object := config.Node,
                          FromPodPhase := corev1.PodPending, ToPodPhase := corev1.PodRunning })
    fixture.start).2.2.2
    { Count := 1, Class := "worker", Object := config.Node,
      FromPodPhase := corev1.PodPending, ToPodPhase := corev1.PodRunning } rfl (by decide)

/-! ## C17: a change that finds no pod -/

/-- C17: for every Change step on Pod with distinct source and target phases,
if the query for the class and the source phase returns zero pods then
`RunChange` fails with the NotFound error ("found 0 pods ...") for every
requested count, 0 included, and the list query is its only call: no
update-status call is issued. -/
theorem RunChange_none_found (r : runner σ) (step : config.Step) (change : config.ChangeStep)
    (w : Run σ) (pods : corev1.PodList) (hstep : step.Change = some change)
    (hobj : change.Object = config.Pod) (hne : change.FromPodPhase ≠ change.ToPodPhase)
    (hq : (r.client.PodsList w.state r.namespace_
            { LabelSelector := "np.class=" ++ change.Class,
              FieldSelector := "status.phase=" ++ change.FromPodPhase }).1 = Except.ok pods)
    (hzero : pods.Items.len = 0) :
    (RunChange r step w).1
        = Outcome.err ("found 0 pods of class: " ++ change.Class ++ " and phase: "
            ++ change.FromPodPhase ++ ", expected: " ++ toString change.Count) ∧
      (RunChange r step w).2.calls
        = w.calls ++ [Call.PodsList r.namespace_
            { LabelSelector := "np.class=" ++ change.Class,
              FieldSelector := "status.phase=" ++ change.FromPodPhase }] := by
  simp only [RunChange, hstep, hobj, changePod, hne, if_false, if_true, listPods]
  rcases hq2 : r.client.PodsList w.state r.namespace_
      { LabelSelector := "np.class=" ++ change.Class,
        FieldSelector := "status.phase=" ++ change.FromPodPhase } with ⟨a, s1⟩
  rw [hq2] at hq
  simp only at hq
  subst hq
  simp [hzero]

/-- C17, a concrete run: a change of no pod at all from Pending to Running
against a cluster that lists no pending worker pod (here as the nil list). -/
theorem RunChange_none_found_witness :
    (RunChange (fixture.runnerOf [] [Except.ok { Items := Slice.nil }] [])
        (fixture.changeStep { Count := 0, Class := "worker", Object := config.Pod,
                              FromPodPhase := corev1.PodPending,
                              ToPodPhase := corev1.PodRunning })
        fixture.start).1
      = Outcome.err "found 0 pods of class: worker and phase: Pending, expected: 0" :=
  (RunChange_none_found (fixture.runnerOf [] [Except.ok { Items := Slice.nil }] [])
    (fixture.changeStep { Count := 0, Class := "worker", Object := config.Pod,
                          FromPodPhase := corev1.PodPending, ToPodPhase := corev1.PodRunning })
    { Count := 0, Class := "worker", Object := config.Pod,
      FromPodPhase := corev1.PodPending, ToPodPhase := corev1.PodRunning }
    fixture.start { Items := Slice.nil } rfl rfl (by decide) rfl rfl).1

/-! ## C19: a create step whose batch is cut short -/

/-- The front part of the resources of the indices below `n` that ends at
index `j` is the resources of the indices `0..j`. -/
theorem take_range_map {α : Type} (f : Nat → α) (n j : Nat) (hj : j < n) :
    ((List.range n).map f).take (j + 1) = (List.range (j + 1)).map f := by
  rw [← List.map_take, List.take_range, Nat.min_eq_left (by omega)]

/-- C19: for every Create step on Node or Pod with a class of the catalog
(`cls` is the first entry of that name) and count `N`, if the create call for
index `j < N` is the first that the control plane rejects, `RunCreate` returns
a failure (for a pod the error of the call, for a node that error inside
"could not create node of class: ...") and the log holds exactly the create
calls for the indices `0..j`, in order: no create call for an index above `j`
is attempted and no delete or other compensating call is issued. -/
theorem RunCreate_stops_at_rejection (r : runner σ) (step : config.Step)
    (create : config.CreateStep) (w : Run σ) (hstep : step.Create = some create) :
    (create.Object = config.Node → ∀ cls : config.NodeClass,
      r.nodeConfig.NodeClasses.find? (fun c => decide (c.Name = create.Class)) = some cls →
      ∀ j e, j < create.Count →
        (∀ i, i < j →
          answerAt r.client.Start ((List.range create.Count).map (newNode cls)) w.state i
            = some none) →
        answerAt r.client.Start ((List.range create.Count).map (newNode cls)) w.state j
          = some (some e) →
        (RunCreate r step w).1
          = Outcome.err ("could not create node of class: " ++ create.Class ++ ", err: " ++ e) ∧
        (RunCreate r step w).2.calls
          = w.calls ++ (List.range (j + 1)).map (fun i => Call.Start (newNode cls i))) ∧
    (create.Object = config.Pod → ∀ cls : config.PodClass,
      r.podConfig.PodClasses.find? (fun c => decide (c.Name = create.Class)) = some cls →
      ∀ j e, j < create.Count →
        (∀ i, i < j →
          answerAt (fun s pod => r.client.PodsCreate s r.namespace_ pod)
            ((List.range create.Count).map (newPod cls)) w.state i = some none) →
        answerAt (fun s pod => r.client.PodsCreate s r.namespace_ pod)
          ((List.range create.Count).map (newPod cls)) w.state j = some (some e) →
        (RunCreate r step w).1 = Outcome.err e ∧
        (RunCreate r step w).2.calls
          = w.calls ++ (List.range (j + 1)).map
              (fun i => Call.PodsCreate r.namespace_ (newPod cls i))) := by
  have hnp : config.Pod ≠ config.Node := by decide
  constructor
  · intro hobj cls hfind j e hj hb hat
    have hrun : RunCreate r step w = forCount (createNodeBody r create cls) create.Count 0 w := by
      simp only [RunCreate, hstep, hobj, if_true, createNode]
      exact createNodeIn_found r create w cls _ hfind
    rw [hrun, createNode_loop_eq, ← List.range_eq_range']
    have h := writeAll_rejected r.client.Start Call.Start
      (fun e => "could not create node of class: " ++ create.Class ++ ", err: " ++ e)
      ((List.range create.Count).map (newNode cls)) w j e hb hat
    refine ⟨h.1, ?_⟩
    rw [h.2, take_range_map _ _ _ hj, List.map_map]
    rfl
  · intro hobj cls hfind j e hj hb hat
    have hrun : RunCreate r step w = forCount (createPodBody r cls) create.Count 0 w := by
      simp only [RunCreate, hstep, hobj, hnp, if_true, if_false, createPod]
      exact createPodIn_found r create w cls _ hfind
    rw [hrun, createPod_loop_eq, ← List.range_eq_range']
    have h := writeAll_rejected (fun s pod => r.client.PodsCreate s r.namespace_ pod)
      (Call.PodsCreate r.namespace_) id
      ((List.range create.Count).map (newPod cls)) w j e hb hat
    refine ⟨h.1, ?_⟩
    rw [h.2, take_range_map _ _ _ hj, List.map_map]
    rfl

/-- C19, a concrete run: four worker nodes are asked for and the control plane
rejects the third start; the step fails after the starts of "worker-0",
"worker-1" and "worker-2" and makes no other call. -/
theorem RunCreate_stops_at_rejection_witness :
    (RunCreate (fixture.runnerOf [] [] [none, none, some "quota exceeded"])
        (fixture.createStep { Count := 4, Class := "worker", Object := config.Node })
        fixture.start).1
      = Outcome.err "could not create node of class: worker, err: quota exceeded" ∧
    createdNodeNames (RunCreate (fixture.runnerOf [] [] [none, none, some "quota exceeded"])
        (fixture.createStep { Count := 4, Class := "worker", Object := config.Node })
        fixture.start).2.calls = ["worker-0", "worker-1", "worker-2"] ∧
    (RunCreate (fixture.runnerOf [] [] [none, none, some "quota exceeded"])
        (fixture.createStep { Count := 4, Class := "worker", Object := config.Node })
        fixture.start).2.calls.length = 3 := by
  have h := (RunCreate_stops_at_rejection
    (fixture.runnerOf [] [] [none, none, some "quota exceeded"])
    (fixture.createStep { Count := 4, Class := "worker", Object := config.Node })
    { Count := 4, Class := "worker", Object := config.Node } fixture.start rfl).1 rfl
    { Name := "worker", Labels := [("np.class", "worker")], Resources := { raw := "cpu: 4" } }
    rfl 2 "quota exceeded" (by decide)
    (by
      intro i hi
      have h0 : i = 0 ∨ i = 1 := by omega
      rcases h0 with h0 | h0 <;> subst h0 <;> decide)
    (by decide)
  refine ⟨h.1.trans (by decide), ?_, ?_⟩
  · rw [h.2]; decide
  · rw [h.2]; decide

/-! ## C20: every index is in bounds -/

/-- A batch of writes never faults. -/
theorem writeAll_no_fault {α : Type} (call : α → Run σ → Option Error × Run σ)
    (wrap : Error → Error) (xs : List α) :
    ∀ (w : Run σ) (p : String), (writeAll call wrap xs w).1 ≠ Outcome.fault p := by
  induction xs with
  | nil => intro w p; simp [writeAll]
  | cons x xs ih =>
    intro w p
    simp only [writeAll]
    rcases call x w with ⟨a, w1⟩
    cases a with
    | some e => simp
    | none => exact ih w1 p

/-- The unrolled polling loop never faults when the poll never does. -/
theorem pollN_no_fault (r : runner σ) (poll : Run σ → Outcome × Run σ)
    (hpoll : ∀ w p, (poll w).1 ≠ Outcome.fault p) :
    ∀ (n : Nat) (err : Outcome) (w : Run σ), (∀ p, err ≠ Outcome.fault p) →
      ∀ p, (pollN r poll n err w).1 ≠ Outcome.fault p := by
  intro n
  induction n with
  | zero => intro err w h p; exact h p
  | succ n ih =>
    intro err w _ p
    have hb := hpoll w
    rcases hp : poll w with ⟨o, w1⟩
    rw [hp] at hb
    cases o with
    | nil => simp [pollN, hp]
    | fault q => exact absurd rfl (hb q)
    | err e =>
      simp only [pollN, hp]
      exact ih _ _ (by simp) p

/-- A poll never faults. -/
theorem pollOf_no_fault (r : runner σ) (assert : config.AssertStep) (w : Run σ) (p : String) :
    (pollOf r assert w).1 ≠ Outcome.fault p := by
  rw [(pollOf_eq r assert w).1]
  exact pollOutcome_ne_fault assert _ p

/-- An assert step never faults. -/
theorem RunAssert_no_fault (r : runner σ) (step : config.Step) (w : Run σ) (p : String) :
    (RunAssert r step w).1 ≠ Outcome.fault p := by
  cases hstep : step.Assert with
  | none => simp [RunAssert, hstep]
  | some assert =>
    by_cases hobj : assert.Object = config.Node ∨ assert.Object = config.Pod
    · by_cases hs : time.Seconds assert.Delay ≤ 0
      · have hnp : config.Pod ≠ config.Node := by decide
        simp only [RunAssert, hstep]
        rcases hobj with h | h
        · simp only [h, if_true]
          rw [pollLoop_no_steps r _ _ hs]
          simp
        · simp only [h, hnp, if_false, if_true]
          rw [pollLoop_no_steps r _ _ hs]
          simp
      · have hW : time.Seconds assert.Delay = ((time.Seconds assert.Delay).toNat : Int) := by
          rw [Int.toNat_of_nonneg]; omega
        rw [RunAssert_eq_pollN r step assert _ w hstep hobj hW]
        exact pollN_no_fault r _ (pollOf_no_fault r assert) _ _ _ (by simp) p
    · have h1 : ¬ assert.Object = config.Node := fun h => hobj (Or.inl h)
      have h2 : ¬ assert.Object = config.Pod := fun h => hobj (Or.inr h)
      simp [RunAssert, hstep, h1, h2]

/-- A create step never faults. -/
theorem RunCreate_no_fault (r : runner σ) (step : config.Step) (w : Run σ) (p : String) :
    (RunCreate r step w).1 ≠ Outcome.fault p := by
  have hnp : config.Pod ≠ config.Node := by decide
  cases hstep : step.Create with
  | none => simp [RunCreate, hstep]
  | some create =>
    by_cases hnode : create.Object = config.Node
    · cases hfind : r.nodeConfig.NodeClasses.find? (fun c => decide (c.Name = create.Class)) with
      | none =>
        have h := createNodeIn_unknown r create w r.nodeConfig.NodeClasses (by
          intro cls hcls hname
          have := List.find?_eq_none.mp hfind cls hcls
          simp [hname] at this)
        simp [RunCreate, hstep, hnode, createNode, h]
      | some cls =>
        have hrun : RunCreate r step w
            = forCount (createNodeBody r create cls) create.Count 0 w := by
          simp only [RunCreate, hstep, hnode, if_true, createNode]
          exact createNodeIn_found r create w cls _ hfind
        rw [hrun, createNode_loop_eq]
        exact writeAll_no_fault _ _ _ _ p
    · by_cases hpod : create.Object = config.Pod
      · cases hfind : r.podConfig.PodClasses.find? (fun c => decide (c.Name = create.Class)) with
        | none =>
          have h := createPodIn_unknown r create w r.podConfig.PodClasses (by
            intro cls hcls hname
            have := List.find?_eq_none.mp hfind cls hcls
            simp [hname] at this)
          simp [RunCreate, hstep, hpod, hnp, createPod, h]
        | some cls =>
          have hrun : RunCreate r step w = forCount (createPodBody r cls) create.Count 0 w := by
            simp only [RunCreate, hstep, hpod, hnp, if_true, if_false, createPod]
            exact createPodIn_found r create w cls _ hfind
          rw [hrun, createPod_loop_eq]
          exact writeAll_no_fault _ _ _ _ p
      · simp [RunCreate, hstep, hnode, hpod]

/-- A change step never faults: the count check keeps the index of the update
loop inside the list. -/
theorem RunChange_no_fault (r : runner σ) (step : config.Step) (w : Run σ) (p : String) :
    (RunChange r step w).1 ≠ Outcome.fault p := by
  cases hstep : step.Change with
  | none => simp [RunChange, hstep]
  | some change =>
    simp only [RunChange, hstep]
    by_cases hobj : change.Object = config.Pod
    · simp only [hobj, if_true, changePod]
      by_cases hsame : change.FromPodPhase = change.ToPodPhase
      · simp [hsame]
      · simp only [hsame, if_false]
        generalize listPods r
          { LabelSelector := "np.class=" ++ change.Class,
            FieldSelector := "status.phase=" ++ change.FromPodPhase } w = q
        rcases q with ⟨a, w1⟩
        cases a with
        | error e => simp
        | ok pods =>
          simp only
          split
          · simp
          · split
            · simp
            · rw [changePod_loop_eq r change pods w1 (by omega)]
              exact writeAll_no_fault _ _ _ _ p
    · simp [hobj]

/-- A delete step never faults: the count check keeps the index of the deletion
loop inside the list. -/
theorem RunDelete_no_fault (r : runner σ) (step : config.Step) (w : Run σ) (p : String) :
    (RunDelete r step w).1 ≠ Outcome.fault p := by
  cases hstep : step.Delete with
  | none => simp [RunDelete, hstep]
  | some delete =>
    simp only [RunDelete, hstep]
    by_cases hnode : delete.Object = config.Node
    · simp only [hnode, if_true, deleteNode]
      generalize listNodes r
        { LabelSelector := "np.class=" ++ delete.Class, FieldSelector := "" } w = q
      rcases q with ⟨a, w1⟩
      cases a with
      | error e => simp
      | ok nodes =>
        simp only
        split
        · simp
        · rw [deleteNode_loop_eq r nodes _ w1 (by omega)]
          exact writeAll_no_fault _ _ _ _ p
    · simp only [hnode, if_false]
      by_cases hpod : delete.Object = config.Pod
      · simp only [hpod, if_true, deletePod]
        generalize listPods r
          { LabelSelector := "np.class=" ++ delete.Class, FieldSelector := "" } w = q
        rcases q with ⟨a, w1⟩
        cases a with
        | error e => simp
        | ok pods =>
          simp only
          split
          · simp
          · rw [deletePod_loop_eq r pods _ w1 (by omega)]
            exact writeAll_no_fault _ _ _ _ p
      · simp [hpod]

/-- The dispatch of a step never faults. -/
theorem dispatch_no_fault (r : runner σ) (step : config.Step) (w : Run σ) (p : String) :
    (dispatch r step w).1 ≠ Outcome.fault p := by
  unfold dispatch
  split
  · exact RunAssert_no_fault r step w p
  · split
    · exact RunCreate_no_fault r step w p
    · split
      · exact RunChange_no_fault r step w p
      · split
        · exact RunDelete_no_fault r step w p
        · simp

/-- The loop of the driver never faults when every step it reaches has a raw
text. -/
theorem runSteps_no_fault (r : runner σ) (scenario : config.Scenario) :
    ∀ (steps : List config.Step) (i : Nat) (w : Run σ),
      i + steps.length ≤ scenario.RawSteps.length →
      ∀ p, (runSteps r scenario steps i w).1 ≠ Outcome.fault p := by
  intro steps
  induction steps with
  | nil => intro i w _ p; simp [runSteps]
  | cons step rest ih =>
    intro i w hlen p
    simp only [List.length_cons] at hlen
    have hi : i < scenario.RawSteps.length := by omega
    have hraw : scenario.RawSteps.get? i = some (scenario.RawSteps.get ⟨i, hi⟩) :=
      List.get?_eq_get hi
    have hd := dispatch_no_fault r step w
    rcases hdis : dispatch r step w with ⟨o, w1⟩
    rw [hdis] at hd
    simp only [runSteps, hraw, hdis]
    cases o with
    | nil => exact ih (i + 1) w1 (by omega) p
    | err e => simp
    | fault q => exact absurd rfl (hd q)

/-- C20: every slice index taken by the engine is in bounds.  No executor
faults (`RunAssert` and `RunCreate` take no index; in `changePod`, `deleteNode`
and `deletePod` the count check before the loop gives `count ≤ len(Items)`, so
every `Items[i]` with `i < count` is inside the returned list); for every
scenario whose RawSteps list is at least as long as its Steps list
`RunScenario` does not fault either, so its `RawSteps[i]` lookup never goes
out of range; and without that precondition `RunScenario` can index out of
range, as it does on a scenario with one step and no raw text. -/
theorem indices_in_bounds (r : runner σ) (w : Run σ) :
    (∀ (step : config.Step) (p : String),
      (RunAssert r step w).1 ≠ Outcome.fault p ∧ (RunCreate r step w).1 ≠ Outcome.fault p ∧
      (RunChange r step w).1 ≠ Outcome.fault p ∧ (RunDelete r step w).1 ≠ Outcome.fault p) ∧
    (∀ (pods : corev1.PodList) (nodes : corev1.NodeList) (count i : Nat), i < count →
      (¬ pods.Items.len < count → ∃ item, pods.Items.index i = some item) ∧
      (¬ nodes.Items.len < count → ∃ item, nodes.Items.index i = some item)) ∧
    (∀ scenario : config.Scenario, scenario.Steps.length ≤ scenario.RawSteps.length →
      ∀ p, (RunScenario r scenario w).1 ≠ Outcome.fault p) ∧
    (RunScenario (fixture.runnerOf [] [] [])
        { Name := "no raw text",
          Steps := [fixture.createStep { Count := 1, Class := "worker", Object := config.Pod }],
          RawSteps := [] }
        fixture.start).1 = Outcome.fault "index out of range" := by
  refine ⟨?_, ?_, ?_, by decide⟩
  · intro step p
    exact ⟨RunAssert_no_fault r step w p, RunCreate_no_fault r step w p,
      RunChange_no_fault r step w p, RunDelete_no_fault r step w p⟩
  · intro pods nodes count i hi
    constructor
    · intro h
      rw [Slice_index_eq]
      have hlt : i < pods.Items.toList.length := by rw [← Slice_len_eq]; omega
      exact ⟨_, List.get?_eq_get hlt⟩
    · intro h
      rw [Slice_index_eq]
      have hlt : i < nodes.Items.toList.length := by rw [← Slice_len_eq]; omega
      exact ⟨_, List.get?_eq_get hlt⟩
  · intro scenario hlen p
    exact runSteps_no_fault r scenario scenario.Steps 0 w (by omega) p

/-- C20, a concrete run: a scenario with a raw text for each of its two steps,
a create of two pods and a delete of two of the three pods listed, does not
fault. -/
theorem indices_in_bounds_witness :
    (RunScenario
        (fixture.runnerOf []
          [Except.ok { Items := Slice.mk [fixture.workerPod "worker-0",
              fixture.workerPod "worker-1", fixture.workerPod "worker-2"] }] [])
        { Name := "in bounds",
          Steps := [fixture.createStep { Count := 2, Class := "worker", Object := config.Pod },
                    fixture.deleteStep { Count := 2, Class := "worker", Object := config.Pod }],
          RawSteps := ["create 2 worker pods", "delete 2 worker pods"] }
        fixture.start).1 ≠ Outcome.fault "index out of range" :=
  (indices_in_bounds
    (fixture.runnerOf []
      [Except.ok { Items := Slice.mk [fixture.workerPod "worker-0",
          fixture.workerPod "worker-1", fixture.workerPod "worker-2"] }] [])
    fixture.start).2.2.1
    { Name := "in bounds",
      Steps := [fixture.createStep { Count := 2, Class := "worker", Object := config.Pod },
                fixture.deleteStep { Count := 2, Class := "worker", Object := config.Pod }],
      RawSteps := ["create 2 worker pods", "delete 2 worker pods"] }
    (by decide) "index out of range"

/-! ## C18: a create step followed by an assertion of its count -/

/-- The unrolled polling loop with a step left returns at once when its first
poll succeeds: one poll, no sleep. -/
theorem pollN_first_ok (r : runner σ) (poll : Run σ → Outcome × Run σ) (n : Nat)
    (err : Outcome) (w : Run σ) (h : (poll w).1 = Outcome.nil) :
    pollN r poll (n + 1) err w = (Outcome.nil, (poll w).2) := by
  rcases hp : poll w with ⟨o, w1⟩
  rw [hp] at h
  simp only at h
  subst h
  simp [pollN, hp]

/-- A poll of a pod assertion whose query returns a list that is not nil and
has the expected length: it succeeds, and the query is its only call. -/
theorem assertPod_ok (r : runner σ) (assert : config.AssertStep) (w : Run σ)
    (pods : corev1.PodList)
    (hq : (r.client.PodsList w.state r.namespace_ (assertPodOptions assert)).1 = Except.ok pods)
    (hnn : pods.Items ≠ Slice.nil) (hlen : pods.Items.len = assert.Count) :
    assertPod r assert w
      = (Outcome.nil,
         { state := (r.client.PodsList w.state r.namespace_ (assertPodOptions assert)).2,
           calls := w.calls ++ [Call.PodsList r.namespace_ (assertPodOptions assert)] }) := by
  simp only [assertPodOptions] at hq ⊢
  simp only [assertPod, listPods]
  rcases hq2 : r.client.PodsList w.state r.namespace_
      { LabelSelector := if assert.Class ≠ "" then "np.class=" ++ assert.Class else "",
        FieldSelector :=
          if assert.PodPhase ≠ "" then "status.phase=" ++ assert.PodPhase else "" } with ⟨a, s1⟩
  rw [hq2] at hq
  simp only at hq
  subst hq
  simp [hnn, hlen]

/-- A poll of a node assertion whose query returns a list that is not nil and
has the expected length: it succeeds, and the query is its only call. -/
theorem assertNode_ok (r : runner σ) (assert : config.AssertStep) (w : Run σ)
    (nodes : corev1.NodeList)
    (hq : (r.client.NodesList w.state (assertNodeOptions assert)).1 = Except.ok nodes)
    (hnn : nodes.Items ≠ Slice.nil) (hlen : nodes.Items.len = assert.Count) :
    assertNode r assert w
      = (Outcome.nil,
         { state := (r.client.NodesList w.state (assertNodeOptions assert)).2,
           calls := w.calls ++ [Call.NodesList (assertNodeOptions assert)] }) := by
  simp only [assertNodeOptions] at hq ⊢
  simp only [assertNode, listNodes]
  rcases hq2 : r.client.NodesList w.state
      { LabelSelector := if assert.Class ≠ "" then "np.class=" ++ assert.Class else "",
        FieldSelector := "" } with ⟨a, s1⟩
  rw [hq2] at hq
  simp only at hq
  subst hq
  simp [hnn, hlen]

/-- A slice with at least one element is not nil. -/
theorem Slice_ne_nil_of_len {α : Type} (s : Slice α) (h : 1 ≤ s.len) : s ≠ Slice.nil := by
  intro hs
  rw [hs] at h
  simp [Slice.len] at h

/-- A create step on Pod with a class of the catalog, all of whose calls are
accepted: it succeeds, in the state after the creations, having logged them. -/
theorem RunCreate_pod_accepted (r : runner σ) (step : config.Step)
    (create : config.CreateStep) (cls : config.PodClass) (w : Run σ)
    (hstep : step.Create = some create) (hobj : create.Object = config.Pod)
    (hfind : r.podConfig.PodClasses.find? (fun c => decide (c.Name = create.Class)) = some cls)
    (hacc : ∀ j, j < create.Count →
      answerAt (fun s pod => r.client.PodsCreate s r.namespace_ pod)
        ((List.range create.Count).map (newPod cls)) w.state j = some none) :
    RunCreate r step w
      = (Outcome.nil,
         { state := stateAfter (fun s pod => r.client.PodsCreate s r.namespace_ pod)
             ((List.range create.Count).map (newPod cls)) w.state,
           calls := w.calls ++ ((List.range create.Count).map (newPod cls)).map
             (Call.PodsCreate r.namespace_) }) := by
  have hnp : config.Pod ≠ config.Node := by decide
  have hrun : RunCreate r step w = forCount (createPodBody r cls) create.Count 0 w := by
    simp only [RunCreate, hstep, hobj, hnp, if_true, if_false, createPod]
    exact createPodIn_found r create w cls _ hfind
  rw [hrun, createPod_loop_eq, ← List.range_eq_range']
  exact writeAll_accepted _ _ _ _ _ (fun j hj => hacc j (by simpa using hj))

/-- A create step on Node with a class of the catalog, all of whose calls are
accepted: it succeeds, in the state after the starts, having logged them. -/
theorem RunCreate_node_accepted (r : runner σ) (step : config.Step)
    (create : config.CreateStep) (cls : config.NodeClass) (w : Run σ)
    (hstep : step.Create = some create) (hobj : create.Object = config.Node)
    (hfind : r.nodeConfig.NodeClasses.find? (fun c => decide (c.Name = create.Class)) = some cls)
    (hacc : ∀ j, j < create.Count →
      answerAt r.client.Start ((List.range create.Count).map (newNode cls)) w.state j
        = some none) :
    RunCreate r step w
      = (Outcome.nil,
         { state := stateAfter r.client.Start
             ((List.range create.Count).map (newNode cls)) w.state,
           calls := w.calls ++ ((List.range create.Count).map (newNode cls)).map Call.Start }) := by
  have hrun : RunCreate r step w = forCount (createNodeBody r create cls) create.Count 0 w := by
    simp only [RunCreate, hstep, hobj, if_true, createNode]
    exact createNodeIn_found r create w cls _ hfind
  rw [hrun, createNode_loop_eq, ← List.range_eq_range']
  exact writeAll_accepted _ _ _ _ _ (fun j hj => hacc j (by simpa using hj))

/-- An assert step on Node or Pod with a budget of at least one second whose
first poll succeeds: it returns success in the run that poll left. -/
theorem RunAssert_first_poll (r : runner σ) (step : config.Step) (assert : config.AssertStep)
    (w : Run σ) (hstep : step.Assert = some assert)
    (hobj : assert.Object = config.Node ∨ assert.Object = config.Pod)
    (hbudget : 1 ≤ time.Seconds assert.Delay) (hpoll : (pollOf r assert w).1 = Outcome.nil) :
    RunAssert r step w = (Outcome.nil, (pollOf r assert w).2) := by
  have hW : time.Seconds assert.Delay
      = (((time.Seconds assert.Delay).toNat - 1 + 1 : Nat) : Int) := by
    have h1 : 1 ≤ (time.Seconds assert.Delay).toNat := by omega
    rw [Nat.sub_add_cancel h1, Int.toNat_of_nonneg]
    omega
  rw [RunAssert_eq_pollN r step assert _ w hstep hobj hW]
  exact pollN_first_ok r _ _ _ w hpoll

/-- C18 (as amended): for every class `C` of the catalog (`cls` is its first
entry) and every count `N`, against a control plane that reflects writes
synchronously and a cluster that holds no resource of class `C` before, that
is: the `N` create calls of the step are accepted, and in the state they leave
the query of the assertion for class `C` is answered with exactly the `N`
resources just created, as a list that is not nil (which is a condition on the
control plane only for `N = 0`): running Create(count=N, class=C) and then
Assert(count=N, class=C) with a budget of at least one second makes both steps
succeed, and the assertion succeeds on its first poll: the one list query is
the only call it adds to the log, so there is no sleep. -/
theorem create_then_assert (r : runner σ) (cstep astep : config.Step)
    (create : config.CreateStep) (assert : config.AssertStep) (w : Run σ)
    (hc : cstep.Create = some create) (ha : astep.Assert = some assert)
    (hobj : assert.Object = create.Object) (hcls : assert.Class = create.Class)
    (hcnt : assert.Count = create.Count) (hbudget : 1 ≤ time.Seconds assert.Delay) :
    (create.Object = config.Pod → assert.PodPhase = "" →
      ∀ (cls : config.PodClass) (pods : corev1.PodList),
      r.podConfig.PodClasses.find? (fun c => decide (c.Name = create.Class)) = some cls →
      (∀ j, j < create.Count →
        answerAt (fun s pod => r.client.PodsCreate s r.namespace_ pod)
          ((List.range create.Count).map (newPod cls)) w.state j = some none) →
      (r.client.PodsList
          (stateAfter (fun s pod => r.client.PodsCreate s r.namespace_ pod)
            ((List.range create.Count).map (newPod cls)) w.state)
          r.namespace_ (classQuery create.Class)).1 = Except.ok pods →
      (pods.Items.toList.map (fun p => p.ObjectMeta.Name)).Perm
        ((List.range create.Count).map (fun i => create.Class ++ "-" ++ toString i)) →
      (1 ≤ create.Count ∨ pods.Items ≠ Slice.nil) →
      (RunCreate r cstep w).1 = Outcome.nil ∧
      (RunAssert r astep (RunCreate r cstep w).2).1 = Outcome.nil ∧
      (RunAssert r astep (RunCreate r cstep w).2).2.calls
        = (RunCreate r cstep w).2.calls
          ++ [Call.PodsList r.namespace_ (classQuery create.Class)]) ∧
    (create.Object = config.Node →
      ∀ (cls : config.NodeClass) (nodes : corev1.NodeList),
      r.nodeConfig.NodeClasses.find? (fun c => decide (c.Name = create.Class)) = some cls →
      (∀ j, j < create.Count →
        answerAt r.client.Start ((List.range create.Count).map (newNode cls)) w.state j
          = some none) →
      (r.client.NodesList
          (stateAfter r.client.Start ((List.range create.Count).map (newNode cls)) w.state)
          (classQuery create.Class)).1 = Except.ok nodes →
      (nodes.Items.toList.map (fun n => n.ObjectMeta.Name)).Perm
        ((List.range create.Count).map (fun i => create.Class ++ "-" ++ toString i)) →
      (1 ≤ create.Count ∨ nodes.Items ≠ Slice.nil) →
      (RunCreate r cstep w).1 = Outcome.nil ∧
      (RunAssert r astep (RunCreate r cstep w).2).1 = Outcome.nil ∧
      (RunAssert r astep (RunCreate r cstep w).2).2.calls
        = (RunCreate r cstep w).2.calls ++ [Call.NodesList (classQuery create.Class)]) := by
  have hnp : config.Pod ≠ config.Node := by decide
  constructor
  · intro hpod hphase cls pods hfind hacc hq hperm hnil
    have hopts : assertPodOptions assert = classQuery create.Class := by
      simp [assertPodOptions, classQuery, hcls, hphase]
    rw [← hopts] at hq ⊢
    have hlen : pods.Items.len = assert.Count := by
      have := hperm.length_eq
      simp only [List.length_map, List.length_range] at this
      rw [Slice_len_eq, this, hcnt]
    have hnn : pods.Items ≠ Slice.nil := by
      rcases hnil with h | h
      · exact Slice_ne_nil_of_len _ (by rw [hlen, hcnt]; exact h)
      · exact h
    have hao : assert.Object = config.Pod := by rw [hobj, hpod]
    rw [RunCreate_pod_accepted r cstep create cls w hc hpod hfind hacc]
    have hpoll := assertPod_ok r assert
      { state := stateAfter (fun s pod => r.client.PodsCreate s r.namespace_ pod)
          ((List.range create.Count).map (newPod cls)) w.state,
        calls := w.calls ++ ((List.range create.Count).map (newPod cls)).map
          (Call.PodsCreate r.namespace_) } pods hq hnn hlen
    have hpo : pollOf r assert = assertPod r assert := by
      unfold pollOf
      rw [hao, if_neg hnp]
    rw [RunAssert_first_poll r astep assert _ ha (Or.inr hao) hbudget (by rw [hpo, hpoll]),
      hpo, hpoll]
    exact ⟨rfl, rfl, rfl⟩
  · intro hnode cls nodes hfind hacc hq hperm hnil
    have hopts : assertNodeOptions assert = classQuery create.Class := by
      simp [assertNodeOptions, classQuery, hcls]
    rw [← hopts] at hq ⊢
    have hlen : nodes.Items.len = assert.Count := by
      have := hperm.length_eq
      simp only [List.length_map, List.length_range] at this
      rw [Slice_len_eq, this, hcnt]
    have hnn : nodes.Items ≠ Slice.nil := by
      rcases hnil with h | h
      · exact Slice_ne_nil_of_len _ (by rw [hlen, hcnt]; exact h)
      · exact h
    have hao : assert.Object = config.Node := by rw [hobj, hnode]
    rw [RunCreate_node_accepted r cstep create cls w hc hnode hfind hacc]
    have hpoll := assertNode_ok r assert
      { state := stateAfter r.client.Start
          ((List.range create.Count).map (newNode cls)) w.state,
        calls := w.calls ++ ((List.range create.Count).map (newNode cls)).map Call.Start }
      nodes hq hnn hlen
    have hpo : pollOf r assert = assertNode r assert := by
      unfold pollOf
      rw [hao, if_pos rfl]
    rw [RunAssert_first_poll r astep assert _ ha (Or.inl hao) hbudget (by rw [hpo, hpoll]),
      hpo, hpoll]
    exact ⟨rfl, rfl, rfl⟩

set_option maxRecDepth 4000 in
/-- C18, a concrete run on the in-memory control plane that hands an empty
result back as an empty list: two worker pods are created on an empty cluster
and the assertion of two worker pods within five seconds succeeds with one
list query after the two creations. -/
theorem create_then_assert_witness :
    (RunCreate (fixture.memoryRunner false)
        (fixture.createStep { Count := 2, Class := "worker", Object := config.Pod })
        fixture.emptyCluster).1 = Outcome.nil ∧
    (RunAssert (fixture.memoryRunner false)
        (fixture.assertStep { Count := 2, Class := "worker", Object := config.Pod,
                              PodPhase := "", Delay := 5000000000 })
        (RunCreate (fixture.memoryRunner false)
          (fixture.createStep { Count := 2, Class := "worker", Object := config.Pod })
          fixture.emptyCluster).2).1 = Outcome.nil ∧
    (RunAssert (fixture.memoryRunner false)
        (fixture.assertStep { Count := 2, Class := "worker", Object := config.Pod,
                              PodPhase := "", Delay := 5000000000 })
        (RunCreate (fixture.memoryRunner false)
          (fixture.createStep { Count := 2, Class := "worker", Object := config.Pod })
          fixture.emptyCluster).2).2.calls
      = (RunCreate (fixture.memoryRunner false)
          (fixture.createStep { Count := 2, Class := "worker", Object := config.Pod })
          fixture.emptyCluster).2.calls
        ++ [Call.PodsList "default"
              { LabelSelector := "np.class=worker", FieldSelector := "" }] := by
  have h := (create_then_assert (fixture.memoryRunner false)
    (fixture.createStep { Count := 2, Class := "worker", Object := config.Pod })
    (fixture.assertStep { Count := 2, Class := "worker", Object := config.Pod,
                          PodPhase := "", Delay := 5000000000 })
    { Count := 2, Class := "worker", Object := config.Pod }
    { Count := 2, Class := "worker", Object := config.Pod, PodPhase := "",
      Delay := 5000000000 }
    fixture.emptyCluster rfl rfl rfl rfl rfl (by decide)).1 rfl rfl
    { Name := "worker", Labels := [("np.class", "worker")], Spec := { raw := "busybox" } }
    { Items := Slice.mk
        [{ ObjectMeta := { Name := "worker-0", Labels := [("np.class", "worker")] },
           Spec := { raw := "busybox" }, Status := { Phase := "", Conditions := [] } },
         { ObjectMeta := { Name := "worker-1", Labels := [("np.class", "worker")] },
           Spec := { raw := "busybox" }, Status := { Phase := "", Conditions := [] } }] }
    rfl
    (by
      intro j hj
      have hj2 : j < 2 := hj
      have h0 : j = 0 ∨ j = 1 := by omega
      rcases h0 with h0 | h0 <;> subst h0 <;> decide)
    rfl
    (by
      have he : (["worker-0", "worker-1"] : List String)
          = (List.range 2).map (fun i => "worker" ++ "-" ++ toString i) := by decide
      exact he ▸ List.Perm.refl _)
    (Or.inl (by decide))
  exact ⟨h.1, h.2.1, h.2.2.trans (by decide)⟩

set_option maxRecDepth 4000 in
/-- C18 as stated fails for `N = 0` against a control plane that reflects
writes synchronously and hands an empty result back as the nil list: on the
empty cluster the create of no worker pod succeeds and the assertion of no
worker pod fails, with "found 0 ... but 0 expected".  The same control plane
does reflect writes: after the create of one worker pod the assertion of one
succeeds. -/
theorem create_then_assert_counterexample :
    (RunCreate (fixture.memoryRunner true)
        (fixture.createStep { Count := 0, Class := "worker", Object := config.Pod })
        fixture.emptyCluster).1 = Outcome.nil ∧
    (RunAssert (fixture.memoryRunner true)
        (fixture.assertStep { Count := 0, Class := "worker", Object := config.Pod,
                              PodPhase := "", Delay := 1000000000 })
        (RunCreate (fixture.memoryRunner true)
          (fixture.createStep { Count := 0, Class := "worker", Object := config.Pod })
          fixture.emptyCluster).2).1
      = Outcome.err "found 0 pods of class worker and phase: , but 0 expected" ∧
    (RunAssert (fixture.memoryRunner true)
        (fixture.assertStep { Count := 1, Class := "worker", Object := config.Pod,
                              PodPhase := "", Delay := 1000000000 })
        (RunCreate (fixture.memoryRunner true)
          (fixture.createStep { Count := 1, Class := "worker", Object := config.Pod })
          fixture.emptyCluster).2).1 = Outcome.nil := by
  refine ⟨by decide, ?_, ?_⟩
  · rw [RunAssert_eq_pollN _ _ _ 1 _ rfl (Or.inr rfl) (by decide)]
    decide
  · rw [RunAssert_eq_pollN _ _ _ 1 _ rfl (Or.inr rfl) (by decide)]
    decide

end exec

end Nodus
